import Mathlib

/-!
# Build tile registry (`source/core/textures/buildtiles.cpp`, `buildtiles.h`)

A shallow embedding of the tile registry of the engine and of the ART archive
loader, followed by theorems about it.

Conventions of the embedding.

* Machine integers are values of `Int`.  Conversions between signed and unsigned
  32-bit integers are written out (`toUInt32`, `toInt32`); bitwise operators act
  on the 32-bit pattern.  Signed arithmetic whose overflow is undefined in C++
  (`width * height`, `tileend - tilestart + 1`) is the mathematical operation.
* A byte is a `Fin 256`; a `TArray<uint8_t>` is a `List Byte`.  Reading past the
  end of a buffer yields 0 and writing past the end writes nothing.
* Objects created with `new` live in append-only heaps (`texHeap`, `fileHeap`);
  a pointer is a natural number and `0` is `nullptr`.
* The slot tables `tiles`, `tilesbak` and `tiledata` are maps on all of `Int`;
  the entries with index in `[0, MAXTILES)` are the C++ arrays, the other entries
  stand for the memory that an out-of-range index reaches.
* Diagnostics (`Printf`) and texture names are not part of the state.
-/

namespace BuildTilesModel

/-! ## Machine integers and bytes -/

/-- Conversion to `unsigned` / `uint32_t`: the value modulo `2^32`. -/
def toUInt32 (x : Int) : Int := x % 4294967296

/-- Conversion to `int` / `int32_t`: the two's-complement reading of the low 32 bits. -/
def toInt32 (x : Int) : Int :=
  if x % 4294967296 < 2147483648 then x % 4294967296 else x % 4294967296 - 4294967296

/-- Conversion to `uint8_t`: the value modulo `2^8`. -/
def toUInt8 (x : Int) : Nat := (x % 256).toNat

/-- Conversion to `uint16_t`: the value modulo `2^16`. -/
def toUInt16 (x : Int) : Int := x % 65536

/-- The operator `&` on two `int` operands. -/
def and32 (a b : Int) : Int :=
  toInt32 (((toUInt32 a).toNat &&& (toUInt32 b).toNat : Nat) : Int)

/-- The operator `|` on two `int` operands. -/
def or32 (a b : Int) : Int :=
  toInt32 (((toUInt32 a).toNat ||| (toUInt32 b).toNat : Nat) : Int)

/-- The operator `>>` on an `int` left operand (arithmetic shift). -/
def sar32 (a : Int) (k : Nat) : Int := a >>> k

abbrev Byte := Fin 256

/-- The byte at index `i` of a buffer, as an integer. -/
def peek (buf : List Byte) (i : Int) : Int :=
  if i < 0 then 0 else ((buf.getD i.toNat 0).val : Int)

/-- Modelled from the spec: the macro `LittleShort` (not part of the sources at hand)
applied to a `uint16_t` at byte offset `off`, a 16-bit little-endian read. -/
def readLE16 (buf : List Byte) (off : Int) : Int :=
  peek buf off + 256 * peek buf (off + 1)

/-- Modelled from the spec: the macro `LittleLong` (not part of the sources at hand)
applied to a 32-bit word at byte offset `off`, a 32-bit little-endian read. -/
def readLE32 (buf : List Byte) (off : Int) : Int :=
  peek buf off + 256 * peek buf (off + 1) + 65536 * peek buf (off + 2)
    + 16777216 * peek buf (off + 3)

/-! ## Constants and plain data (`buildtiles.h`) -/

def MAXTILES : Int := 30720

/-- The last 16 tiles are reserved. -/
def MAXUSERTILES : Int := MAXTILES - 16

inductive ReplacementType where
  | Art
  | Writable
  | Restorable
  | Canvas
  deriving DecidableEq, Repr

/-- The underlying `int` of the enum class. -/
def ReplacementType.toInt : ReplacementType → Int
  | .Art => 0
  | .Writable => 1
  | .Restorable => 2
  | .Canvas => 3

/-- Animation descriptor, with the fields `tileConvertAnimFormat` assigns.  Every field
holds the stored 8-bit pattern (`xofs` and `yofs` are read by the engine as
two's-complement offsets). -/
structure picanm_t where
  num : Nat := 0
  xofs : Nat := 0
  yofs : Nat := 0
  sf : Nat := 0
  extra : Nat := 0
  deriving DecidableEq, Repr

/-! ## `tileConvertAnimFormat` -/

/-- Unpack a 4 byte packed anim descriptor. -/
def tileConvertAnimFormat (picanimraw : Int) : picanm_t :=
  { num := toUInt8 (and32 picanimraw 63)
    xofs := toUInt8 (and32 (sar32 picanimraw 8) 255)
    yofs := toUInt8 (and32 (sar32 picanimraw 16) 255)
    sf := toUInt8 (or32 (and32 (sar32 picanimraw 24) 15) (and32 picanimraw 192))
    extra := toUInt8 (and32 (sar32 picanimraw 28) 15) }

/-! ## `CountTiles` -/

/-- Returns the number of tiles provided by an artfile (0 when the header is rejected). -/
def CountTiles (fn : String) (RawData : List Byte) : Int :=
  let version : Int := toInt32 (readLE32 RawData 0)
  if version ≠ 1 then 0
  else
    let tilestart : Int := toInt32 (readLE32 RawData 8)
    let tileend : Int := toInt32 (readLE32 RawData 12)
    if toUInt32 tilestart ≥ MAXUSERTILES ∨ toUInt32 tileend ≥ MAXUSERTILES then 0
    else if tileend < tilestart then 0
    else if tileend ≥ tilestart then tileend - tilestart + 1 else 0

/-! ## Textures and the registry state -/

/-- A texture pointer: `0` is `nullptr`, `p + 1` is cell `p` of `texHeap`. -/
abbrev TexPtr := Nat

/-- A pointer to a `BuildArtFile`: an index into `fileHeap`. -/
abbrev FilePtr := Nat

def nullptr : TexPtr := 0

/-- The tile texture classes of `buildtiles.h`, with `Width` and `Height` of the
base class.  An `FArtTile` refers to the `RawData` of the art file it was cut from.
`FCanvasTexture` is declared in `textures.h`, which is not among the sources at hand;
it is kept as a texture that has a size and no raw data. -/
inductive FTexture where
  | FArtTile (RawPixels : FilePtr) (Offset : Nat) (Width Height : Int)
  | FLooseTile (RawPixels : List Byte) (Width Height : Int)
  | FDummyTile (Width Height : Int)
  | FWritableTile (buffer : List Byte) (Width Height : Int)
  | FRestorableTile (Base : TexPtr) (buffer : List Byte) (Width Height : Int)
  | FCanvasTexture (Width Height : Int)
  deriving DecidableEq, Repr

def FTexture.GetTexelWidth : FTexture → Int
  | .FArtTile _ _ w _ => w
  | .FLooseTile _ w _ => w
  | .FDummyTile w _ => w
  | .FWritableTile _ w _ => w
  | .FRestorableTile _ _ w _ => w
  | .FCanvasTexture w _ => w

def FTexture.GetTexelHeight : FTexture → Int
  | .FArtTile _ _ _ h => h
  | .FLooseTile _ _ h => h
  | .FDummyTile _ h => h
  | .FWritableTile _ _ h => h
  | .FRestorableTile _ _ _ h => h
  | .FCanvasTexture _ h => h

/-- One ART file. -/
structure BuildArtFile where
  filename : String
  RawData : List Byte
  deriving DecidableEq, Repr

/-- A hightile replacement entry.  `faces` holds the six pointers `faces[0..5]` (only the
first is used by a plain replacement, all six by a skybox); the `float` members are
carried as rationals; the default value is the zero-initialised `replace = {}`. -/
structure HightileReplacement where
  faces : List TexPtr := [0, 0, 0, 0, 0, 0]
  scale : Rat × Rat := (0, 0)
  alphacut : Rat := 0
  specpower : Rat := 0
  specfactor : Rat := 0
  palnum : Int := 0
  flags : Int := 0
  deriving DecidableEq, Repr

/-- The decode cache of a slot: the decoded pixels and the time of the last use. -/
structure RawCacheNode where
  data : List Byte := []
  lastUseTime : Nat := 0
  deriving DecidableEq, Repr

/-- The per-slot record `tiledata[i]`. -/
structure TileDesc where
  picanm : picanm_t := {}
  picanmbackup : picanm_t := {}
  replacement : ReplacementType := ReplacementType.Art
  Hightiles : List HightileReplacement := []
  rawCache : RawCacheNode := {}
  deriving DecidableEq, Repr

/-- The tile container `BuildTiles` as `buildtiles.cpp` uses it (`tiles`, `tilesbak`,
`AllTiles`, `AllMapTiles`, `ArtFiles`, `PerMapArtFiles`, `tiledata`), together with the
heaps its pointers refer to. -/
@[ext]
structure BuildTiles where
  Placeholder : TexPtr
  ArtFiles : List FilePtr
  PerMapArtFiles : List FilePtr
  AllTiles : List TexPtr
  AllMapTiles : List TexPtr
  tiles : Int → TexPtr
  tilesbak : Int → TexPtr
  tiledata : Int → TileDesc
  texHeap : List FTexture
  fileHeap : List BuildArtFile

/-- The object a texture pointer refers to. -/
def deref (st : BuildTiles) (p : TexPtr) : Option FTexture :=
  if p = 0 then none else st.texHeap[p - 1]?

/-- The expression `new T(...)` for a texture class. -/
def newTexture (st : BuildTiles) (t : FTexture) : TexPtr × BuildTiles :=
  (st.texHeap.length + 1, { st with texHeap := st.texHeap ++ [t] })

/-- Modelled from the spec: `FTexture::GetTexelWidth` (textures.h is not among the
sources at hand), the width of the texture in pixels; 0 for a pointer to no object. -/
def GetTexelWidth (st : BuildTiles) (p : TexPtr) : Int :=
  match deref st p with
  | some t => t.GetTexelWidth
  | none => 0

/-- Modelled from the spec: `FTexture::GetTexelHeight` (textures.h is not among the
sources at hand), the height of the texture in pixels; 0 for a pointer to no object. -/
def GetTexelHeight (st : BuildTiles) (p : TexPtr) : Int :=
  match deref st p with
  | some t => t.GetTexelHeight
  | none => 0

/-- The bytes of `file->RawData`. -/
def fileBuffer (st : BuildTiles) (file : FilePtr) : List Byte :=
  match st.fileHeap[file]? with
  | some f => f.RawData
  | none => []

/-- Replace the bytes of `file->RawData` (same length: an in-place rewrite). -/
def setFileBuffer (st : BuildTiles) (file : FilePtr) (buf : List Byte) : BuildTiles :=
  match st.fileHeap[file]? with
  | some f => { st with fileHeap := st.fileHeap.set file { f with RawData := buf } }
  | none => st

/-! ## `GetTileTexture` -/

/-- The loop body of `GetTileTexture` and `tileGetCRC32`:
`if (*p == 0) *p = 255; else if (*p == 255) *p = 0;`. -/
def swapTransparent (p : Byte) : Byte :=
  if p = 0 then 255 else if p = 255 then 0 else p

/-- The loop `for (int i = 0; i < siz; i++, p++)` with `p` starting at index `p`
and `n` iterations left. -/
def swapLoop (buf : List Byte) (p : Nat) : Nat → List Byte
  | 0 => buf
  | n + 1 => swapLoop (buf.set p (swapTransparent (buf.getD p 0))) (p + 1) n

/-- Creates the `FArtTile` over `backingstore` at `offset` and moves the transparent
colour to index 0 in its pixel region. -/
def GetTileTexture (st : BuildTiles) (name : String) (backingstore : FilePtr) (offset : Nat)
    (width height : Int) : TexPtr × BuildTiles :=
  let r := newTexture st (FTexture.FArtTile backingstore offset width height)
  let siz := width * height
  (r.1, setFileBuffer r.2 backingstore
    (swapLoop (fileBuffer r.2 backingstore) offset siz.toNat))

/-! ## `BuildTiles::AddTile`, `BuildTiles::AddTiles` -/

/-- Installs `tex` in slot `tilenum`.  The `assert` on `AllTiles`/`AllMapTiles` is not
evaluated (release build); the theorems carry it as a hypothesis where it matters. -/
def AddTile (st : BuildTiles) (tilenum : Int) (tex : TexPtr) (permap : Bool) : BuildTiles :=
  let st1 :=
    if permap then { st with AllMapTiles := st.AllMapTiles ++ [tex] }
    else { st with AllTiles := st.AllTiles ++ [tex] }
  let st2 := { st1 with tiles := Function.update st1.tiles tilenum tex }
  if !permap then { st2 with tilesbak := Function.update st2.tilesbak tilenum tex } else st2

/-- The statements of the loop body of `AddTiles` that follow the `continue` test:
cut the tile out of `RawData`, install it in slot `i` and set its animation descriptor. -/
def AddTilesInstall (st : BuildTiles) (RawData : FilePtr) (i tiledata : Int)
    (width height anm : Int) : BuildTiles :=
  -- `uint32_t(tiledata - tiles)`
  let r := GetTileTexture st "" RawData (toUInt32 tiledata).toNat width height
  -- `AddTile(i, tex)`: the third argument is the default `permap = false`
  let st2 := AddTile r.2 i r.1 false
  { st2 with
    tiledata := Function.update st2.tiledata i
      { st2.tiledata i with picanm := tileConvertAnimFormat (toInt32 anm) } }

/-- The loop `for (int i = tilestart; i <= tileend; ++i)` of `AddTiles`; the first
argument counts the iterations left, `tiledata` is the byte offset of the pixel
pointer into `RawData`. -/
def AddTilesLoop (RawData : FilePtr) (tilestart tilesizx tilesizy picanm : Int) :
    Nat → Int → Int → BuildTiles → BuildTiles
  | 0, _, _, st => st
  | n + 1, i, tiledata, st =>
    let tiles := fileBuffer st RawData
    let pic := i - tilestart
    let width := readLE16 tiles (tilesizx + 2 * pic)
    let height := readLE16 tiles (tilesizy + 2 * pic)
    let anm := readLE32 tiles (picanm + 4 * pic)
    let size := width * height
    if width ≤ 0 ∨ height ≤ 0 then
      AddTilesLoop RawData tilestart tilesizx tilesizy picanm n (i + 1) tiledata st
    else
      AddTilesLoop RawData tilestart tilesizx tilesizy picanm n (i + 1) (tiledata + size)
        (AddTilesInstall st RawData i tiledata width height anm)

/-- Adds all the tiles in an artfile to the texture manager.  Neither `firsttile` nor
the slots it leads to are tested against `MAXTILES`: a store through a slot index outside
`[0, MAXTILES)` is a write outside `tiles[]`, `tilesbak[]` and `tiledata[]`. -/
def AddTiles (st : BuildTiles) (firsttile : Int) (RawData : FilePtr) (permap : Bool) :
    BuildTiles :=
  let tiles := fileBuffer st RawData
  let tilestart := toInt32 (readLE32 tiles 8)
  let tileend := toInt32 (readLE32 tiles 12)
  let tilesizx : Int := 16
  let tilesizy := tilesizx + 2 * (tileend - tilestart + 1)
  let picanm := tilesizy + 2 * (tileend - tilestart + 1)
  let tiledata := picanm + 4 * (tileend - tilestart + 1)
  let tileend := if firsttile ≠ -1 then tileend - tilestart + firsttile else tileend
  let tilestart := if firsttile ≠ -1 then firsttile else tilestart
  AddTilesLoop RawData tilestart tilesizx tilesizy picanm
    (tileend - tilestart + 1).toNat tilestart tiledata st

/-! ## `BuildTiles::LoadArtFile` -/

/-- Modelled from the spec: `FString::CompareNoCase` (zstring.h is not part of the
sources at hand), a case-insensitive comparison that yields 0 exactly when the two
names are equal ignoring case. -/
def CompareNoCase (a b : String) : Int :=
  if a.data.map Char.toLower = b.data.map Char.toLower then 0
  else if a.data.map Char.toLower < b.data.map Char.toLower then -1 else 1

/-- Index of the first loaded art file with this name, `ArtFiles.Size()` if there is none. -/
def FindFile (st : BuildTiles) (filename : String) : Nat :=
  st.ArtFiles.findIdx fun element =>
    match st.fileHeap[element]? with
    | some f => CompareNoCase filename f.filename == 0
    | none => false

/-- The eight bytes of the magic `"BUILDART"`. -/
def BUILDART : List Byte := [66, 85, 73, 76, 68, 65, 82, 84]

/-- The bytes at `artptr` after the statement
`if (memcmp(artptr, "BUILDART", 8) == 0) artdata.Delete(0, 8);`.  Modelled from the spec:
`TArray::Delete` (tarray.h is not among the sources at hand) moves the elements behind
the deleted range down and lowers the count, and keeps the allocation; the last eight
bytes at `artptr` are then still those of the file as it was read.  `CountTiles`,
`AddTiles` and the tiles read through the pointer and take no notice of the count. -/
def stripBUILDART (artdata : List Byte) : List Byte :=
  if artdata.take 8 = BUILDART then artdata.drop 8 ++ artdata.drop (artdata.length - 8)
  else artdata

/-- Loads one art file.  `fileSystem` stands for `fileSystem.OpenFileReader(fn)` followed
by `fr.Read()`: `none` when the reader is not open. -/
def LoadArtFile (fileSystem : String → Option (List Byte)) (st : BuildTiles) (fn : String)
    (mapart : Bool) (firsttile : Int) : Int × BuildTiles :=
  let old := FindFile st fn
  if old ≥ st.ArtFiles.length then
    match fileSystem fn with
    | some artdata =>
      if artdata.length > 16 then
        let artdata := stripBUILDART artdata
        if CountTiles fn artdata > 0 then
          let file : FilePtr := st.fileHeap.length
          let st1 := { st with fileHeap := st.fileHeap ++ [BuildArtFile.mk fn artdata] }
          let st2 :=
            if mapart then { st1 with PerMapArtFiles := st1.PerMapArtFiles ++ [file] }
            else { st1 with ArtFiles := st1.ArtFiles ++ [file] }
          (0, AddTiles st2 firsttile file mapart)
        else (0, st)
      else (0, st)
    | none => (-1, st)
  else (0, st)

/-! ## `BuildTiles::ValidateCustomTile` -/

/-- The bytes at `GetRawData()`, `none` for a null pointer. -/
def GetRawData (st : BuildTiles) : FTexture → Option (List Byte)
  | .FArtTile file off _ _ => some ((fileBuffer st file).drop off)
  | .FLooseTile px _ _ => some px
  | .FDummyTile _ _ => none
  | .FWritableTile buf _ _ => some buf
  | .FRestorableTile _ buf _ _ => some buf
  | .FCanvasTexture _ _ => none

/-- The method `FTileTexture::Get8BitPixels`: a fresh buffer of `Width * Height` bytes,
copied from the raw data, or zero when there is none. -/
def Get8BitPixels (st : BuildTiles) (t : FTexture) : List Byte :=
  let n := (t.GetTexelWidth * t.GetTexelHeight).toNat
  match GetRawData st t with
  | some p => (List.range n).map fun i => p.getD i 0
  | none => List.replicate n 0

/-- Checks if a custom tile has already been added to the list; creates it otherwise.
Returns `nullptr` on failure. -/
def ValidateCustomTile (st : BuildTiles) (tilenum : Int) (type : ReplacementType) :
    TexPtr × BuildTiles :=
  if tilenum < 0 ∨ tilenum ≥ MAXTILES then (nullptr, st)
  else if st.tiles tilenum ≠ st.tilesbak tilenum then (nullptr, st)
  else
    let tile := st.tiles tilenum
    let reptype := (st.tiledata tilenum).replacement
    if reptype = type then (tile, st)
    else if reptype.toInt > ReplacementType.Art.toInt then (nullptr, st)
    else
      match type with
      | .Writable =>
        let r := newTexture st (FTexture.FWritableTile [] 0 0)
        (r.1, AddTile r.2 tilenum r.1 false)
      | .Restorable =>
        if GetTexelWidth st tile = 0 ∨ GetTexelHeight st tile = 0 then (nullptr, st)
        else
          let buffer :=
            match deref st tile with
            | some base => Get8BitPixels st base
            | none => []
          let r := newTexture st
            (FTexture.FRestorableTile tile buffer (GetTexelWidth st tile) (GetTexelHeight st tile))
          (r.1, AddTile r.2 tilenum r.1 false)
      | .Canvas =>
        let r := newTexture st (FTexture.FCanvasTexture 0 0)
        (r.1, AddTile r.2 tilenum r.1 false)
      | .Art => (nullptr, st)

/-! ## `tileGetCRC32` -/

/-- Returns checksum for a given tile.  `crc32` stands for zlib's `crc32(0, pixels, size)`
on the `size` bytes at `pixels`; `return crc;` converts its value to the result type
`int32_t`.  The match is the `dynamic_cast<FArtTile*>`; the pointer `pixels` is
`&RawPixels[Offset]` and so never null. -/
def tileGetCRC32 (crc32 : List Byte → Int) (st : BuildTiles) (tileNum : Int) :
    Int × BuildTiles :=
  if toUInt32 tileNum ≥ toUInt32 MAXTILES then (0, st)
  else
    match deref st (st.tiles tileNum) with
    | some (.FArtTile file off w h) =>
      let size := w * h
      if size = 0 then (0, st)
      else
        let st1 := setFileBuffer st file (swapLoop (fileBuffer st file) off size.toNat)
        let crc := crc32 (((fileBuffer st1 file).drop off).take size.toNat)
        let st2 := setFileBuffer st1 file (swapLoop (fileBuffer st1 file) off size.toNat)
        (toInt32 crc, st2)
    | _ => (0, st)

/-! ## Replacement textures: `AddReplacement`, `DeleteReplacement`, `FindReplacement` -/

/-- The range-for loop of `AddReplacement`: the first entry with the palette of
`replace` and the same nullness of `faces[1]` is overwritten (`ht = replace; return;`);
`none` when the loop ends without a match. -/
def AddReplacementLoop (replace : HightileReplacement) :
    List HightileReplacement → Option (List HightileReplacement)
  | [] => none
  | ht :: rest =>
    if replace.palnum = ht.palnum
        ∧ (replace.faces.getD 1 nullptr == nullptr) = (ht.faces.getD 1 nullptr == nullptr) then
      some (replace :: rest)
    else (AddReplacementLoop replace rest).map fun l => ht :: l

/-- Overwrites the entry with the key of `replace` or pushes `replace` at the end. -/
def AddReplacement (st : BuildTiles) (picnum : Int) (replace : HightileReplacement) :
    BuildTiles :=
  let Hightiles := (st.tiledata picnum).Hightiles
  { st with
    tiledata := Function.update st.tiledata picnum
      { st.tiledata picnum with
        Hightiles :=
          match AddReplacementLoop replace Hightiles with
          | some l => l
          | none => Hightiles ++ [replace] } }

/-- The loop `for (int i = Hightiles.Size() - 1; i >= 0; i--)` of `DeleteReplacement`;
the first argument is `i + 1`. -/
def DeleteReplacementLoop (palnum : Int) :
    Nat → List HightileReplacement → List HightileReplacement
  | 0, Hightiles => Hightiles
  | i + 1, Hightiles =>
    match Hightiles[i]? with
    | some ht =>
      if ht.palnum = palnum then DeleteReplacementLoop palnum i (Hightiles.eraseIdx i)
      else DeleteReplacementLoop palnum i Hightiles
    | none => DeleteReplacementLoop palnum i Hightiles

/-- Deletes the entries of palette `palnum` from the list of slot `picnum`. -/
def DeleteReplacement (st : BuildTiles) (picnum palnum : Int) : BuildTiles :=
  let Hightiles := (st.tiledata picnum).Hightiles
  { st with
    tiledata := Function.update st.tiledata picnum
      { st.tiledata picnum with
        Hightiles := DeleteReplacementLoop palnum Hightiles.length Hightiles } }

/-- The statement `tiledata[picnum].Hightiles.Clear()` (the `assert` is not evaluated). -/
def DeleteReplacements (st : BuildTiles) (picnum : Int) : BuildTiles :=
  { st with
    tiledata := Function.update st.tiledata picnum { st.tiledata picnum with Hightiles := [] } }

/-- The range-for loop of `FindReplacement`: the index of the first entry with palette
`palnum` whose `faces[1] != nullptr` equals `skybox` (`return &rep`), `none` when the loop
ends without a match. -/
def FindReplacementPass (palnum : Int) (skybox : Bool) : List HightileReplacement → Option Nat
  | [] => none
  | rep :: rest =>
    if rep.palnum = palnum ∧ (rep.faces.getD 1 nullptr != nullptr) = skybox then some 0
    else (FindReplacementPass palnum skybox rest).map fun i => i + 1

/-- The loop `for (;;)` of `FindReplacement` with `fuel` passes allowed: the outer `none`
means that the passes ran out, `some none` is `return nullptr`.  The constants
`MAXPALOOKUPS` and `RESERVEDPALS` are not declared in the sources at hand and are
parameters. -/
def FindReplacementLoop (MAXPALOOKUPS RESERVEDPALS : Int) (Hightiles : List HightileReplacement)
    (skybox : Bool) : Nat → Int → Option (Option Nat)
  | 0, _ => none
  | fuel + 1, palnum =>
    match FindReplacementPass palnum skybox Hightiles with
    | some i => some (some i)
    | none =>
      if palnum = 0 ∨ palnum ≥ MAXPALOOKUPS - RESERVEDPALS then some none
      else FindReplacementLoop MAXPALOOKUPS RESERVEDPALS Hightiles skybox fuel 0

/-- Looks up the replacement of slot `picnum` for a palette; the result is the index of
the entry found in the slot's list. -/
def FindReplacement (MAXPALOOKUPS RESERVEDPALS : Int) (fuel : Nat) (st : BuildTiles)
    (picnum palnum : Int) (skybox : Bool) : Option (Option Nat) :=
  FindReplacementLoop MAXPALOOKUPS RESERVEDPALS (st.tiledata picnum).Hightiles skybox fuel palnum

/-- The key by which `AddReplacement` matches entries: the palette and whether
`faces[1]` is null. -/
def hightileKey (h : HightileReplacement) : Int × Bool :=
  (h.palnum, h.faces.getD 1 nullptr == nullptr)

/-- One call of `AddReplacement`, `DeleteReplacement` or `DeleteReplacements` on some slot. -/
inductive HightileStep : BuildTiles → BuildTiles → Prop where
  | add (st : BuildTiles) (picnum : Int) (replace : HightileReplacement) :
      HightileStep st (AddReplacement st picnum replace)
  | delete (st : BuildTiles) (picnum palnum : Int) :
      HightileStep st (DeleteReplacement st picnum palnum)
  | clear (st : BuildTiles) (picnum : Int) :
      HightileStep st (DeleteReplacements st picnum)

/-! ## `tileDelete`, `tileRemoveReplacement`, `artClearMapArt` -/

def tileRemoveReplacement (st : BuildTiles) (tile : Int) : BuildTiles :=
  if toUInt32 tile ≥ MAXTILES then st else DeleteReplacements st tile

/-- Resets slot `tile` to the placeholder.  The calls `vox_undefine(tile)` and
`md_undefinetile(tile)` act on the voxel and model tables, which are not part of this
state. -/
def tileDelete (st : BuildTiles) (tile : Int) : BuildTiles :=
  -- `tiles[tile] = tilesbak[tile] = Placeholder`
  let st1 := { st with tilesbak := Function.update st.tilesbak tile st.Placeholder }
  let st2 := { st1 with tiles := Function.update st1.tiles tile st1.Placeholder }
  tileRemoveReplacement st2 tile

/-- Closes all per-map ART files: `AllMapTiles.DeleteAndClear()` and
`PerMapArtFiles.DeleteAndClear()`.  The lists become empty; the deleted objects keep
their cells in the heaps, which only grow. -/
def CloseAllMapArt (st : BuildTiles) : BuildTiles :=
  { st with AllMapTiles := [], PerMapArtFiles := [] }

/-- Clear map specific ART; the `memcpy` copies the `MAXTILES` entries of `tilesbak`
over those of `tiles`. -/
def artClearMapArt (st : BuildTiles) : BuildTiles :=
  let st1 := CloseAllMapArt st
  { st1 with tiles := fun i => if 0 ≤ i ∧ i < MAXTILES then st1.tilesbak i else st1.tiles i }

/-! ## `tileSetHightileReplacement`, `tileSetSkybox` -/

/-- Specifies a replacement texture for an ART tile.  `TexMan` stands for
`TexMan.CheckForTexture(name, ETextureType::Any)` followed by `TexMan.GetTexture(texid)`:
`none` when the id is not valid, otherwise the texture pointer.  `MAXPALOOKUPS` is a
parameter. -/
def tileSetHightileReplacement (MAXPALOOKUPS : Int) (TexMan : String → Option TexPtr)
    (st : BuildTiles) (picnum palnum : Int) (filename : String)
    (alphacut xscale yscale specpower specfactor : Rat) (flags : Int) : Int × BuildTiles :=
  if toUInt32 picnum ≥ toUInt32 MAXTILES then (-1, st)
  else if toUInt32 palnum ≥ toUInt32 MAXPALOOKUPS then (-1, st)
  else
    let tex := st.tiles picnum
    if GetTexelWidth st tex ≤ 0 ∨ GetTexelHeight st tex ≤ 0 then (-1, st)
    else
      let replace : HightileReplacement := {}
      match TexMan filename with
      | none => (-1, st)
      | some face =>
        let replace := { replace with faces := replace.faces.set 0 face }
        -- `if (replace.faces[0] == nullptr)` governs the next statement
        let replace :=
          if replace.faces.getD 0 nullptr = nullptr then
            { replace with alphacut := min alphacut 1 }
          else replace
        let replace := { replace with scale := (xscale, yscale) }
        let replace := { replace with specpower := specpower }
        let replace := { replace with specfactor := specfactor }
        let replace := { replace with flags := toUInt8 flags }
        let replace := { replace with palnum := toUInt16 palnum }
        (0, AddReplacement st picnum replace)

/-- The loop `for (auto &face : replace.faces)` of `tileSetSkybox` over the face indices
left; every pass resolves `*facenames`, and `facenames` is not advanced.  `none` is the
early `return -1`. -/
def tileSetSkyboxLoop (TexMan : String → Option TexPtr) (facenames : List String) :
    List Nat → List TexPtr → Option (List TexPtr)
  | [], faces => some faces
  | i :: rest, faces =>
    match TexMan (facenames.getD 0 "") with
    | none => none
    | some face => tileSetSkyboxLoop TexMan facenames rest (faces.set i face)

/-- Define the faces of a skybox. -/
def tileSetSkybox (MAXPALOOKUPS : Int) (TexMan : String → Option TexPtr) (st : BuildTiles)
    (picnum palnum : Int) (facenames : List String) (flags : Int) : Int × BuildTiles :=
  if toUInt32 picnum ≥ toUInt32 MAXTILES then (-1, st)
  else if toUInt32 palnum ≥ toUInt32 MAXPALOOKUPS then (-1, st)
  else
    let tex := st.tiles picnum
    if GetTexelWidth st tex ≤ 0 ∨ GetTexelHeight st tex ≤ 0 then (-1, st)
    else
      let replace : HightileReplacement := {}
      match tileSetSkyboxLoop TexMan facenames [0, 1, 2, 3, 4, 5] replace.faces with
      | none => (-1, st)
      | some faces =>
        let replace := { replace with faces := faces }
        let replace := { replace with flags := toUInt16 flags }
        let replace := { replace with palnum := toUInt16 palnum }
        (0, AddReplacement st picnum replace)

/-! ## The decode cache: `InvalidateTile`, `tilePtr`, `tileData`, `tilesiz`

The inline functions of `buildtiles.h` name the active texture of a slot
`tiledata[num].texture`; `buildtiles.cpp` keeps it in `tiles[num]`, which is what the
definitions below read. -/

/-- Clears the decode cache of an in-range slot.  Cleaning the hardware textures of the
tile and of its replacements leaves the registry as it is. -/
def InvalidateTile (st : BuildTiles) (num : Int) : BuildTiles :=
  if toUInt32 num < MAXTILES then
    { st with
      tiledata := Function.update st.tiledata num
        { st.tiledata num with
          rawCache := { (st.tiledata num).rawCache with data := [] } } }
  else st

/-- The statements of `tilePtr` that run when the cache is empty: `none` for the early
`return nullptr`, otherwise the registry with the decoded pixels stored in the cache. -/
def tilePtrDecode (st : BuildTiles) (num : Int) : Option BuildTiles :=
  let tex := st.tiles num
  if tex = nullptr ∨ GetTexelWidth st tex ≤ 0 ∨ GetTexelHeight st tex ≤ 0 then none
  else
    let pixels :=
      match deref st tex with
      | some t => Get8BitPixels st t
      | none => []
    some { st with
      tiledata := Function.update st.tiledata num
        { st.tiledata num with
          rawCache := { (st.tiledata num).rawCache with data := pixels } } }

/-- The function `tilePtr`: the bytes of the decode cache of the slot (`none` is
`nullptr`) and the registry after the call.  `I_nsTime` is the value the clock returns. -/
def tilePtr (I_nsTime : Nat) (st : BuildTiles) (num : Int) : Option (List Byte) × BuildTiles :=
  let decoded : Option BuildTiles :=
    if (st.tiledata num).rawCache.data.length = 0 then tilePtrDecode st num else some st
  match decoded with
  | none => (none, st)
  | some st1 =>
    let st2 :=
      { st1 with
        tiledata := Function.update st1.tiledata num
          { st1.tiledata num with
            rawCache := { (st1.tiledata num).rawCache with lastUseTime := I_nsTime } } }
    (some (st2.tiledata num).rawCache.data, st2)

/-- The function `tileData`: the raw data of the active texture when it is an
`FWritableTile` (or the derived `FRestorableTile`), `none` (`nullptr`) otherwise. -/
def tileData (st : BuildTiles) (num : Int) : Option (List Byte) :=
  match deref st (st.tiles num) with
  | some (.FWritableTile buffer _ _) => some buffer
  | some (.FRestorableTile _ buffer _ _) => some buffer
  | _ => none

/-- The registry after the bytes at `tileData(num)` were rewritten to `buf`. -/
def setTileData (st : BuildTiles) (num : Int) (buf : List Byte) : BuildTiles :=
  match deref st (st.tiles num) with
  | some (.FWritableTile _ w h) =>
    { st with texHeap := st.texHeap.set (st.tiles num - 1) (FTexture.FWritableTile buf w h) }
  | some (.FRestorableTile base _ w h) =>
    { st with texHeap := st.texHeap.set (st.tiles num - 1) (FTexture.FRestorableTile base buf w h) }
  | _ => st

/-- Conversion to `int16_t`: the two's-complement reading of the low 16 bits. -/
def toInt16 (x : Int) : Int :=
  if x % 65536 < 32768 then x % 65536 else x % 65536 - 65536

/-- The accessor `tilesiz[index]`.  Modelled from the spec: `GetDisplayWidth` and
`GetDisplayHeight` (textures.h is not among the sources at hand) are the size of the
tile in pixels, the texel size of a tile texture. -/
def tilesiz (st : BuildTiles) (index : Int) : Int × Int :=
  (toInt16 (GetTexelWidth st (st.tiles index)), toInt16 (GetTexelHeight st (st.tiles index)))

/-! ## Map art: `artSetupMapArt` -/

def MAXARTFILES_BASE : Nat := 200

def MAXARTFILES_TOTAL : Nat := 220

/-- The globals of `buildtiles.cpp`: the registry `TileFiles` and the file-static string
`currentMapArt`. -/
structure Globals where
  TileFiles : BuildTiles
  currentMapArt : String

/-- The call `artClearMapArt()` on the globals.  The function is defined above the
declaration of `currentMapArt` and has no statement on it. -/
def Globals.artClearMapArt (g : Globals) : Globals :=
  { g with TileFiles := BuildTilesModel.artClearMapArt g.TileFiles }

/-- The string `FStringf("%s_%02d.art", filename, i)` for `i < 100`. -/
def mapArtName (filename : String) (i : Nat) : String :=
  filename ++ "_" ++ String.mk [Char.ofNat (48 + i / 10), Char.ofNat (48 + i % 10)] ++ ".art"

/-- The loop `for (i = 0; i < MAXARTFILES_TOTAL - MAXARTFILES_BASE; i++)` of
`artSetupMapArt`, over the values of `i` left; the result of `LoadArtFile` is dropped. -/
def artSetupMapArtLoop (fileSystem : String → Option (List Byte)) (filename : String) :
    List Nat → BuildTiles → BuildTiles
  | [], st => st
  | i :: rest, st =>
    artSetupMapArtLoop fileSystem filename rest
      (LoadArtFile fileSystem st (mapArtName filename i) true (-1)).2

/-- Load map specified ART.  The first statement is
`if (currentMapArt.CompareNoCase(filename)) return;`: the function returns when the
result of the comparison is not zero. -/
def artSetupMapArt (fileSystem : String → Option (List Byte)) (g : Globals)
    (filename : String) : Globals :=
  if CompareNoCase g.currentMapArt filename ≠ 0 then g
  else
    let g1 := { g with currentMapArt := filename }
    let g2 := Globals.artClearMapArt g1
    match fileSystem (mapArtName filename 0) with
    | none => g2
    | some _ =>
      { g2 with
        TileFiles :=
          artSetupMapArtLoop fileSystem filename
            (List.range (MAXARTFILES_TOTAL - MAXARTFILES_BASE)) g2.TileFiles }

/-! ## `findUnusedTile`, `tileCreateRotated` -/

/-- The loop `for (; lastUnusedTile >= 0; --lastUnusedTile)` of `findUnusedTile`; the
first argument is the number of iterations left, the result is the returned index and
the value the static `lastUnusedTile` is left with. -/
def findUnusedTileLoop (st : BuildTiles) : Nat → Int → Int × Int
  | 0, lastUnusedTile => (-1, lastUnusedTile)
  | n + 1, lastUnusedTile =>
    let tex := st.tiles lastUnusedTile
    if tex = nullptr ∨ GetTexelWidth st tex ≤ 0 ∨ GetTexelHeight st tex ≤ 0 then
      (lastUnusedTile, lastUnusedTile)
    else findUnusedTileLoop st n (lastUnusedTile - 1)

/-- The function `findUnusedTile`; `lastUnusedTile` is its function-static cursor, which
starts at `MAXUSERTILES - 1`. -/
def findUnusedTile (st : BuildTiles) (lastUnusedTile : Int) : Int × Int :=
  findUnusedTileLoop st (lastUnusedTile + 1).toNat lastUnusedTile

/-- The assignments `*(dst + y * width + xofs) = *(src + y + yofs)` of the nested loop of
`tileCreateRotated` in the order they run, each as the pair of the index into `dst` and
the index into `src`. -/
def tileCreateRotatedWrites (width height : Int) : List (Nat × Nat) :=
  (List.range width.toNat).flatMap fun (x : Nat) =>
    (List.range height.toNat).map fun (y : Nat) =>
      (((y : Int) * width + (width - (x : Int) - 1)).toNat, ((y : Int) + height * (x : Int)).toNat)

/-- The nested loop of `tileCreateRotated` on the buffers `src` and `dst`. -/
def tileCreateRotatedLoop (src : List Byte) (width height : Int) (dst : List Byte) : List Byte :=
  (tileCreateRotatedWrites width height).foldl (fun dst p => dst.set p.1 (src.getD p.2 0)) dst

/-- The function `tileCreateRotated`: the returned index, the registry and the cursor of
`findUnusedTile` after the call.  `dbuffer` starts as `Width * Height` bytes (of
unspecified content, here zero). -/
def tileCreateRotated (st : BuildTiles) (lastUnusedTile : Int) (tileNum : Int) :
    Int × BuildTiles × Int :=
  if toUInt32 tileNum ≥ MAXTILES then (tileNum, st, lastUnusedTile)
  else
    let tex := st.tiles tileNum
    if tex = nullptr ∨ GetTexelWidth st tex ≤ 0 ∨ GetTexelHeight st tex ≤ 0 then
      (tileNum, st, lastUnusedTile)
    else
      let buffer :=
        match deref st tex with
        | some t => Get8BitPixels st t
        | none => []
      let dbuffer : List Byte :=
        List.replicate (GetTexelWidth st tex * GetTexelHeight st tex).toNat 0
      let width := GetTexelWidth st tex
      let height := GetTexelHeight st tex
      let dbuffer := tileCreateRotatedLoop buffer width height dbuffer
      let r := newTexture st (FTexture.FLooseTile dbuffer (GetTexelHeight st tex) (GetTexelWidth st tex))
      let found := findUnusedTile r.2 lastUnusedTile
      let mapart : Bool := decide (r.2.tiles tileNum ≠ r.2.tilesbak tileNum)
      (found.1, AddTile r.2 found.1 r.1 mapart, found.2)

/-! ## `tileCopySection` -/

/-- The read `p[i]` of a byte inside the buffer `p`; `none` outside it. -/
def loadByte (p : List Byte) (i : Int) : Option Byte :=
  if 0 ≤ i ∧ i < p.length then p[i.toNat]? else none

/-- The write `p[i] = v` inside the buffer `p`; `none` outside it. -/
def storeByte (p : List Byte) (i : Int) (v : Byte) : Option (List Byte) :=
  if 0 ≤ i ∧ i < p.length then some (p.set i.toNat v) else none

/-- The inner loop `for (int j = 0; j < ysiz; j++)` of `tileCopySection` with the number
of iterations left, the current `y1`, `y2` and the destination buffer; `none` when a
read or a write leaves its buffer. -/
def tileCopySectionColumn (TRANSPARENT_INDEX : Byte) (p1 : List Byte)
    (ysiz1 xsiz2 ysiz2 x1 x2 : Int) : Nat → Int → Int → List Byte → Option (List Byte)
  | 0, _, _, p2 => some p2
  | n + 1, y1, y2, p2 =>
    let written : Option (List Byte) :=
      if x2 ≥ 0 ∧ y2 ≥ 0 ∧ x2 < xsiz2 ∧ y2 < ysiz2 then
        match loadByte p1 (x1 * ysiz1 + y1) with
        | none => none
        | some src =>
          if src ≠ TRANSPARENT_INDEX then storeByte p2 (x2 * ysiz2 + y2) src else some p2
      else some p2
    match written with
    | none => none
    | some p2 =>
      tileCopySectionColumn TRANSPARENT_INDEX p1 ysiz1 xsiz2 ysiz2 x1 x2 n
        (if y1 + 1 ≥ ysiz1 then 0 else y1 + 1) (y2 + 1) p2

/-- The outer loop `for (int i = 0; i < xsiz; i++)` of `tileCopySection` with the
number of iterations left, the current `x1`, `x2` and the destination buffer. -/
def tileCopySectionLoop (TRANSPARENT_INDEX : Byte) (p1 : List Byte)
    (xsiz1 ysiz1 xsiz2 ysiz2 sy1 ysiz sy2 : Int) : Nat → Int → Int → List Byte → Option (List Byte)
  | 0, _, _, p2 => some p2
  | n + 1, x1, x2, p2 =>
    match tileCopySectionColumn TRANSPARENT_INDEX p1 ysiz1 xsiz2 ysiz2 x1 x2 ysiz.toNat sy1 sy2 p2 with
    | none => none
    | some p2 =>
      tileCopySectionLoop TRANSPARENT_INDEX p1 xsiz1 ysiz1 xsiz2 ysiz2 sy1 ysiz sy2 n
        (if x1 + 1 ≥ xsiz1 then 0 else x1 + 1) (x2 + 1) p2

/-- Copy a block of a tile.  `TRANSPARENT_INDEX` is a constant of the engine that the
sources at hand do not declare; `none` stands for an access outside a buffer (a null
source pointer is a buffer of no bytes). -/
def tileCopySection (TRANSPARENT_INDEX : Byte) (I_nsTime : Nat) (st : BuildTiles)
    (tilenum1 sx1 sy1 xsiz ysiz tilenum2 sx2 sy2 : Int) : Option BuildTiles :=
  let xsiz1 := (tilesiz st tilenum1).1
  let ysiz1 := (tilesiz st tilenum1).2
  let xsiz2 := (tilesiz st tilenum2).1
  let ysiz2 := (tilesiz st tilenum2).2
  if xsiz1 > 0 ∧ ysiz1 > 0 ∧ xsiz2 > 0 ∧ ysiz2 > 0 then
    let r := tilePtr I_nsTime st tilenum1
    let p1 := r.1.getD []
    match tileData r.2 tilenum2 with
    | none => some r.2
    | some p2 =>
      match tileCopySectionLoop TRANSPARENT_INDEX p1 xsiz1 ysiz1 xsiz2 ysiz2 sy1 ysiz sy2
          xsiz.toNat sx1 sx2 p2 with
      | none => none
      | some p2 => some (InvalidateTile (setTileData r.2 tilenum2 p2) tilenum2)
  else some (InvalidateTile st tilenum2)

/-! ## The states the program can reach -/

/-- One call of a function of the registry, or the creation of a texture object with
`new`: the registry before it and the one after. -/
inductive RegistryStep : BuildTiles → BuildTiles → Prop where
  | allocate (st : BuildTiles) (t : FTexture) :
      RegistryStep st (newTexture st t).2
  | addTile (st : BuildTiles) (tilenum : Int) (tex : TexPtr) (permap : Bool) :
      RegistryStep st (AddTile st tilenum tex permap)
  | addTiles (st : BuildTiles) (firsttile : Int) (RawData : FilePtr) (permap : Bool) :
      RegistryStep st (AddTiles st firsttile RawData permap)
  | loadArtFile (fileSystem : String → Option (List Byte)) (st : BuildTiles) (fn : String)
      (mapart : Bool) (firsttile : Int) :
      RegistryStep st (LoadArtFile fileSystem st fn mapart firsttile).2
  | addReplacement (st : BuildTiles) (picnum : Int) (replace : HightileReplacement) :
      RegistryStep st (AddReplacement st picnum replace)
  | deleteReplacement (st : BuildTiles) (picnum palnum : Int) :
      RegistryStep st (DeleteReplacement st picnum palnum)
  | deleteReplacements (st : BuildTiles) (picnum : Int) :
      RegistryStep st (DeleteReplacements st picnum)
  | validateCustomTile (st : BuildTiles) (tilenum : Int) (type : ReplacementType) :
      RegistryStep st (ValidateCustomTile st tilenum type).2
  | getCRC32 (crc32 : List Byte → Int) (st : BuildTiles) (tileNum : Int) :
      RegistryStep st (tileGetCRC32 crc32 st tileNum).2
  | removeReplacement (st : BuildTiles) (tile : Int) :
      RegistryStep st (tileRemoveReplacement st tile)
  | delete (st : BuildTiles) (tile : Int) :
      RegistryStep st (tileDelete st tile)
  | clearMapArt (st : BuildTiles) :
      RegistryStep st (artClearMapArt st)
  | setHightileReplacement (MAXPALOOKUPS : Int) (TexMan : String → Option TexPtr)
      (st : BuildTiles) (picnum palnum : Int) (filename : String)
      (alphacut xscale yscale specpower specfactor : Rat) (flags : Int) :
      RegistryStep st
        (tileSetHightileReplacement MAXPALOOKUPS TexMan st picnum palnum filename alphacut
          xscale yscale specpower specfactor flags).2
  | setSkybox (MAXPALOOKUPS : Int) (TexMan : String → Option TexPtr) (st : BuildTiles)
      (picnum palnum : Int) (facenames : List String) (flags : Int) :
      RegistryStep st (tileSetSkybox MAXPALOOKUPS TexMan st picnum palnum facenames flags).2
  | invalidateTile (st : BuildTiles) (num : Int) :
      RegistryStep st (InvalidateTile st num)
  | getPixels (I_nsTime : Nat) (st : BuildTiles) (num : Int) :
      RegistryStep st (tilePtr I_nsTime st num).2
  | createRotated (st : BuildTiles) (lastUnusedTile tileNum : Int) :
      RegistryStep st (tileCreateRotated st lastUnusedTile tileNum).2.1
  | copySection (TRANSPARENT_INDEX : Byte) (I_nsTime : Nat) (st : BuildTiles)
      (tilenum1 sx1 sy1 xsiz ysiz tilenum2 sx2 sy2 : Int) (st2 : BuildTiles)
      (h : tileCopySection TRANSPARENT_INDEX I_nsTime st tilenum1 sx1 sy1 xsiz ysiz tilenum2
        sx2 sy2 = some st2) :
      RegistryStep st st2

/-- One call on the globals: a function of the registry, which has no access to the
file-static `currentMapArt`, or `artSetupMapArt`. -/
inductive GlobalsStep : Globals → Globals → Prop where
  | registry (g : Globals) (st : BuildTiles) (h : RegistryStep g.TileFiles st) :
      GlobalsStep g { g with TileFiles := st }
  | setupMapArt (fileSystem : String → Option (List Byte)) (g : Globals) (filename : String) :
      GlobalsStep g (artSetupMapArt fileSystem g filename)

/-- The globals at program start.  `TileFiles` and `currentMapArt` have static storage:
the string is empty and every record of `tiledata[]` is zero.  The tables and the heaps
are left open, as `Init`, which fills them, is not among the sources at hand. -/
def startGlobals (g : Globals) : Prop :=
  g.currentMapArt = "" ∧ ∀ i : Int, g.TileFiles.tiledata i = {}

/-- The globals the program can be in: reached from program start by calls of the
functions above, in any number and order and with any arguments.  A call that stores
through a slot index outside `[0, MAXTILES)` counts with the store it makes in the
tables of the model. -/
def Reachable (g : Globals) : Prop :=
  ∃ g0 : Globals, startGlobals g0 ∧ Relation.ReflTransGen GlobalsStep g0 g

/-! ## The archive layout in the words of the specification

These definitions follow section 6 of the specification (the ART archive binary layout),
not the source; `AddTiles` is compared with them. -/

/-- Bytes 8-11 of the header: `tileStart`. -/
def specTileStart (buf : List Byte) : Int := toInt32 (readLE32 buf 8)

/-- Bytes 12-15 of the header: `tileEnd`. -/
def specTileEnd (buf : List Byte) : Int := toInt32 (readLE32 buf 12)

/-- The number of tiles, `N = tileEnd - tileStart + 1`. -/
def specTileCount (buf : List Byte) : Int := specTileEnd buf - specTileStart buf + 1

/-- The `k`-th of the `N` 16-bit little-endian widths that follow the header. -/
def specTileWidth (buf : List Byte) (k : Nat) : Int := readLE16 buf (16 + 2 * (k : Int))

/-- The `k`-th of the `N` 16-bit little-endian heights that follow the widths. -/
def specTileHeight (buf : List Byte) (N : Int) (k : Nat) : Int :=
  readLE16 buf (16 + 2 * N + 2 * (k : Int))

/-- The `k`-th of the `N` 32-bit little-endian packed animation descriptors. -/
def specTileAnim (buf : List Byte) (N : Int) (k : Nat) : Int :=
  readLE32 buf (16 + 4 * N + 4 * (k : Int))

/-- Byte offset of the pixels of tile `k`: the header and the three tables, then
`width * height` bytes for each tile before `k`. -/
def specPixelOffset (buf : List Byte) (N : Int) (k : Nat) : Int :=
  16 + 8 * N + ((List.range k).map fun j => specTileWidth buf j * specTileHeight buf N j).sum

/-! ## Concrete registries and archives used to evaluate the definitions -/

/-- A registry in which every slot holds the placeholder, a zero-size dummy tile in heap
cell 0, and no art file is loaded. -/
def exampleRegistry : BuildTiles :=
  { Placeholder := 1, ArtFiles := [], PerMapArtFiles := [], AllTiles := [], AllMapTiles := [],
    tiles := fun _ => 1, tilesbak := fun _ => 1, tiledata := fun _ => {},
    texHeap := [FTexture.FDummyTile 0 0], fileHeap := [] }

/-- A version-1 archive for tiles 10..12 of sizes 2x2, 0x3 and 1x1. -/
def exampleArt : List Byte :=
  [1, 0, 0, 0, 3, 0, 0, 0, 10, 0, 0, 0, 12, 0, 0, 0,
   2, 0, 0, 0, 1, 0,
   2, 0, 3, 0, 1, 0,
   5, 1, 2, 3, 0, 0, 0, 0, 69, 255, 0, 16,
   0, 255, 7, 0,
   255]

/-- An archive header that declares `tilestart = 40000`. -/
def rejectedArt : List Byte :=
  [1, 0, 0, 0, 1, 0, 0, 0, 64, 156, 0, 0, 64, 156, 0, 0,
   1, 0, 1, 0, 0, 0, 0, 0, 9]

/-- A registry whose only art file holds `exampleArt`, not yet cut into tiles. -/
def loadedRegistry : BuildTiles :=
  { exampleRegistry with ArtFiles := [0], fileHeap := [BuildArtFile.mk "tiles000.art" exampleArt] }

/-- A registry whose slot 12 holds an 8x8 tile (heap cell 1) and two replacements at
palette 0, a plain one and a skybox; all other slots hold the placeholder. -/
def paletteRegistry : BuildTiles :=
  { exampleRegistry with
    tiles := fun i => if i = 12 then 2 else 1
    tilesbak := fun i => if i = 12 then 2 else 1
    tiledata := fun i =>
      if i = 12 then
        { Hightiles := [{ faces := [5, 0, 0, 0, 0, 0], palnum := 0 },
                        { faces := [6, 6, 6, 6, 6, 6], palnum := 0 }] }
      else {}
    texHeap := [FTexture.FDummyTile 0 0, FTexture.FDummyTile 8 8] }

/-- A texture manager that knows the six images `sky_ft` .. `sky_dn` as textures 21..26
and nothing else. -/
def exampleTexMan : String → Option TexPtr := fun name =>
  if name = "sky_ft" then some 21
  else if name = "sky_rt" then some 22
  else if name = "sky_bk" then some 23
  else if name = "sky_lf" then some 24
  else if name = "sky_up" then some 25
  else if name = "sky_dn" then some 26
  else none

/-- A file system that holds `exampleArt` under the names `e1l1_00.art` and `_00.art`
and nothing else. -/
def exampleFileSystem : String → Option (List Byte) := fun fn =>
  if fn = "e1l1_00.art" then some exampleArt
  else if fn = "_00.art" then some exampleArt
  else none

/-- The registry after `exampleArt` was loaded in map scope from `e1l1_00.art`. -/
def openRegistry : BuildTiles :=
  (LoadArtFile exampleFileSystem exampleRegistry "e1l1_00.art" true (-1)).2

/-- A registry whose slot 10 holds a 2x2 loose tile with the pixels 1, 2, 3, 4 (heap
cell 1) and whose slot 11 holds a writable 3x2 tile (heap cell 3); heap cell 2 is a 2x2
loose tile with the pixels 9, 9, 9, 9 that no slot holds.  All other slots hold the
placeholder. -/
def pixelRegistry : BuildTiles :=
  { exampleRegistry with
    tiles := fun i => if i = 10 then 2 else if i = 11 then 4 else 1
    tilesbak := fun i => if i = 10 then 2 else if i = 11 then 4 else 1
    texHeap := [FTexture.FDummyTile 0 0, FTexture.FLooseTile [1, 2, 3, 4] 2 2,
                FTexture.FLooseTile [9, 9, 9, 9] 2 2,
                FTexture.FWritableTile [50, 51, 52, 53, 54, 55] 3 2] }

/-- A registry in which every slot holds the same 3x2 loose tile (heap cell 1). -/
def fullRegistry : BuildTiles :=
  { exampleRegistry with
    tiles := fun _ => 2
    tilesbak := fun _ => 2
    texHeap := [FTexture.FDummyTile 0 0, FTexture.FLooseTile [1, 2, 3, 4, 5, 6] 3 2] }

/-- The registry `pixelRegistry` after `tilePtr(10)`, which stores the pixels 1, 2, 3, 4
of the 2x2 tile of slot 10 in the decode cache, and after a new 3x3 loose tile with the
pixels 11 .. 19 (heap cell 4) was installed in slot 10 with `AddTile`. -/
def staleRegistry : BuildTiles :=
  AddTile
    (newTexture (tilePtr 77 pixelRegistry 10).2
      (FTexture.FLooseTile [11, 12, 13, 14, 15, 16, 17, 18, 19] 3 3)).2
    10 5 false

/-- A file of 20 bytes: the magic `BUILDART` and 12 bytes of a header (version 1, tile
count 5, `tilestart` 5) that stops before `tileend`. -/
def shortPrefixedArt : List Byte :=
  [66, 85, 73, 76, 68, 65, 82, 84, 1, 0, 0, 0, 5, 0, 0, 0, 5, 0, 0, 0]

/-! ## Machine integer lemmas -/

theorem toInt32_bounds (x : Int) : -2147483648 ≤ toInt32 x ∧ toInt32 x < 2147483648 := by
  unfold toInt32
  split <;> omega

theorem toInt32_of_small (x : Int) (h0 : 0 ≤ x) (h1 : x < 2147483648) : toInt32 x = x := by
  unfold toInt32
  split <;> omega

theorem toUInt32_bounds (x : Int) : 0 ≤ toUInt32 x ∧ toUInt32 x < 4294967296 := by
  unfold toUInt32
  omega

/-- Masking an `int` with `2^k - 1` (for `k < 32`) keeps its low `k` bits. -/
theorem and32_mask (a : Int) (k : Nat) (hk : k < 32) :
    and32 a (((2 ^ k - 1 : Nat) : Int)) = a % ((2 ^ k : Nat) : Int) := by
  have hpow : (2:Nat) ^ k < 2 ^ 31 + 1 := by
    have : (2:Nat) ^ k ≤ 2 ^ 31 := Nat.pow_le_pow_right (by norm_num) (by omega)
    omega
  have hpos : 0 < (2:Nat) ^ k := Nat.pow_pos (by norm_num)
  have hdvd : ((2 ^ k : Nat) : Int) ∣ 4294967296 := by
    have : (2:Nat) ^ k ∣ 2 ^ 32 := Nat.pow_dvd_pow 2 (by omega)
    have h2 : (((2:Nat) ^ k : Nat) : Int) ∣ ((2 ^ 32 : Nat) : Int) :=
      Int.natCast_dvd_natCast.mpr this
    simpa using h2
  have hm : (toUInt32 (((2 ^ k - 1 : Nat) : Int))).toNat = 2 ^ k - 1 := by
    unfold toUInt32
    omega
  unfold and32
  rw [hm, Nat.and_pow_two_sub_one_eq_mod]
  have hlt : (toUInt32 a).toNat % 2 ^ k < 2 ^ k := Nat.mod_lt _ hpos
  rw [toInt32_of_small _ (by omega) (by omega)]
  have hu := toUInt32_bounds a
  rw [Int.natCast_mod, Int.toNat_of_nonneg hu.1]
  unfold toUInt32
  exact Int.emod_emod_of_dvd a hdvd

theorem and32_63 (a : Int) : and32 a 63 = a % 64 := by
  simpa using and32_mask a 6 (by norm_num)

theorem and32_255 (a : Int) : and32 a 255 = a % 256 := by
  simpa using and32_mask a 8 (by norm_num)

theorem and32_15 (a : Int) : and32 a 15 = a % 16 := by
  simpa using and32_mask a 4 (by norm_num)

theorem sar32_eq_div (a : Int) (k : Nat) : sar32 a k = a / ((2 ^ k : Nat) : Int) := by
  unfold sar32
  exact Int.shiftRight_eq_div_pow a k

theorem and32_192 (a : Int) : and32 a 192 = (((toUInt32 a).toNat &&& 192 : Nat) : Int) := by
  have hm : (toUInt32 (192 : Int)).toNat = 192 := by
    unfold toUInt32
    omega
  unfold and32
  rw [hm]
  have hle : (toUInt32 a).toNat &&& 192 ≤ 192 := Nat.and_le_right
  exact toInt32_of_small _ (by omega) (by omega)

theorem or32_small (x y : Nat) (hx : x < 256) (hy : y < 256) :
    or32 (x : Int) (y : Int) = ((x ||| y : Nat) : Int) := by
  have h1 : (toUInt32 (x : Int)).toNat = x := by
    unfold toUInt32
    omega
  have h2 : (toUInt32 (y : Int)).toNat = y := by
    unfold toUInt32
    omega
  unfold or32
  rw [h1, h2]
  have hlt : x ||| y < 2 ^ 8 := Nat.or_lt_two_pow (by simpa using hx) (by simpa using hy)
  exact toInt32_of_small _ (by omega) (by omega)

/-! ## The header check -/

/-- The header check of `CountTiles` written with signed comparisons. -/
theorem CountTiles_eq (fn : String) (RawData : List Byte) :
    CountTiles fn RawData =
      if toInt32 (readLE32 RawData 0) ≠ 1
          ∨ ¬ (0 ≤ toInt32 (readLE32 RawData 8) ∧ toInt32 (readLE32 RawData 8) < MAXUSERTILES)
          ∨ ¬ (0 ≤ toInt32 (readLE32 RawData 12) ∧ toInt32 (readLE32 RawData 12) < MAXUSERTILES)
          ∨ toInt32 (readLE32 RawData 12) < toInt32 (readLE32 RawData 8)
      then 0
      else toInt32 (readLE32 RawData 12) - toInt32 (readLE32 RawData 8) + 1 := by
  have hs := toInt32_bounds (readLE32 RawData 8)
  have he := toInt32_bounds (readLE32 RawData 12)
  simp only [CountTiles, toUInt32, MAXUSERTILES, MAXTILES]
  split_ifs <;> omega

/-- C1: `CountTiles` returns 0 exactly when the version is not 1, or `tilestart` or
`tileend` lies outside `[0, MAXUSERTILES)`, or `tileend < tilestart`; in every other
case it returns `tileend - tilestart + 1`, a number between 1 and `MAXUSERTILES`. -/
theorem CountTiles_spec (fn : String) (RawData : List Byte) :
    (CountTiles fn RawData = 0 ↔
      (toInt32 (readLE32 RawData 0) ≠ 1
        ∨ ¬ (0 ≤ toInt32 (readLE32 RawData 8) ∧ toInt32 (readLE32 RawData 8) < MAXUSERTILES)
        ∨ ¬ (0 ≤ toInt32 (readLE32 RawData 12) ∧ toInt32 (readLE32 RawData 12) < MAXUSERTILES)
        ∨ toInt32 (readLE32 RawData 12) < toInt32 (readLE32 RawData 8))) ∧
    (¬ (toInt32 (readLE32 RawData 0) ≠ 1
        ∨ ¬ (0 ≤ toInt32 (readLE32 RawData 8) ∧ toInt32 (readLE32 RawData 8) < MAXUSERTILES)
        ∨ ¬ (0 ≤ toInt32 (readLE32 RawData 12) ∧ toInt32 (readLE32 RawData 12) < MAXUSERTILES)
        ∨ toInt32 (readLE32 RawData 12) < toInt32 (readLE32 RawData 8)) →
      CountTiles fn RawData = toInt32 (readLE32 RawData 12) - toInt32 (readLE32 RawData 8) + 1
        ∧ 1 ≤ CountTiles fn RawData ∧ CountTiles fn RawData ≤ MAXUSERTILES) := by
  rw [CountTiles_eq]
  simp only [MAXUSERTILES, MAXTILES]
  constructor
  · split_ifs <;> omega
  · split_ifs <;> omega

/-- C1, evaluated: the archive `exampleArt` (tiles 10..12) counts 3 tiles, and the
archive `rejectedArt` (`tilestart = 40000`) counts 0. -/
theorem CountTiles_spec_witness :
    CountTiles "a.art" exampleArt = 3 ∧ CountTiles "b.art" rejectedArt = 0 :=
  ⟨((CountTiles_spec "a.art" exampleArt).2 (by decide)).1.trans (by decide),
   (CountTiles_spec "b.art" rejectedArt).1.mpr (by decide)⟩

/-! ## `tileConvertAnimFormat` -/

/-- C6: for every packed descriptor `r`, with `u` its 32-bit pattern,
`tileConvertAnimFormat r` has `num` = bits 0-5 of `u`, `xofs` = bits 8-15,
`yofs` = bits 16-23, `sf` = (bits 24-27) OR (`u` AND 192), `extra` = bits 28-31;
so `num ≤ 63`, `extra ≤ 15` and bits 4 and 5 of `sf` are clear. -/
theorem tileConvertAnimFormat_bits (r : Int) :
    (tileConvertAnimFormat r).num = (toUInt32 r).toNat % 64 ∧
    (tileConvertAnimFormat r).xofs = (toUInt32 r).toNat / 2 ^ 8 % 2 ^ 8 ∧
    (tileConvertAnimFormat r).yofs = (toUInt32 r).toNat / 2 ^ 16 % 2 ^ 8 ∧
    (tileConvertAnimFormat r).sf
      = ((toUInt32 r).toNat / 2 ^ 24 % 2 ^ 4) ||| ((toUInt32 r).toNat &&& 192) ∧
    (tileConvertAnimFormat r).extra = (toUInt32 r).toNat / 2 ^ 28 % 2 ^ 4 ∧
    (tileConvertAnimFormat r).num ≤ 63 ∧
    (tileConvertAnimFormat r).extra ≤ 15 ∧
    (tileConvertAnimFormat r).sf.testBit 4 = false ∧
    (tileConvertAnimFormat r).sf.testBit 5 = false := by
  have hnum : (tileConvertAnimFormat r).num = (toUInt32 r).toNat % 64 := by
    simp only [tileConvertAnimFormat, and32_63, toUInt8, toUInt32]
    omega
  have hx : (tileConvertAnimFormat r).xofs = (toUInt32 r).toNat / 2 ^ 8 % 2 ^ 8 := by
    simp only [tileConvertAnimFormat, and32_255, sar32_eq_div, toUInt8, toUInt32]
    norm_num
    omega
  have hy : (tileConvertAnimFormat r).yofs = (toUInt32 r).toNat / 2 ^ 16 % 2 ^ 8 := by
    simp only [tileConvertAnimFormat, and32_255, sar32_eq_div, toUInt8, toUInt32]
    norm_num
    omega
  have he : (tileConvertAnimFormat r).extra = (toUInt32 r).toNat / 2 ^ 28 % 2 ^ 4 := by
    simp only [tileConvertAnimFormat, and32_15, sar32_eq_div, toUInt8, toUInt32]
    norm_num
    omega
  have hhi : (sar32 r 24) % 16 = (((toUInt32 r).toNat / 2 ^ 24 % 2 ^ 4 : Nat) : Int) := by
    simp only [sar32_eq_div, toUInt32]
    norm_num
    omega
  have hA : (toUInt32 r).toNat / 2 ^ 24 % 2 ^ 4 < 16 := Nat.mod_lt _ (by norm_num)
  have hB : (toUInt32 r).toNat &&& 192 ≤ 192 := Nat.and_le_right
  have hsf : (tileConvertAnimFormat r).sf
      = ((toUInt32 r).toNat / 2 ^ 24 % 2 ^ 4) ||| ((toUInt32 r).toNat &&& 192) := by
    have hlt : ((toUInt32 r).toNat / 2 ^ 24 % 2 ^ 4) ||| ((toUInt32 r).toNat &&& 192) < 2 ^ 8 :=
      Nat.or_lt_two_pow (by omega) (by omega)
    simp only [tileConvertAnimFormat, and32_15, and32_192, hhi]
    rw [or32_small _ _ (by omega) (by omega)]
    unfold toUInt8
    omega
  refine ⟨hnum, hx, hy, hsf, he, ?_, ?_, ?_, ?_⟩
  · rw [hnum]; omega
  · rw [he]
    have : (toUInt32 r).toNat / 2 ^ 28 % 2 ^ 4 < 2 ^ 4 := Nat.mod_lt _ (by norm_num)
    omega
  · have h1 : ((toUInt32 r).toNat / 2 ^ 24 % 2 ^ 4).testBit 4 = false :=
      Nat.testBit_lt_two_pow (by omega)
    have h2 : Nat.testBit 192 4 = false := by decide
    rw [hsf, Nat.testBit_or, Nat.testBit_and, h1, h2]
    simp
  · have h1 : ((toUInt32 r).toNat / 2 ^ 24 % 2 ^ 4).testBit 5 = false :=
      Nat.testBit_lt_two_pow (by omega)
    have h2 : Nat.testBit 192 5 = false := by decide
    rw [hsf, Nat.testBit_or, Nat.testBit_and, h1, h2]
    simp

/-! ## `AddTile` -/

theorem AddTile_tiles (st : BuildTiles) (tilenum : Int) (tex : TexPtr) (permap : Bool) :
    (AddTile st tilenum tex permap).tiles = Function.update st.tiles tilenum tex := by
  cases permap <;> rfl

theorem AddTile_tilesbak (st : BuildTiles) (tilenum : Int) (tex : TexPtr) (permap : Bool) :
    (AddTile st tilenum tex permap).tilesbak
      = if permap then st.tilesbak else Function.update st.tilesbak tilenum tex := by
  cases permap <;> rfl

theorem AddTile_tiledata (st : BuildTiles) (tilenum : Int) (tex : TexPtr) (permap : Bool) :
    (AddTile st tilenum tex permap).tiledata = st.tiledata := by
  cases permap <;> rfl

theorem AddTile_texHeap (st : BuildTiles) (tilenum : Int) (tex : TexPtr) (permap : Bool) :
    (AddTile st tilenum tex permap).texHeap = st.texHeap := by
  cases permap <;> rfl

theorem AddTile_fileHeap (st : BuildTiles) (tilenum : Int) (tex : TexPtr) (permap : Bool) :
    (AddTile st tilenum tex permap).fileHeap = st.fileHeap := by
  cases permap <;> rfl

/-- C7: for an in-range slot and a texture not yet registered, `AddTile` makes the
texture the active texture of the slot, also its backup when `permap` is false, leaves
the backup alone when `permap` is true, and changes no other slot. -/
theorem AddTile_installs (st : BuildTiles) (tilenum : Int) (tex : TexPtr) (permap : Bool)
    (hlo : 0 ≤ tilenum) (hhi : tilenum < MAXTILES)
    (hnew : tex ∉ st.AllTiles ∧ tex ∉ st.AllMapTiles) :
    (AddTile st tilenum tex permap).tiles tilenum = tex ∧
    (permap = false → (AddTile st tilenum tex permap).tilesbak tilenum = tex) ∧
    (permap = true →
      (AddTile st tilenum tex permap).tilesbak tilenum = st.tilesbak tilenum) ∧
    (∀ j : Int, j ≠ tilenum →
      (AddTile st tilenum tex permap).tiles j = st.tiles j ∧
      (AddTile st tilenum tex permap).tilesbak j = st.tilesbak j) := by
  refine ⟨?_, ?_, ?_, ?_⟩
  · rw [AddTile_tiles, Function.update_same]
  · intro hp
    rw [AddTile_tilesbak, hp]
    simp
  · intro hp
    rw [AddTile_tilesbak, hp]
    simp
  · intro j hj
    rw [AddTile_tiles, AddTile_tilesbak, Function.update_noteq hj]
    cases permap
    · simp [Function.update_noteq hj]
    · simp

/-- C7, evaluated: installing texture 2 in slot 5 of `exampleRegistry`, in base scope. -/
theorem AddTile_installs_witness :
    ((0 : Int) ≤ 5 ∧ (5 : Int) < MAXTILES ∧
      (2 ∉ exampleRegistry.AllTiles ∧ 2 ∉ exampleRegistry.AllMapTiles)) ∧
    (AddTile exampleRegistry 5 2 false).tiles 5 = 2 ∧
    (AddTile exampleRegistry 5 2 false).tilesbak 5 = 2 ∧
    (AddTile exampleRegistry 5 2 false).tiles 6 = 1 :=
  ⟨by decide,
   (AddTile_installs exampleRegistry 5 2 false (by decide) (by decide) (by decide)).1,
   (AddTile_installs exampleRegistry 5 2 false (by decide) (by decide) (by decide)).2.1 rfl,
   ((AddTile_installs exampleRegistry 5 2 false (by decide) (by decide) (by decide)).2.2.2
      6 (by decide)).1⟩

/-- C8, evaluated at slot -1 and at slot `MAXTILES`: `AddTile` has no range check; it
registers the texture in `AllTiles` and stores through the out-of-range index, so the
registry is not left unchanged. -/
theorem AddTile_out_of_range_stores :
    (AddTile exampleRegistry (-1) 2 false).AllTiles = [2] ∧
    (AddTile exampleRegistry (-1) 2 false).tiles (-1) = 2 ∧
    (AddTile exampleRegistry (-1) 2 false).tilesbak (-1) = 2 ∧
    AddTile exampleRegistry (-1) 2 false ≠ exampleRegistry ∧
    (AddTile exampleRegistry MAXTILES 2 true).AllMapTiles = [2] ∧
    (AddTile exampleRegistry MAXTILES 2 true).tiles MAXTILES = 2 ∧
    AddTile exampleRegistry MAXTILES 2 true ≠ exampleRegistry := by
  refine ⟨by decide, by decide, by decide, ?_, by decide, by decide, ?_⟩
  · intro h
    have h2 : (AddTile exampleRegistry (-1) 2 false).AllTiles = exampleRegistry.AllTiles := by
      rw [h]
    exact absurd h2 (by decide)
  · intro h
    have h2 : (AddTile exampleRegistry MAXTILES 2 true).AllMapTiles
        = exampleRegistry.AllMapTiles := by
      rw [h]
    exact absurd h2 (by decide)

/-! ## `ValidateCustomTile` -/

/-- C10, evaluated: on slot 5 of `exampleRegistry` the first `ValidateCustomTile` as
Writable succeeds with the new texture 2 but the slot's replacement kind stays Art, and
the second call creates and installs another texture, 3. -/
theorem ValidateCustomTile_twice_creates_twice :
    (ValidateCustomTile exampleRegistry 5 ReplacementType.Writable).1 = 2 ∧
    ((ValidateCustomTile exampleRegistry 5 ReplacementType.Writable).2.tiledata 5).replacement
      = ReplacementType.Art ∧
    (ValidateCustomTile
      (ValidateCustomTile exampleRegistry 5 ReplacementType.Writable).2 5
      ReplacementType.Writable).1 = 3 ∧
    (ValidateCustomTile
      (ValidateCustomTile exampleRegistry 5 ReplacementType.Writable).2 5
      ReplacementType.Writable).2.tiles 5 = 3 ∧
    (ValidateCustomTile
      (ValidateCustomTile exampleRegistry 5 ReplacementType.Writable).2 5
      ReplacementType.Writable).2.AllTiles = [2, 3] := by
  decide

/-! ## The transparent-colour swap -/

theorem swapLoop_length (buf : List Byte) (p n : Nat) :
    (swapLoop buf p n).length = buf.length := by
  induction n generalizing buf p with
  | zero => rfl
  | succ n ih =>
    show (swapLoop (buf.set p (swapTransparent (buf.getD p 0))) (p + 1) n).length = buf.length
    rw [ih, List.length_set]

theorem swapLoop_nil (p n : Nat) : swapLoop [] p n = [] := by
  apply List.eq_nil_of_length_eq_zero
  rw [swapLoop_length]
  rfl

/-- The loop rewrites the bytes with index in `[p, p + n)` and no other byte. -/
theorem swapLoop_getElem? (buf : List Byte) (p n j : Nat) :
    (swapLoop buf p n)[j]? =
      if p ≤ j ∧ j < p + n then (buf[j]?).map swapTransparent else buf[j]? := by
  induction n generalizing buf p with
  | zero =>
    have hno : ¬ (p ≤ j ∧ j < p + 0) := by omega
    rw [if_neg hno]
    rfl
  | succ n ih =>
    show (swapLoop (buf.set p (swapTransparent (buf.getD p 0))) (p + 1) n)[j]? = _
    rw [ih, List.getElem?_set]
    by_cases hpj : p = j
    · subst hpj
      have hno : ¬ (p + 1 ≤ p ∧ p < p + 1 + n) := by omega
      have hyes : p ≤ p ∧ p < p + (n + 1) := by omega
      rw [if_neg hno, if_pos hyes, if_pos rfl, List.getD_eq_getElem?_getD]
      by_cases hlen : p < buf.length
      · rw [if_pos hlen, List.getElem?_eq_getElem hlen]
        rfl
      · rw [if_neg hlen, List.getElem?_eq_none (by omega)]
        rfl
    · rw [if_neg hpj]
      by_cases hin : p + 1 ≤ j ∧ j < p + 1 + n
      · have hyes : p ≤ j ∧ j < p + (n + 1) := by omega
        rw [if_pos hin, if_pos hyes]
      · have hno : ¬ (p ≤ j ∧ j < p + (n + 1)) := by omega
        rw [if_neg hin, if_neg hno]

theorem fileBuffer_setFileBuffer (st : BuildTiles) (file : Nat) (buf : List Byte)
    (h : file < st.fileHeap.length) : fileBuffer (setFileBuffer st file buf) file = buf := by
  unfold setFileBuffer
  rw [List.getElem?_eq_getElem h]
  show fileBuffer { st with fileHeap := _ } file = buf
  unfold fileBuffer
  show (match (st.fileHeap.set file _)[file]? with
    | some f => f.RawData
    | none => []) = buf
  rw [List.getElem?_set, if_pos rfl, if_pos h]

theorem fileBuffer_of_not_lt (st : BuildTiles) (file : Nat)
    (h : ¬ file < st.fileHeap.length) : fileBuffer st file = [] := by
  unfold fileBuffer
  rw [List.getElem?_eq_none (by omega)]

theorem setFileBuffer_of_not_lt (st : BuildTiles) (file : Nat) (buf : List Byte)
    (h : ¬ file < st.fileHeap.length) : setFileBuffer st file buf = st := by
  unfold setFileBuffer
  rw [List.getElem?_eq_none (by omega)]

theorem setFileBuffer_fileHeap_length (st : BuildTiles) (file : Nat) (buf : List Byte) :
    (setFileBuffer st file buf).fileHeap.length = st.fileHeap.length := by
  unfold setFileBuffer
  cases hf : st.fileHeap[file]? with
  | none => rfl
  | some f => exact List.length_set _ _ _

theorem GetTileTexture_fst (st : BuildTiles) (name : String) (backingstore offset : Nat)
    (width height : Int) :
    (GetTileTexture st name backingstore offset width height).1 = st.texHeap.length + 1 := rfl

theorem setFileBuffer_fields (st : BuildTiles) (file : Nat) (buf : List Byte) :
    (setFileBuffer st file buf).tiles = st.tiles ∧
    (setFileBuffer st file buf).tilesbak = st.tilesbak ∧
    (setFileBuffer st file buf).tiledata = st.tiledata ∧
    (setFileBuffer st file buf).texHeap = st.texHeap := by
  unfold setFileBuffer
  split <;> exact ⟨rfl, rfl, rfl, rfl⟩

theorem GetTileTexture_fields (st : BuildTiles) (name : String) (backingstore offset : Nat)
    (width height : Int) :
    (GetTileTexture st name backingstore offset width height).2.tiles = st.tiles ∧
    (GetTileTexture st name backingstore offset width height).2.tilesbak = st.tilesbak ∧
    (GetTileTexture st name backingstore offset width height).2.tiledata = st.tiledata ∧
    (GetTileTexture st name backingstore offset width height).2.texHeap
      = st.texHeap ++ [FTexture.FArtTile backingstore offset width height] := by
  unfold GetTileTexture
  have h := setFileBuffer_fields
    (newTexture st (FTexture.FArtTile backingstore offset width height)).2 backingstore
    (swapLoop (fileBuffer (newTexture st (FTexture.FArtTile backingstore offset width height)).2
      backingstore) offset (width * height).toNat)
  exact ⟨h.1, h.2.1, h.2.2.1, h.2.2.2⟩

theorem GetTileTexture_buffer (st : BuildTiles) (name : String) (backingstore offset : Nat)
    (width height : Int) :
    fileBuffer (GetTileTexture st name backingstore offset width height).2 backingstore
      = swapLoop (fileBuffer st backingstore) offset (width * height).toNat := by
  unfold GetTileTexture
  by_cases h : backingstore < st.fileHeap.length
  · exact fileBuffer_setFileBuffer _ _ _ h
  · have h2 : ¬ backingstore
        < (newTexture st (FTexture.FArtTile backingstore offset width height)).2.fileHeap.length := h
    show fileBuffer (setFileBuffer _ backingstore _) backingstore = _
    rw [setFileBuffer_of_not_lt _ _ _ h2, fileBuffer_of_not_lt _ _ h2, fileBuffer_of_not_lt _ _ h]
    rw [swapLoop_nil]

theorem deref_newTexture (st : BuildTiles) (t : FTexture) :
    deref (newTexture st t).2 (newTexture st t).1 = some t := by
  unfold deref newTexture
  simp

/-! ## `LoadArtFile` on a rejected header -/

theorem stripBUILDART_header (artdata : List Byte)
    (hwhole : artdata.take 8 = BUILDART → 24 ≤ artdata.length) (i : Int) (hi : i < 16) :
    peek (stripBUILDART artdata) i
      = peek (if artdata.take 8 = BUILDART then artdata.drop 8 else artdata) i := by
  unfold stripBUILDART
  by_cases hp : artdata.take 8 = BUILDART
  · have hlen := hwhole hp
    rw [if_pos hp, if_pos hp]
    unfold peek
    by_cases h0 : i < 0
    · rw [if_pos h0, if_pos h0]
    · rw [if_neg h0, if_neg h0, List.getD_append _ _ _ _ (by rw [List.length_drop]; omega)]
  · rw [if_neg hp, if_neg hp]

/-- C2: when the header that `CountTiles` reads at `artptr` is rejected (version not 1,
`tilestart` or `tileend` outside `[0, MAXUSERTILES)`, or `tileend < tilestart`),
`LoadArtFile` leaves the whole registry unchanged: the active table, the backup table,
every animation descriptor and both archive lists.  For a file that holds a whole
16-byte header behind the optional `BUILDART` prefix, the 16 bytes read are those of
the archive behind the prefix. -/
theorem LoadArtFile_rejected_header (fileSystem : String → Option (List Byte))
    (st : BuildTiles) (fn : String) (mapart : Bool) (firsttile : Int) (artdata : List Byte)
    (hfile : fileSystem fn = some artdata)
    (hrej : toInt32 (readLE32 (stripBUILDART artdata) 0) ≠ 1
      ∨ ¬ (0 ≤ toInt32 (readLE32 (stripBUILDART artdata) 8)
            ∧ toInt32 (readLE32 (stripBUILDART artdata) 8) < MAXUSERTILES)
      ∨ ¬ (0 ≤ toInt32 (readLE32 (stripBUILDART artdata) 12)
            ∧ toInt32 (readLE32 (stripBUILDART artdata) 12) < MAXUSERTILES)
      ∨ toInt32 (readLE32 (stripBUILDART artdata) 12)
          < toInt32 (readLE32 (stripBUILDART artdata) 8)) :
    (LoadArtFile fileSystem st fn mapart firsttile).2 = st ∧
    (LoadArtFile fileSystem st fn mapart firsttile).2.tiles = st.tiles ∧
    (LoadArtFile fileSystem st fn mapart firsttile).2.tilesbak = st.tilesbak ∧
    (∀ i : Int, ((LoadArtFile fileSystem st fn mapart firsttile).2.tiledata i).picanm
      = (st.tiledata i).picanm) ∧
    (LoadArtFile fileSystem st fn mapart firsttile).2.ArtFiles = st.ArtFiles ∧
    (LoadArtFile fileSystem st fn mapart firsttile).2.PerMapArtFiles = st.PerMapArtFiles ∧
    ((artdata.take 8 = BUILDART → 24 ≤ artdata.length) →
      ∀ i : Int, i < 16 →
        peek (stripBUILDART artdata) i
          = peek (if artdata.take 8 = BUILDART then artdata.drop 8 else artdata) i) := by
  have hcount : ¬ CountTiles fn (stripBUILDART artdata) > 0 := by
    rw [CountTiles_eq, if_pos hrej]
    omega
  have hst : (LoadArtFile fileSystem st fn mapart firsttile).2 = st := by
    unfold LoadArtFile
    simp only [hfile]
    rw [if_neg hcount]
    split_ifs <;> rfl
  rw [hst]
  exact ⟨rfl, rfl, rfl, fun _ => rfl, rfl, rfl, stripBUILDART_header artdata⟩

/-- C2, evaluated: the archive `rejectedArt` declares `tilestart = 40000`, without the
`BUILDART` prefix and behind it. -/
theorem LoadArtFile_rejected_header_witness :
    (toInt32 (readLE32 (stripBUILDART rejectedArt) 8) = 40000) ∧
    (LoadArtFile (fun _ => some rejectedArt) exampleRegistry "b.art" false (-1)).2
      = exampleRegistry ∧
    (toInt32 (readLE32 (stripBUILDART (BUILDART ++ rejectedArt)) 8) = 40000) ∧
    (LoadArtFile (fun _ => some (BUILDART ++ rejectedArt)) exampleRegistry "b.art" true
      (-1)).2 = exampleRegistry :=
  ⟨by decide,
   (LoadArtFile_rejected_header (fun _ => some rejectedArt) exampleRegistry "b.art" false (-1)
     rejectedArt rfl (Or.inr (Or.inl (by decide)))).1,
   by decide,
   (LoadArtFile_rejected_header (fun _ => some (BUILDART ++ rejectedArt)) exampleRegistry
     "b.art" true (-1) (BUILDART ++ rejectedArt) rfl (Or.inr (Or.inl (by decide)))).1⟩

/-- A prefixed file of 20 bytes, whose header stops before `tileend`: the bytes 12 to 15
that `CountTiles` reads at `artptr` are bytes of the file that `Delete` left behind the
shortened array (5, 0, 0, 0), the header is accepted with one tile, and `LoadArtFile`
retains the file. -/
theorem LoadArtFile_short_prefixed_archive :
    stripBUILDART shortPrefixedArt
      = [1, 0, 0, 0, 5, 0, 0, 0, 5, 0, 0, 0, 5, 0, 0, 0, 5, 0, 0, 0] ∧
    CountTiles "s.art" (stripBUILDART shortPrefixedArt) = 1 ∧
    (LoadArtFile (fun _ => some shortPrefixedArt) exampleRegistry "s.art" false (-1)).1 = 0 ∧
    (LoadArtFile (fun _ => some shortPrefixedArt) exampleRegistry "s.art" false
      (-1)).2.ArtFiles = [0] := by
  decide

/-! ## `AddTiles` -/

theorem peek_bounds (buf : List Byte) (i : Int) : 0 ≤ peek buf i ∧ peek buf i < 256 := by
  unfold peek
  split
  · omega
  · have := (buf.getD i.toNat 0).isLt
    omega

theorem readLE16_nonneg (buf : List Byte) (i : Int) : 0 ≤ readLE16 buf i := by
  unfold readLE16
  have h1 := peek_bounds buf i
  have h2 := peek_bounds buf (i + 1)
  omega

/-- Two buffers that agree below index `M` give the same byte below `M`. -/
theorem peek_congr (b b0 : List Byte) (M : Int)
    (hagree : ∀ idx : Nat, (idx : Int) < M → b[idx]? = b0[idx]?) (i : Int) (hi : i < M) :
    peek b i = peek b0 i := by
  unfold peek
  by_cases hneg : i < 0
  · rw [if_pos hneg, if_pos hneg]
  · rw [if_neg hneg, if_neg hneg, List.getD_eq_getElem?_getD, List.getD_eq_getElem?_getD,
      hagree i.toNat (by omega)]

theorem readLE16_congr (b b0 : List Byte) (M : Int)
    (hagree : ∀ idx : Nat, (idx : Int) < M → b[idx]? = b0[idx]?) (i : Int) (hi : i + 1 < M) :
    readLE16 b i = readLE16 b0 i := by
  unfold readLE16
  rw [peek_congr b b0 M hagree i (by omega), peek_congr b b0 M hagree (i + 1) hi]

theorem readLE32_congr (b b0 : List Byte) (M : Int)
    (hagree : ∀ idx : Nat, (idx : Int) < M → b[idx]? = b0[idx]?) (i : Int) (hi : i + 3 < M) :
    readLE32 b i = readLE32 b0 i := by
  unfold readLE32
  rw [peek_congr b b0 M hagree i (by omega), peek_congr b b0 M hagree (i + 1) (by omega),
    peek_congr b b0 M hagree (i + 2) (by omega), peek_congr b b0 M hagree (i + 3) hi]

theorem specArea_nonneg (buf : List Byte) (N : Int) (k : Nat) :
    0 ≤ specTileWidth buf k * specTileHeight buf N k :=
  Int.mul_nonneg (readLE16_nonneg _ _) (readLE16_nonneg _ _)

theorem specPixelOffset_succ (buf : List Byte) (N : Int) (k : Nat) :
    specPixelOffset buf N (k + 1)
      = specPixelOffset buf N k + specTileWidth buf k * specTileHeight buf N k := by
  unfold specPixelOffset
  rw [List.range_succ, List.map_append, List.sum_append, List.map_singleton, List.sum_singleton]
  omega

theorem specPixelOffset_mono (buf : List Byte) (N : Int) (k m : Nat) (h : k ≤ m) :
    specPixelOffset buf N k ≤ specPixelOffset buf N m := by
  induction m with
  | zero =>
    have : k = 0 := by omega
    subst this
    exact Int.le_refl _
  | succ m ih =>
    by_cases hk : k = m + 1
    · subst hk
      exact Int.le_refl _
    · have h1 := ih (by omega)
      have h2 := specArea_nonneg buf N m
      rw [specPixelOffset_succ]
      omega

theorem specPixelOffset_ge (buf : List Byte) (N : Int) (k : Nat) :
    16 + 8 * N ≤ specPixelOffset buf N k := by
  have h := specPixelOffset_mono buf N 0 k (Nat.zero_le k)
  have h0 : specPixelOffset buf N 0 = 16 + 8 * N := by
    unfold specPixelOffset
    simp
  omega

theorem fileBuffer_congr (st1 st2 : BuildTiles) (h : st1.fileHeap = st2.fileHeap) (file : Nat) :
    fileBuffer st1 file = fileBuffer st2 file := by
  unfold fileBuffer
  rw [h]

theorem deref_congr (st1 st2 : BuildTiles) (h : st1.texHeap = st2.texHeap) (p : TexPtr) :
    deref st1 p = deref st2 p := by
  unfold deref
  rw [h]

theorem deref_append (st st3 : BuildTiles) (t : FTexture)
    (h : st3.texHeap = st.texHeap ++ [t]) :
    (∀ (p : Nat) (x : FTexture), deref st p = some x → deref st3 p = some x) ∧
    deref st3 (st.texHeap.length + 1) = some t := by
  constructor
  · intro p x hp
    unfold deref at hp ⊢
    rw [h]
    by_cases h0 : p = 0
    · rw [if_pos h0] at hp
      exact absurd hp (by simp)
    · rw [if_neg h0] at hp
      rw [if_neg h0]
      have hlt : p - 1 < st.texHeap.length := by
        by_contra hge
        rw [List.getElem?_eq_none (by omega)] at hp
        exact absurd hp (by simp)
      rw [List.getElem?_append_left hlt]
      exact hp
  · unfold deref
    rw [h]
    simp

theorem AddTilesLoop_skip (RawData : Nat) (tilestart tilesizx tilesizy picanm : Int) (n : Nat)
    (i tiledata : Int) (st : BuildTiles)
    (h : readLE16 (fileBuffer st RawData) (tilesizx + 2 * (i - tilestart)) ≤ 0
      ∨ readLE16 (fileBuffer st RawData) (tilesizy + 2 * (i - tilestart)) ≤ 0) :
    AddTilesLoop RawData tilestart tilesizx tilesizy picanm (n + 1) i tiledata st
      = AddTilesLoop RawData tilestart tilesizx tilesizy picanm n (i + 1) tiledata st := by
  rw [AddTilesLoop]
  exact if_pos h

theorem AddTilesInstall_fields (st : BuildTiles) (RawData : Nat) (i tiledata : Int)
    (width height anm : Int) :
    (AddTilesInstall st RawData i tiledata width height anm).tiles
      = Function.update st.tiles i (st.texHeap.length + 1) ∧
    (AddTilesInstall st RawData i tiledata width height anm).tiledata
      = Function.update st.tiledata i
          { st.tiledata i with picanm := tileConvertAnimFormat (toInt32 anm) } ∧
    (AddTilesInstall st RawData i tiledata width height anm).texHeap
      = st.texHeap ++ [FTexture.FArtTile RawData (toUInt32 tiledata).toNat width height] ∧
    fileBuffer (AddTilesInstall st RawData i tiledata width height anm) RawData
      = swapLoop (fileBuffer st RawData) (toUInt32 tiledata).toNat (width * height).toNat := by
  have hG := GetTileTexture_fields st "" RawData (toUInt32 tiledata).toNat width height
  refine ⟨?_, ?_, ?_, ?_⟩
  · show (AddTile _ i _ false).tiles = _
    rw [AddTile_tiles, hG.1, GetTileTexture_fst]
  · show Function.update (AddTile _ i _ false).tiledata i _ = _
    rw [AddTile_tiledata, hG.2.2.1]
  · show (AddTile (GetTileTexture st "" RawData (toUInt32 tiledata).toNat width height).2 i
      (GetTileTexture st "" RawData (toUInt32 tiledata).toNat width height).1 false).texHeap = _
    rw [AddTile_texHeap, hG.2.2.2]
  · have e : (AddTilesInstall st RawData i tiledata width height anm).fileHeap
        = (GetTileTexture st "" RawData (toUInt32 tiledata).toNat width height).2.fileHeap := by
      show (AddTile (GetTileTexture st "" RawData (toUInt32 tiledata).toNat width height).2 i
        (GetTileTexture st "" RawData (toUInt32 tiledata).toNat width height).1 false).fileHeap = _
      rw [AddTile_fileHeap]
    rw [fileBuffer_congr _ _ e, GetTileTexture_buffer]

theorem AddTilesLoop_install (RawData : Nat) (tilestart tilesizx tilesizy picanm : Int)
    (n : Nat) (i tiledata : Int) (st : BuildTiles)
    (h : ¬ (readLE16 (fileBuffer st RawData) (tilesizx + 2 * (i - tilestart)) ≤ 0
      ∨ readLE16 (fileBuffer st RawData) (tilesizy + 2 * (i - tilestart)) ≤ 0)) :
    AddTilesLoop RawData tilestart tilesizx tilesizy picanm (n + 1) i tiledata st
      = AddTilesLoop RawData tilestart tilesizx tilesizy picanm n (i + 1)
          (tiledata + readLE16 (fileBuffer st RawData) (tilesizx + 2 * (i - tilestart))
            * readLE16 (fileBuffer st RawData) (tilesizy + 2 * (i - tilestart)))
          (AddTilesInstall st RawData i tiledata
            (readLE16 (fileBuffer st RawData) (tilesizx + 2 * (i - tilestart)))
            (readLE16 (fileBuffer st RawData) (tilesizy + 2 * (i - tilestart)))
            (readLE32 (fileBuffer st RawData) (picanm + 4 * (i - tilestart)))) := by
  rw [AddTilesLoop]
  exact if_neg h

/-- The loop invariant of `AddTiles`: started at tile `j` of an archive whose tables
still read as in `buf0`, the loop leaves the slots outside `[base + j, base + j + n)`
alone, keeps every heap object, and fills the slots inside as the layout says. -/
theorem AddTilesLoop_spec (RawData : Nat) (base N : Int) (buf0 : List Byte)
    (tilesizy picanm : Int) (hy : tilesizy = 16 + 2 * N) (hp : picanm = 16 + 4 * N)
    (hfit : specPixelOffset buf0 N N.toNat < 4294967296) :
    ∀ (n j : Nat) (st : BuildTiles),
      ((j + n : Nat) : Int) ≤ N →
      (∀ idx : Nat, (idx : Int) < 16 + 8 * N → (fileBuffer st RawData)[idx]? = buf0[idx]?) →
      (∀ slot : Int, (slot < base + (j : Int) ∨ base + (j : Int) + (n : Int) ≤ slot) →
        (AddTilesLoop RawData base 16 tilesizy picanm n (base + (j : Int))
            (specPixelOffset buf0 N j) st).tiles slot = st.tiles slot ∧
        (AddTilesLoop RawData base 16 tilesizy picanm n (base + (j : Int))
            (specPixelOffset buf0 N j) st).tiledata slot = st.tiledata slot) ∧
      (∀ (p : Nat) (t : FTexture), deref st p = some t →
        deref (AddTilesLoop RawData base 16 tilesizy picanm n (base + (j : Int))
            (specPixelOffset buf0 N j) st) p = some t) ∧
      (∀ k : Nat, j ≤ k → k < j + n →
        (0 < specTileWidth buf0 k ∧ 0 < specTileHeight buf0 N k →
          deref (AddTilesLoop RawData base 16 tilesizy picanm n (base + (j : Int))
              (specPixelOffset buf0 N j) st)
            ((AddTilesLoop RawData base 16 tilesizy picanm n (base + (j : Int))
              (specPixelOffset buf0 N j) st).tiles (base + (k : Int)))
            = some (FTexture.FArtTile RawData (specPixelOffset buf0 N k).toNat
                (specTileWidth buf0 k) (specTileHeight buf0 N k)) ∧
          ((AddTilesLoop RawData base 16 tilesizy picanm n (base + (j : Int))
              (specPixelOffset buf0 N j) st).tiledata (base + (k : Int))).picanm
            = tileConvertAnimFormat (toInt32 (specTileAnim buf0 N k))) ∧
        (specTileWidth buf0 k = 0 ∨ specTileHeight buf0 N k = 0 →
          (AddTilesLoop RawData base 16 tilesizy picanm n (base + (j : Int))
              (specPixelOffset buf0 N j) st).tiles (base + (k : Int))
            = st.tiles (base + (k : Int)) ∧
          ((AddTilesLoop RawData base 16 tilesizy picanm n (base + (j : Int))
              (specPixelOffset buf0 N j) st).tiledata (base + (k : Int))).picanm
            = (st.tiledata (base + (k : Int))).picanm)) ∧
      (∀ idx : Nat,
        (fileBuffer (AddTilesLoop RawData base 16 tilesizy picanm n (base + (j : Int))
            (specPixelOffset buf0 N j) st) RawData)[idx]?
          = if specPixelOffset buf0 N j ≤ (idx : Int)
                ∧ (idx : Int) < specPixelOffset buf0 N (j + n)
            then ((fileBuffer st RawData)[idx]?).map swapTransparent
            else (fileBuffer st RawData)[idx]?) := by
  intro n
  induction n with
  | zero =>
    intro j st _ _
    refine ⟨fun _ _ => ⟨rfl, rfl⟩, fun _ _ h => h, ?_, ?_⟩
    · intro k hk1 hk2
      omega
    · intro idx
      rw [if_neg (by rw [Nat.add_zero]; omega)]
      rfl
  | succ n ih =>
    intro j st hjn hagree
    have e : base + (j : Int) - base = (j : Int) := by omega
    have hjN : (j : Int) < N := by omega
    have hw : readLE16 (fileBuffer st RawData) (16 + 2 * (base + (j : Int) - base))
        = specTileWidth buf0 j := by
      rw [e]
      exact readLE16_congr _ _ _ hagree _ (by omega)
    have hh : readLE16 (fileBuffer st RawData) (tilesizy + 2 * (base + (j : Int) - base))
        = specTileHeight buf0 N j := by
      rw [e, hy]
      exact readLE16_congr _ _ _ hagree _ (by omega)
    have ha : readLE32 (fileBuffer st RawData) (picanm + 4 * (base + (j : Int) - base))
        = specTileAnim buf0 N j := by
      rw [e, hp]
      exact readLE32_congr _ _ _ hagree _ (by omega)
    have hidx : base + (j : Int) + 1 = base + ((j + 1 : Nat) : Int) := by omega
    have hW0 : 0 ≤ specTileWidth buf0 j := readLE16_nonneg _ _
    have hH0 : 0 ≤ specTileHeight buf0 N j := readLE16_nonneg _ _
    by_cases hskip : specTileWidth buf0 j ≤ 0 ∨ specTileHeight buf0 N j ≤ 0
    · have hzero : specTileWidth buf0 j * specTileHeight buf0 N j = 0 := by
        rcases hskip with h | h
        · have : specTileWidth buf0 j = 0 := by omega
          rw [this, Int.zero_mul]
        · have : specTileHeight buf0 N j = 0 := by omega
          rw [this, Int.mul_zero]
      have hoff : specPixelOffset buf0 N (j + 1) = specPixelOffset buf0 N j := by
        rw [specPixelOffset_succ, hzero]
        omega
      rw [AddTilesLoop_skip _ _ _ _ _ _ _ _ _ (by rw [hw, hh]; exact hskip), hidx, ← hoff]
      obtain ⟨ia, ib, ic, id⟩ := ih (j + 1) st (by omega) hagree
      refine ⟨?_, ib, ?_, ?_⟩
      · intro slot hslot
        exact ia slot (by omega)
      · intro k hk1 hk2
        by_cases hkj : k = j
        · subst hkj
          constructor
          · intro hpos
            omega
          · intro _
            have h1 := ia (base + (k : Int)) (by omega)
            exact ⟨h1.1, by rw [h1.2]⟩
        · exact ic k (by omega) (by omega)
      · intro idx
        rw [id idx, hoff, show j + 1 + n = j + (n + 1) from by omega]
    · have hinst := AddTilesInstall_fields st RawData (base + (j : Int))
        (specPixelOffset buf0 N j) (specTileWidth buf0 j) (specTileHeight buf0 N j)
        (specTileAnim buf0 N j)
      rw [AddTilesLoop_install _ _ _ _ _ _ _ _ _ (by rw [hw, hh]; exact hskip), hw, hh, ha,
        hidx, ← specPixelOffset_succ]
      generalize AddTilesInstall st RawData (base + (j : Int)) (specPixelOffset buf0 N j)
        (specTileWidth buf0 j) (specTileHeight buf0 N j) (specTileAnim buf0 N j) = st3 at hinst ⊢
      have hge := specPixelOffset_ge buf0 N j
      have hmono := specPixelOffset_mono buf0 N j N.toNat (by omega)
      have hto : (toUInt32 (specPixelOffset buf0 N j)).toNat = (specPixelOffset buf0 N j).toNat := by
        unfold toUInt32
        omega
      rw [hto] at hinst
      have hagree3 : ∀ idx : Nat, (idx : Int) < 16 + 8 * N →
          (fileBuffer st3 RawData)[idx]? = buf0[idx]? := by
        intro idx hi
        rw [hinst.2.2.2, swapLoop_getElem?, if_neg (by omega), hagree idx hi]
      obtain ⟨ia, ib, ic, id⟩ := ih (j + 1) st3 (by omega) hagree3
      have hd := deref_append st st3 _ hinst.2.2.1
      have hsucc := specPixelOffset_succ buf0 N j
      have harea := specArea_nonneg buf0 N j
      have hmono2 := specPixelOffset_mono buf0 N (j + 1) (j + 1 + n) (by omega)
      refine ⟨?_, ?_, ?_, ?_⟩
      · intro slot hslot
        have h1 := ia slot (by omega)
        have hne : slot ≠ base + (j : Int) := by omega
        rw [h1.1, h1.2, hinst.1, hinst.2.1, Function.update_noteq hne, Function.update_noteq hne]
        exact ⟨rfl, rfl⟩
      · intro p t hpt
        exact ib p t (hd.1 p t hpt)
      · intro k hk1 hk2
        by_cases hkj : k = j
        · subst hkj
          have h1 := ia (base + (k : Int)) (by omega)
          constructor
          · intro _
            rw [h1.1, h1.2, hinst.1, hinst.2.1, Function.update_same, Function.update_same]
            exact ⟨ib _ _ hd.2, rfl⟩
          · intro hz
            omega
        · have h2 := ic k (by omega) (by omega)
          refine ⟨h2.1, ?_⟩
          intro hz
          have h3 := h2.2 hz
          have hne : base + (k : Int) ≠ base + (j : Int) := by omega
          rw [h3.1, h3.2, hinst.1, hinst.2.1, Function.update_noteq hne,
            Function.update_noteq hne]
          exact ⟨rfl, rfl⟩
      · intro idx
        rw [id idx, hinst.2.2.2, swapLoop_getElem?, show j + 1 + n = j + (n + 1) from by omega]
        rw [show j + 1 + n = j + (n + 1) from by omega] at hmono2
        generalize specTileWidth buf0 j * specTileHeight buf0 N j = area at hsucc harea
        by_cases hin1 : specPixelOffset buf0 N (j + 1) ≤ (idx : Int)
            ∧ (idx : Int) < specPixelOffset buf0 N (j + (n + 1))
        · rw [if_pos hin1, if_neg (by omega), if_pos (by omega)]
        · rw [if_neg hin1]
          by_cases hin2 : (specPixelOffset buf0 N j).toNat ≤ idx
              ∧ idx < (specPixelOffset buf0 N j).toNat + area.toNat
          · rw [if_pos hin2, if_pos (by omega)]
          · rw [if_neg hin2, if_neg (by omega)]

theorem AddTiles_eq_loop (st : BuildTiles) (firsttile : Int) (RawData : Nat) (permap : Bool) :
    AddTiles st firsttile RawData permap
      = AddTilesLoop RawData
          (if firsttile ≠ -1 then firsttile else specTileStart (fileBuffer st RawData)) 16
          (16 + 2 * specTileCount (fileBuffer st RawData))
          (16 + 2 * specTileCount (fileBuffer st RawData)
            + 2 * specTileCount (fileBuffer st RawData))
          (specTileCount (fileBuffer st RawData)).toNat
          ((if firsttile ≠ -1 then firsttile else specTileStart (fileBuffer st RawData))
            + ((0 : Nat) : Int))
          (specPixelOffset (fileBuffer st RawData) (specTileCount (fileBuffer st RawData)) 0)
          st := by
  have h0 : specPixelOffset (fileBuffer st RawData) (specTileCount (fileBuffer st RawData)) 0
      = 16 + 2 * specTileCount (fileBuffer st RawData)
        + 2 * specTileCount (fileBuffer st RawData)
        + 4 * specTileCount (fileBuffer st RawData) := by
    unfold specPixelOffset
    simp
    omega
  rw [h0]
  unfold AddTiles specTileCount specTileEnd specTileStart
  by_cases hf : firsttile ≠ -1
  · simp only [if_pos hf]
    have e : toInt32 (readLE32 (fileBuffer st RawData) 12)
        - toInt32 (readLE32 (fileBuffer st RawData) 8) + firsttile - firsttile + 1
        = toInt32 (readLE32 (fileBuffer st RawData) 12)
          - toInt32 (readLE32 (fileBuffer st RawData) 8) + 1 := by omega
    rw [e]
    simp
  · simp only [if_neg hf]
    simp

/-- What `AddTiles` does to the slots of the archive and to the archive buffer, with the
base slot written as the source computes it. -/
theorem AddTiles_facts (st : BuildTiles) (firsttile : Int) (RawData : Nat) (permap : Bool)
    (hN : 0 ≤ specTileCount (fileBuffer st RawData))
    (hfit : specPixelOffset (fileBuffer st RawData) (specTileCount (fileBuffer st RawData))
        (specTileCount (fileBuffer st RawData)).toNat < 4294967296) :
    (∀ k : Nat, (k : Int) < specTileCount (fileBuffer st RawData) →
      (0 < specTileWidth (fileBuffer st RawData) k
          ∧ 0 < specTileHeight (fileBuffer st RawData) (specTileCount (fileBuffer st RawData)) k →
        deref (AddTiles st firsttile RawData permap)
            ((AddTiles st firsttile RawData permap).tiles ((if firsttile ≠ -1 then firsttile else specTileStart (fileBuffer st RawData)) + (k : Int)))
          = some (FTexture.FArtTile RawData
              (specPixelOffset (fileBuffer st RawData)
                (specTileCount (fileBuffer st RawData)) k).toNat
              (specTileWidth (fileBuffer st RawData) k)
              (specTileHeight (fileBuffer st RawData)
                (specTileCount (fileBuffer st RawData)) k)) ∧
        ((AddTiles st firsttile RawData permap).tiledata ((if firsttile ≠ -1 then firsttile else specTileStart (fileBuffer st RawData)) + (k : Int))).picanm
          = tileConvertAnimFormat (toInt32 (specTileAnim (fileBuffer st RawData)
              (specTileCount (fileBuffer st RawData)) k))) ∧
      (specTileWidth (fileBuffer st RawData) k = 0
          ∨ specTileHeight (fileBuffer st RawData) (specTileCount (fileBuffer st RawData)) k = 0 →
        (AddTiles st firsttile RawData permap).tiles ((if firsttile ≠ -1 then firsttile else specTileStart (fileBuffer st RawData)) + (k : Int))
          = st.tiles ((if firsttile ≠ -1 then firsttile else specTileStart (fileBuffer st RawData)) + (k : Int)) ∧
        ((AddTiles st firsttile RawData permap).tiledata ((if firsttile ≠ -1 then firsttile else specTileStart (fileBuffer st RawData)) + (k : Int))).picanm
          = (st.tiledata ((if firsttile ≠ -1 then firsttile else specTileStart (fileBuffer st RawData)) + (k : Int))).picanm)) ∧
    (∀ idx : Nat,
      (fileBuffer (AddTiles st firsttile RawData permap) RawData)[idx]?
        = if specPixelOffset (fileBuffer st RawData) (specTileCount (fileBuffer st RawData)) 0
              ≤ (idx : Int)
            ∧ (idx : Int) < specPixelOffset (fileBuffer st RawData)
                (specTileCount (fileBuffer st RawData)) (specTileCount (fileBuffer st RawData)).toNat
          then ((fileBuffer st RawData)[idx]?).map swapTransparent
          else (fileBuffer st RawData)[idx]?) := by
  rw [AddTiles_eq_loop st firsttile RawData permap]
  have key := AddTilesLoop_spec RawData
    (if firsttile ≠ -1 then firsttile else specTileStart (fileBuffer st RawData))
    (specTileCount (fileBuffer st RawData)) (fileBuffer st RawData)
    (16 + 2 * specTileCount (fileBuffer st RawData))
    (16 + 2 * specTileCount (fileBuffer st RawData) + 2 * specTileCount (fileBuffer st RawData))
    (by omega) (by omega) hfit (specTileCount (fileBuffer st RawData)).toNat 0 st
    (by omega) (fun _ _ => rfl)
  refine ⟨?_, ?_⟩
  · intro k hk
    exact key.2.2.1 k (Nat.zero_le k) (by omega)
  · intro idx
    have h := key.2.2.2 idx
    rw [Nat.zero_add] at h
    exact h

/-- The layout `AddTiles` follows when every slot it reaches lies in the table
(`base + N ≤ MAXTILES`): for an archive with a valid header that holds its pixel data
(and is shorter than 2^31 bytes), and `firsttile` equal to -1 or non-negative, `AddTiles`
puts in slot `base + k`, for every `k < N` with positive width and height, an `FArtTile`
of that size over the archive buffer at offset `16 + 8 * N + Σ_{j<k} width j * height j`,
and sets the slot's descriptor to `tileConvertAnimFormat` of the `k`-th packed
descriptor; a tile with zero width or height leaves slot `base + k` and its descriptor
unchanged. -/
theorem AddTiles_installs (st : BuildTiles) (firsttile : Int) (RawData : Nat) (permap : Bool)
    (hvalid : toInt32 (readLE32 (fileBuffer st RawData) 0) = 1
      ∧ (0 ≤ specTileStart (fileBuffer st RawData)
          ∧ specTileStart (fileBuffer st RawData) < MAXUSERTILES)
      ∧ (0 ≤ specTileEnd (fileBuffer st RawData)
          ∧ specTileEnd (fileBuffer st RawData) < MAXUSERTILES)
      ∧ specTileStart (fileBuffer st RawData) ≤ specTileEnd (fileBuffer st RawData))
    (hfirst : firsttile = -1 ∨ 0 ≤ firsttile)
    (hfit : specPixelOffset (fileBuffer st RawData) (specTileCount (fileBuffer st RawData))
        (specTileCount (fileBuffer st RawData)).toNat ≤ ((fileBuffer st RawData).length : Int))
    (hlen : ((fileBuffer st RawData).length : Int) < 2147483648)
    (_htable : (if 0 ≤ firsttile then firsttile else specTileStart (fileBuffer st RawData))
        + specTileCount (fileBuffer st RawData) ≤ MAXTILES) :
    ∀ k : Nat, (k : Int) < specTileCount (fileBuffer st RawData) →
      (0 < specTileWidth (fileBuffer st RawData) k
          ∧ 0 < specTileHeight (fileBuffer st RawData) (specTileCount (fileBuffer st RawData)) k →
        deref (AddTiles st firsttile RawData permap)
            ((AddTiles st firsttile RawData permap).tiles
              ((if 0 ≤ firsttile then firsttile else specTileStart (fileBuffer st RawData))
                + (k : Int)))
          = some (FTexture.FArtTile RawData
              (specPixelOffset (fileBuffer st RawData)
                (specTileCount (fileBuffer st RawData)) k).toNat
              (specTileWidth (fileBuffer st RawData) k)
              (specTileHeight (fileBuffer st RawData)
                (specTileCount (fileBuffer st RawData)) k)) ∧
        ((AddTiles st firsttile RawData permap).tiledata
            ((if 0 ≤ firsttile then firsttile else specTileStart (fileBuffer st RawData))
              + (k : Int))).picanm
          = tileConvertAnimFormat (toInt32 (specTileAnim (fileBuffer st RawData)
              (specTileCount (fileBuffer st RawData)) k))) ∧
      (specTileWidth (fileBuffer st RawData) k = 0
          ∨ specTileHeight (fileBuffer st RawData) (specTileCount (fileBuffer st RawData)) k = 0 →
        (AddTiles st firsttile RawData permap).tiles
            ((if 0 ≤ firsttile then firsttile else specTileStart (fileBuffer st RawData))
              + (k : Int))
          = st.tiles
            ((if 0 ≤ firsttile then firsttile else specTileStart (fileBuffer st RawData))
              + (k : Int)) ∧
        ((AddTiles st firsttile RawData permap).tiledata
            ((if 0 ≤ firsttile then firsttile else specTileStart (fileBuffer st RawData))
              + (k : Int))).picanm
          = (st.tiledata
            ((if 0 ≤ firsttile then firsttile else specTileStart (fileBuffer st RawData))
              + (k : Int))).picanm) := by
  intro k hk
  have hN : 0 ≤ specTileCount (fileBuffer st RawData) := by
    unfold specTileCount
    omega
  have hfit2 : specPixelOffset (fileBuffer st RawData) (specTileCount (fileBuffer st RawData))
      (specTileCount (fileBuffer st RawData)).toNat < 4294967296 := by omega
  have hbase : (if 0 ≤ firsttile then firsttile else specTileStart (fileBuffer st RawData))
      = (if firsttile ≠ -1 then firsttile else specTileStart (fileBuffer st RawData)) := by
    rcases hfirst with h | h
    · subst h
      rw [if_neg (by decide), if_neg (by decide)]
    · have h1 : firsttile ≠ -1 := by omega
      rw [if_pos h, if_pos h1]
  rw [hbase]
  exact (AddTiles_facts st firsttile RawData permap hN hfit2).1 k hk

/-- The layout on `exampleArt` (tiles 10..12 of sizes 2x2, 0x3, 1x1) at `k = 2`:
slot 12 receives a 1x1 tile at offset 44, after the four pixels of tile 10. -/
theorem AddTiles_installs_witness :
    ((2 : Int) < specTileCount (fileBuffer loadedRegistry 0)
      ∧ 0 < specTileWidth (fileBuffer loadedRegistry 0) 2
      ∧ 0 < specTileHeight (fileBuffer loadedRegistry 0)
          (specTileCount (fileBuffer loadedRegistry 0)) 2) ∧
    deref (AddTiles loadedRegistry (-1) 0 false)
        ((AddTiles loadedRegistry (-1) 0 false).tiles (10 + 2))
      = some (FTexture.FArtTile 0 44 1 1) ∧
    ((AddTiles loadedRegistry (-1) 0 false).tiledata (10 + 2)).picanm
      = tileConvertAnimFormat 268500805 :=
  ⟨by decide,
   ((AddTiles_installs loadedRegistry (-1) 0 false (by decide) (by decide) (by decide)
      (by decide) (by decide) 2 (by decide)).1 (by decide))⟩

/-- The test of the loop of `AddReplacement` is equality of keys. -/
theorem sameKey_iff (replace ht : HightileReplacement) :
    (replace.palnum = ht.palnum
      ∧ (replace.faces.getD 1 nullptr == nullptr) = (ht.faces.getD 1 nullptr == nullptr))
      ↔ hightileKey ht = hightileKey replace := by
  unfold hightileKey
  constructor
  · intro h
    rw [h.1, h.2]
  · intro h
    have h1 := congrArg Prod.fst h
    have h2 := congrArg Prod.snd h
    exact ⟨h1.symm, h2.symm⟩

theorem AddReplacementLoop_none (replace : HightileReplacement) (l : List HightileReplacement)
    (h : ∀ x ∈ l, hightileKey x ≠ hightileKey replace) : AddReplacementLoop replace l = none := by
  induction l with
  | nil => rfl
  | cons ht rest ih =>
    have hne : ¬ (replace.palnum = ht.palnum
        ∧ (replace.faces.getD 1 nullptr == nullptr) = (ht.faces.getD 1 nullptr == nullptr)) :=
      fun hc => h ht (List.mem_cons_self ht rest) ((sameKey_iff replace ht).mp hc)
    rw [AddReplacementLoop, if_neg hne, ih (fun x hx => h x (List.mem_cons_of_mem ht hx))]
    rfl

theorem AddReplacementLoop_first (replace : HightileReplacement) :
    ∀ (l : List HightileReplacement) (i : Nat) (x : HightileReplacement),
      l[i]? = some x → hightileKey x = hightileKey replace →
      (∀ (j : Nat) (y : HightileReplacement), j < i → l[j]? = some y →
        hightileKey y ≠ hightileKey replace) →
      AddReplacementLoop replace l = some (l.set i replace) := by
  intro l
  induction l with
  | nil =>
    intro i x hx
    exact absurd hx (by simp)
  | cons ht rest ih =>
    intro i x hx hkey hfirst
    cases i with
    | zero =>
      have hx0 : ht = x := by simpa using hx
      subst hx0
      rw [AddReplacementLoop, if_pos ((sameKey_iff replace ht).mpr hkey)]
      rfl
    | succ i =>
      have hne : ¬ (replace.palnum = ht.palnum
          ∧ (replace.faces.getD 1 nullptr == nullptr) = (ht.faces.getD 1 nullptr == nullptr)) :=
        fun hc => hfirst 0 ht (Nat.succ_pos i) (by simp) ((sameKey_iff replace ht).mp hc)
      have hx1 : rest[i]? = some x := by simpa using hx
      have ih1 := ih i x hx1 hkey (fun j y hj hy => hfirst (j + 1) y (by omega) (by simpa using hy))
      rw [AddReplacementLoop, if_neg hne, ih1]
      rfl

/-- A successful pass of the loop keeps the list of keys. -/
theorem AddReplacementLoop_keys (replace : HightileReplacement) :
    ∀ (l l2 : List HightileReplacement), AddReplacementLoop replace l = some l2 →
      l2.map hightileKey = l.map hightileKey := by
  intro l
  induction l with
  | nil =>
    intro l2 h
    exact absurd h (by simp [AddReplacementLoop])
  | cons ht rest ih =>
    intro l2 h
    rw [AddReplacementLoop] at h
    by_cases hc : replace.palnum = ht.palnum
        ∧ (replace.faces.getD 1 nullptr == nullptr) = (ht.faces.getD 1 nullptr == nullptr)
    · rw [if_pos hc] at h
      have h2 : replace :: rest = l2 := Option.some.inj h
      rw [← h2, List.map_cons, List.map_cons, (sameKey_iff replace ht).mp hc]
    · rw [if_neg hc] at h
      cases hr : AddReplacementLoop replace rest with
      | none =>
        rw [hr] at h
        exact absurd h (by simp)
      | some l3 =>
        rw [hr] at h
        have h2 : ht :: l3 = l2 := Option.some.inj h
        rw [← h2, List.map_cons, List.map_cons, ih l3 hr]

theorem AddReplacementLoop_eq_none_iff (replace : HightileReplacement)
    (l : List HightileReplacement) :
    AddReplacementLoop replace l = none ↔ ∀ x ∈ l, hightileKey x ≠ hightileKey replace := by
  constructor
  · intro h
    induction l with
    | nil =>
      intro x hx
      exact absurd hx (List.not_mem_nil x)
    | cons ht rest ih =>
      rw [AddReplacementLoop] at h
      by_cases hc : replace.palnum = ht.palnum
          ∧ (replace.faces.getD 1 nullptr == nullptr) = (ht.faces.getD 1 nullptr == nullptr)
      · rw [if_pos hc] at h
        exact absurd h (by simp)
      · rw [if_neg hc] at h
        have hr : AddReplacementLoop replace rest = none := by
          cases hr : AddReplacementLoop replace rest with
          | none => rfl
          | some l3 =>
            rw [hr] at h
            exact absurd h (by simp)
        intro x hx
        rcases List.mem_cons.mp hx with hx1 | hx1
        · subst hx1
          exact fun hk => hc ((sameKey_iff replace x).mpr hk)
        · exact ih hr x hx1
  · exact AddReplacementLoop_none replace l

theorem AddReplacement_Hightiles (st : BuildTiles) (picnum : Int)
    (replace : HightileReplacement) :
    ((AddReplacement st picnum replace).tiledata picnum).Hightiles
      = match AddReplacementLoop replace (st.tiledata picnum).Hightiles with
        | some l => l
        | none => (st.tiledata picnum).Hightiles ++ [replace] := by
  unfold AddReplacement
  simp only [Function.update_same]

theorem AddReplacement_other (st : BuildTiles) (picnum : Int) (replace : HightileReplacement)
    (slot : Int) (h : slot ≠ picnum) :
    (AddReplacement st picnum replace).tiledata slot = st.tiledata slot := by
  unfold AddReplacement
  simp only [Function.update_noteq h]

/-- C12: when the list of the slot has an entry with the key of `e` (same palette, same
nullness of `faces[1]`), `AddReplacement` overwrites the first such entry with `e` and
keeps the length and every other entry; when it has none, `e` is appended at the end;
the lists of other slots are unchanged. -/
theorem AddReplacement_spec (st : BuildTiles) (picnum : Int) (e : HightileReplacement) :
    (∀ (i : Nat) (x : HightileReplacement),
      (st.tiledata picnum).Hightiles[i]? = some x → hightileKey x = hightileKey e →
      (∀ (j : Nat) (y : HightileReplacement), j < i →
        (st.tiledata picnum).Hightiles[j]? = some y → hightileKey y ≠ hightileKey e) →
      ((AddReplacement st picnum e).tiledata picnum).Hightiles
          = (st.tiledata picnum).Hightiles.set i e ∧
      ((AddReplacement st picnum e).tiledata picnum).Hightiles.length
          = (st.tiledata picnum).Hightiles.length ∧
      ((AddReplacement st picnum e).tiledata picnum).Hightiles[i]? = some e ∧
      (∀ j : Nat, j ≠ i →
        ((AddReplacement st picnum e).tiledata picnum).Hightiles[j]?
          = (st.tiledata picnum).Hightiles[j]?)) ∧
    ((∀ x ∈ (st.tiledata picnum).Hightiles, hightileKey x ≠ hightileKey e) →
      ((AddReplacement st picnum e).tiledata picnum).Hightiles
        = (st.tiledata picnum).Hightiles ++ [e]) ∧
    (∀ slot : Int, slot ≠ picnum →
      (AddReplacement st picnum e).tiledata slot = st.tiledata slot) := by
  refine ⟨?_, ?_, ?_⟩
  · intro i x hx hkey hfirst
    have hlt : i < (st.tiledata picnum).Hightiles.length := by
      by_contra hge
      rw [List.getElem?_eq_none (by omega)] at hx
      exact absurd hx (by simp)
    have hnew : ((AddReplacement st picnum e).tiledata picnum).Hightiles
        = (st.tiledata picnum).Hightiles.set i e := by
      rw [AddReplacement_Hightiles,
        AddReplacementLoop_first e (st.tiledata picnum).Hightiles i x hx hkey hfirst]
    rw [hnew]
    refine ⟨rfl, List.length_set _ _ _, ?_, ?_⟩
    · rw [List.getElem?_set, if_pos rfl, if_pos hlt]
    · intro j hj
      rw [List.getElem?_set_ne (Ne.symm hj)]
  · intro hnone
    rw [AddReplacement_Hightiles,
      AddReplacementLoop_none e (st.tiledata picnum).Hightiles hnone]
  · intro slot h
    exact AddReplacement_other st picnum e slot h

/-- C12, evaluated on slot 12 of `paletteRegistry` (a plain entry and a skybox, both at
palette 0): a skybox at palette 0 overwrites entry 1; an entry at palette 3 is appended. -/
theorem AddReplacement_spec_witness :
    ((AddReplacement paletteRegistry 12
        { faces := [7, 7, 7, 7, 7, 7], palnum := 0 }).tiledata 12).Hightiles
      = (paletteRegistry.tiledata 12).Hightiles.set 1 { faces := [7, 7, 7, 7, 7, 7], palnum := 0 } ∧
    ((AddReplacement paletteRegistry 12
        { faces := [7, 0, 0, 0, 0, 0], palnum := 3 }).tiledata 12).Hightiles
      = (paletteRegistry.tiledata 12).Hightiles ++ [{ faces := [7, 0, 0, 0, 0, 0], palnum := 3 }] :=
  ⟨((AddReplacement_spec paletteRegistry 12 { faces := [7, 7, 7, 7, 7, 7], palnum := 0 }).1 1
      { faces := [6, 6, 6, 6, 6, 6], palnum := 0 } (by decide) (by decide)
      (by
        intro j y hj hy
        have hj0 : j = 0 := by omega
        subst hj0
        have hy0 : y = { faces := [5, 0, 0, 0, 0, 0], palnum := 0 } :=
          (Option.some.inj hy).symm
        subst hy0
        decide)).1,
   (AddReplacement_spec paletteRegistry 12 { faces := [7, 0, 0, 0, 0, 0], palnum := 3 }).2.1
      (by decide)⟩

/-- The backward loop of `DeleteReplacement`, run over the first `a.length` entries of
`a ++ b`, filters `a` and keeps `b`. -/
theorem DeleteReplacementLoop_append (palnum : Int) :
    ∀ (a b : List HightileReplacement),
      DeleteReplacementLoop palnum a.length (a ++ b)
        = a.filter (fun h => decide (h.palnum ≠ palnum)) ++ b := by
  intro a
  induction a using List.reverseRecOn with
  | nil =>
    intro b
    rfl
  | append_singleton a x ih =>
    intro b
    have hlen : (a ++ [x]).length = a.length + 1 := by simp
    have hget : (a ++ [x] ++ b)[a.length]? = some x := by
      rw [List.append_assoc, List.getElem?_append_right (Nat.le_refl _)]
      simp
    rw [hlen, DeleteReplacementLoop, hget]
    simp only []
    by_cases hp : x.palnum = palnum
    · have herase : (a ++ [x] ++ b).eraseIdx a.length = a ++ b := by
        rw [List.append_assoc, List.eraseIdx_append_of_length_le (Nat.le_refl _)]
        simp
      rw [if_pos hp, herase, ih b, List.filter_append]
      simp [hp]
    · rw [if_neg hp, List.append_assoc, ih ([x] ++ b), List.filter_append]
      simp [hp]

theorem DeleteReplacementLoop_eq_filter (palnum : Int) (l : List HightileReplacement) :
    DeleteReplacementLoop palnum l.length l = l.filter (fun h => decide (h.palnum ≠ palnum)) := by
  have h := DeleteReplacementLoop_append palnum l []
  rw [List.append_nil, List.append_nil] at h
  exact h

/-- C14: `DeleteReplacement` leaves the list of the slot equal to the old list with
every entry of that palette removed, skybox or not, the remaining entries in their
original order; the lists of other slots are unchanged. -/
theorem DeleteReplacement_spec (st : BuildTiles) (picnum palnum : Int) :
    ((DeleteReplacement st picnum palnum).tiledata picnum).Hightiles
      = (st.tiledata picnum).Hightiles.filter (fun h => decide (h.palnum ≠ palnum)) ∧
    (∀ slot : Int, slot ≠ picnum →
      (DeleteReplacement st picnum palnum).tiledata slot = st.tiledata slot) := by
  constructor
  · unfold DeleteReplacement
    simp only [Function.update_same]
    exact DeleteReplacementLoop_eq_filter palnum _
  · intro slot h
    unfold DeleteReplacement
    simp only [Function.update_noteq h]

theorem AddReplacement_nodup (st : BuildTiles) (picnum : Int) (replace : HightileReplacement)
    (slot : Int) (h : ((st.tiledata slot).Hightiles.map hightileKey).Nodup) :
    (((AddReplacement st picnum replace).tiledata slot).Hightiles.map hightileKey).Nodup := by
  by_cases hs : slot = picnum
  · subst hs
    rw [AddReplacement_Hightiles]
    cases hr : AddReplacementLoop replace (st.tiledata slot).Hightiles with
    | some l2 =>
      show (l2.map hightileKey).Nodup
      rw [AddReplacementLoop_keys replace _ l2 hr]
      exact h
    | none =>
      show (((st.tiledata slot).Hightiles ++ [replace]).map hightileKey).Nodup
      have hno := (AddReplacementLoop_eq_none_iff replace _).mp hr
      rw [List.map_append, List.nodup_append]
      refine ⟨h, List.nodup_singleton _, ?_⟩
      intro k hk1 hk2
      obtain ⟨x, hx, hxk⟩ := List.mem_map.mp hk1
      have hk3 : k = hightileKey replace := by simpa using hk2
      exact hno x hx (hxk.trans hk3)
  · rw [AddReplacement_other st picnum replace slot hs]
    exact h

theorem DeleteReplacement_nodup (st : BuildTiles) (picnum palnum : Int) (slot : Int)
    (h : ((st.tiledata slot).Hightiles.map hightileKey).Nodup) :
    (((DeleteReplacement st picnum palnum).tiledata slot).Hightiles.map hightileKey).Nodup := by
  by_cases hs : slot = picnum
  · subst hs
    have e : ((DeleteReplacement st slot palnum).tiledata slot).Hightiles
        = (st.tiledata slot).Hightiles.filter (fun h => decide (h.palnum ≠ palnum)) := by
      unfold DeleteReplacement
      simp only [Function.update_same]
      exact DeleteReplacementLoop_eq_filter palnum _
    rw [e]
    exact List.Nodup.sublist ((List.filter_sublist _).map hightileKey) h
  · have e : (DeleteReplacement st picnum palnum).tiledata slot = st.tiledata slot := by
      unfold DeleteReplacement
      simp only [Function.update_noteq hs]
    rw [e]
    exact h

theorem DeleteReplacements_nodup (st : BuildTiles) (picnum : Int) (slot : Int)
    (h : ((st.tiledata slot).Hightiles.map hightileKey).Nodup) :
    (((DeleteReplacements st picnum).tiledata slot).Hightiles.map hightileKey).Nodup := by
  by_cases hs : slot = picnum
  · subst hs
    have e : ((DeleteReplacements st slot).tiledata slot).Hightiles = [] := by
      unfold DeleteReplacements
      simp only [Function.update_same]
    rw [e]
    exact List.nodup_nil
  · have e : (DeleteReplacements st picnum).tiledata slot = st.tiledata slot := by
      unfold DeleteReplacements
      simp only [Function.update_noteq hs]
    rw [e]
    exact h

/-- C13: a list without two entries of the same key (palette, nullness of `faces[1]`)
has none after `AddReplacement`, `DeleteReplacement` or `DeleteReplacements` on any slot,
and every state reached from a state with empty lists by these operations has only
duplicate-free lists. -/
theorem Hightiles_nodup_invariant :
    (∀ (st : BuildTiles) (picnum : Int) (replace : HightileReplacement) (slot : Int),
      ((st.tiledata slot).Hightiles.map hightileKey).Nodup →
      (((AddReplacement st picnum replace).tiledata slot).Hightiles.map hightileKey).Nodup) ∧
    (∀ (st : BuildTiles) (picnum palnum : Int) (slot : Int),
      ((st.tiledata slot).Hightiles.map hightileKey).Nodup →
      (((DeleteReplacement st picnum palnum).tiledata slot).Hightiles.map hightileKey).Nodup) ∧
    (∀ (st : BuildTiles) (picnum : Int) (slot : Int),
      ((st.tiledata slot).Hightiles.map hightileKey).Nodup →
      (((DeleteReplacements st picnum).tiledata slot).Hightiles.map hightileKey).Nodup) ∧
    (∀ (st0 st : BuildTiles), (∀ slot : Int, (st0.tiledata slot).Hightiles = []) →
      Relation.ReflTransGen HightileStep st0 st →
      ∀ slot : Int, ((st.tiledata slot).Hightiles.map hightileKey).Nodup) := by
  refine ⟨AddReplacement_nodup, DeleteReplacement_nodup, DeleteReplacements_nodup, ?_⟩
  intro st0 st hempty hreach
  induction hreach with
  | refl =>
    intro slot
    rw [hempty slot]
    exact List.nodup_nil
  | tail _ hstep ih =>
    intro slot
    cases hstep with
    | add picnum replace => exact AddReplacement_nodup _ picnum replace slot (ih slot)
    | delete picnum palnum => exact DeleteReplacement_nodup _ picnum palnum slot (ih slot)
    | clear picnum => exact DeleteReplacements_nodup _ picnum slot (ih slot)

/-- C13, evaluated: from the empty lists of `exampleRegistry`, adding a plain entry at
palette 3 to slot 12 twice and deleting palette 5 reaches a state whose slot 12 has one
entry. -/
theorem Hightiles_nodup_invariant_witness :
    (∀ slot : Int, (exampleRegistry.tiledata slot).Hightiles = []) ∧
    ((((DeleteReplacement
        (AddReplacement (AddReplacement exampleRegistry 12 { palnum := 3 }) 12
          { faces := [4, 0, 0, 0, 0, 0], palnum := 3 }) 12 5).tiledata 12).Hightiles.map
        hightileKey).Nodup) ∧
    ((DeleteReplacement
        (AddReplacement (AddReplacement exampleRegistry 12 { palnum := 3 }) 12
          { faces := [4, 0, 0, 0, 0, 0], palnum := 3 }) 12 5).tiledata 12).Hightiles
      = [{ faces := [4, 0, 0, 0, 0, 0], palnum := 3 }] :=
  ⟨fun _ => rfl,
   Hightiles_nodup_invariant.2.2.2 exampleRegistry _ (fun _ => rfl)
     (((Relation.ReflTransGen.refl.tail (HightileStep.add exampleRegistry 12 { palnum := 3 })).tail
       (HightileStep.add _ 12 { faces := [4, 0, 0, 0, 0, 0], palnum := 3 })).tail
       (HightileStep.delete _ 12 5)) 12,
   by decide⟩

/-! ## `FindReplacement` -/

theorem FindReplacementPass_eq_none_iff (palnum : Int) (skybox : Bool)
    (l : List HightileReplacement) :
    FindReplacementPass palnum skybox l = none
      ↔ ∀ x ∈ l, ¬ (x.palnum = palnum ∧ (x.faces.getD 1 nullptr != nullptr) = skybox) := by
  induction l with
  | nil =>
    constructor
    · intro _ x hx
      exact absurd hx (List.not_mem_nil x)
    · intro _
      rfl
  | cons rep rest ih =>
    rw [FindReplacementPass]
    by_cases hc : rep.palnum = palnum ∧ (rep.faces.getD 1 nullptr != nullptr) = skybox
    · rw [if_pos hc]
      constructor
      · intro h
        exact absurd h (by simp)
      · intro h
        exact absurd hc (h rep (List.mem_cons_self rep rest))
    · rw [if_neg hc]
      constructor
      · intro h x hx
        have hr : FindReplacementPass palnum skybox rest = none := by
          cases hr : FindReplacementPass palnum skybox rest with
          | none => rfl
          | some i =>
            rw [hr] at h
            exact absurd h (by simp)
        rcases List.mem_cons.mp hx with hx1 | hx1
        · subst hx1
          exact hc
        · exact ih.mp hr x hx1
      · intro h
        rw [ih.mpr (fun x hx => h x (List.mem_cons_of_mem rep hx))]
        rfl

/-- A pass returns the index of the first entry that passes the test. -/
theorem FindReplacementPass_eq_some_iff (palnum : Int) (skybox : Bool) :
    ∀ (l : List HightileReplacement) (i : Nat),
      FindReplacementPass palnum skybox l = some i
        ↔ ∃ rep : HightileReplacement, l[i]? = some rep
            ∧ (rep.palnum = palnum ∧ (rep.faces.getD 1 nullptr != nullptr) = skybox)
            ∧ ∀ (j : Nat) (y : HightileReplacement), j < i → l[j]? = some y →
                ¬ (y.palnum = palnum ∧ (y.faces.getD 1 nullptr != nullptr) = skybox) := by
  intro l
  induction l with
  | nil =>
    intro i
    constructor
    · intro h
      exact absurd h (by simp [FindReplacementPass])
    · intro h
      obtain ⟨rep, hrep, _⟩ := h
      exact absurd hrep (by simp)
  | cons rep rest ih =>
    intro i
    rw [FindReplacementPass]
    by_cases hc : rep.palnum = palnum ∧ (rep.faces.getD 1 nullptr != nullptr) = skybox
    · rw [if_pos hc]
      constructor
      · intro h
        have hi : 0 = i := Option.some.inj h
        subst hi
        exact ⟨rep, by simp, hc, fun j y hj _ => absurd hj (Nat.not_lt_zero j)⟩
      · intro h
        obtain ⟨x, _, _, hfirst⟩ := h
        cases i with
        | zero => rfl
        | succ i => exact absurd hc (hfirst 0 rep (Nat.succ_pos i) (by simp))
    · rw [if_neg hc]
      constructor
      · intro h
        cases hr : FindReplacementPass palnum skybox rest with
        | none =>
          rw [hr] at h
          exact absurd h (by simp)
        | some k =>
          rw [hr] at h
          have hi : k + 1 = i := Option.some.inj h
          subst hi
          obtain ⟨x, hx, hm, hfirst⟩ := (ih k).mp hr
          refine ⟨x, by simpa using hx, hm, ?_⟩
          intro j y hj hy
          cases j with
          | zero =>
            have hy0 : rep = y := by simpa using hy
            subst hy0
            exact hc
          | succ j => exact hfirst j y (by omega) (by simpa using hy)
      · intro h
        obtain ⟨x, hx, hm, hfirst⟩ := h
        cases i with
        | zero =>
          have hx0 : rep = x := by simpa using hx
          subst hx0
          exact absurd hm hc
        | succ i =>
          have hk : FindReplacementPass palnum skybox rest = some i :=
            (ih i).mpr ⟨x, by simpa using hx, hm,
              fun j y hj hy => hfirst (j + 1) y (by omega) (by simpa using hy)⟩
          rw [hk]
          rfl

/-- Two passes are enough for the loop of `FindReplacement`. -/
theorem FindReplacementLoop_two (MAXPALOOKUPS RESERVEDPALS : Int)
    (l : List HightileReplacement) (skybox : Bool) (fuel : Nat) (palnum : Int) :
    FindReplacementLoop MAXPALOOKUPS RESERVEDPALS l skybox (fuel + 2) palnum
      = some (match FindReplacementPass palnum skybox l with
          | some i => some i
          | none =>
            if palnum ≠ 0 ∧ palnum < MAXPALOOKUPS - RESERVEDPALS then
              FindReplacementPass 0 skybox l
            else none) := by
  rw [FindReplacementLoop]
  cases h1 : FindReplacementPass palnum skybox l with
  | some i => rfl
  | none =>
    by_cases hc : palnum = 0 ∨ palnum ≥ MAXPALOOKUPS - RESERVEDPALS
    · have hn : ¬ (palnum ≠ 0 ∧ palnum < MAXPALOOKUPS - RESERVEDPALS) := by omega
      simp only []
      rw [if_pos hc, if_neg hn]
    · have hy : palnum ≠ 0 ∧ palnum < MAXPALOOKUPS - RESERVEDPALS := by omega
      simp only []
      rw [if_neg hc, if_pos hy, FindReplacementLoop]
      cases h2 : FindReplacementPass 0 skybox l with
      | some i => rfl
      | none =>
        simp only []
        exact if_pos (Or.inl trivial)

/-- C15: with at least two passes allowed `FindReplacement` returns: the first entry of the
slot's list with the given palette and skybox-ness; if there is none and the palette is
neither 0 nor in the reserved band, the first entry with palette 0 and that skybox-ness;
otherwise none.  A pass returns the first entry that passes its test.  With entries at
palette 0 only, a lookup at palette 7 gives the palette-0 entry and a lookup at palette
`MAXPALOOKUPS - 1` gives none. -/
theorem FindReplacement_spec (MAXPALOOKUPS RESERVEDPALS : Int) (fuel : Nat) (st : BuildTiles)
    (picnum palnum : Int) (skybox : Bool) (hfuel : 2 ≤ fuel) :
    FindReplacement MAXPALOOKUPS RESERVEDPALS fuel st picnum palnum skybox
      = some (match FindReplacementPass palnum skybox (st.tiledata picnum).Hightiles with
          | some i => some i
          | none =>
            if palnum ≠ 0 ∧ palnum < MAXPALOOKUPS - RESERVEDPALS then
              FindReplacementPass 0 skybox (st.tiledata picnum).Hightiles
            else none) ∧
    (∀ (p : Int) (i : Nat),
      FindReplacementPass p skybox (st.tiledata picnum).Hightiles = some i
        ↔ ∃ rep : HightileReplacement, (st.tiledata picnum).Hightiles[i]? = some rep
            ∧ (rep.palnum = p ∧ (rep.faces.getD 1 nullptr != nullptr) = skybox)
            ∧ ∀ (j : Nat) (y : HightileReplacement), j < i →
                (st.tiledata picnum).Hightiles[j]? = some y →
                ¬ (y.palnum = p ∧ (y.faces.getD 1 nullptr != nullptr) = skybox)) ∧
    (∀ p : Int,
      FindReplacementPass p skybox (st.tiledata picnum).Hightiles = none
        ↔ ∀ x ∈ (st.tiledata picnum).Hightiles,
            ¬ (x.palnum = p ∧ (x.faces.getD 1 nullptr != nullptr) = skybox)) ∧
    ((∀ x ∈ (st.tiledata picnum).Hightiles, x.palnum = 0) → 7 < MAXPALOOKUPS - RESERVEDPALS →
      FindReplacement MAXPALOOKUPS RESERVEDPALS fuel st picnum 7 skybox
        = some (FindReplacementPass 0 skybox (st.tiledata picnum).Hightiles)) ∧
    ((∀ x ∈ (st.tiledata picnum).Hightiles, x.palnum = 0) → 1 ≤ RESERVEDPALS →
      1 < MAXPALOOKUPS →
      FindReplacement MAXPALOOKUPS RESERVEDPALS fuel st picnum (MAXPALOOKUPS - 1) skybox
        = some none) := by
  obtain ⟨f, hf⟩ : ∃ f : Nat, fuel = f + 2 := ⟨fuel - 2, by omega⟩
  subst hf
  refine ⟨?_, ?_, ?_, ?_, ?_⟩
  · exact FindReplacementLoop_two MAXPALOOKUPS RESERVEDPALS _ skybox f palnum
  · intro p i
    exact FindReplacementPass_eq_some_iff p skybox _ i
  · intro p
    exact FindReplacementPass_eq_none_iff p skybox _
  · intro hall h7
    have hnone : FindReplacementPass 7 skybox (st.tiledata picnum).Hightiles = none := by
      rw [FindReplacementPass_eq_none_iff]
      intro x hx hm
      have h0 := hall x hx
      omega
    unfold FindReplacement
    rw [FindReplacementLoop_two, hnone]
    simp only []
    rw [if_pos ⟨by decide, h7⟩]
  · intro hall hR hM
    have hnone : FindReplacementPass (MAXPALOOKUPS - 1) skybox
        (st.tiledata picnum).Hightiles = none := by
      rw [FindReplacementPass_eq_none_iff]
      intro x hx hm
      have h0 := hall x hx
      omega
    unfold FindReplacement
    rw [FindReplacementLoop_two, hnone]
    simp only []
    rw [if_neg (by omega)]

/-- C15, evaluated with `MAXPALOOKUPS = 256`, `RESERVEDPALS = 4` on slot 12 of
`paletteRegistry` (a plain entry and a skybox, both at palette 0): the lookup of a plain
replacement at palette 7 gives entry 0, of a skybox entry 1, and the lookup at palette
255 gives none. -/
theorem FindReplacement_spec_witness :
    (2 ≤ 2) ∧
    FindReplacement 256 4 2 paletteRegistry 12 7 false = some (some 0) ∧
    FindReplacement 256 4 2 paletteRegistry 12 7 true = some (some 1) ∧
    FindReplacement 256 4 2 paletteRegistry 12 (256 - 1) false = some none :=
  ⟨Nat.le_refl 2,
   ((FindReplacement_spec 256 4 2 paletteRegistry 12 7 false (Nat.le_refl 2)).1).trans
     (by decide),
   ((FindReplacement_spec 256 4 2 paletteRegistry 12 7 true (Nat.le_refl 2)).2.2.2.1
     (by decide) (by decide)).trans (by decide),
   (FindReplacement_spec 256 4 2 paletteRegistry 12 0 false (Nat.le_refl 2)).2.2.2.2
     (by decide) (by decide) (by decide)⟩

/-! ## `tileSetHightileReplacement` and `tileSetSkybox` -/

/-- The unsigned comparison `(uint32_t)x >= (uint32_t)bound` on an `int` x and a
non-negative `int` bound is the test that x lies outside `[0, bound)`. -/
theorem unsigned_range_check (x bound : Int) (hx : -2147483648 ≤ x ∧ x < 2147483648)
    (hb : 0 ≤ bound ∧ bound < 2147483648) :
    toUInt32 x ≥ toUInt32 bound ↔ ¬ (0 ≤ x ∧ x < bound) := by
  unfold toUInt32
  omega

/-- C16: `tileSetHightileReplacement` and `tileSetSkybox` return -1 and leave the state,
hence every hightile list, unchanged when the tile index is outside `[0, MAXTILES)`, or
the palette is outside `[0, MAXPALOOKUPS)`, or the active texture of the slot has
width ≤ 0 or height ≤ 0. -/
theorem tileSet_rejects (MAXPALOOKUPS : Int) (TexMan : String → Option TexPtr)
    (st : BuildTiles) (picnum palnum : Int) (filename : String)
    (alphacut xscale yscale specpower specfactor : Rat) (flags : Int)
    (facenames : List String) (skyflags : Int)
    (hM : 0 ≤ MAXPALOOKUPS ∧ MAXPALOOKUPS < 2147483648)
    (hpic : -2147483648 ≤ picnum ∧ picnum < 2147483648)
    (hpal : -2147483648 ≤ palnum ∧ palnum < 2147483648)
    (h : ¬ (0 ≤ picnum ∧ picnum < MAXTILES) ∨ ¬ (0 ≤ palnum ∧ palnum < MAXPALOOKUPS)
      ∨ GetTexelWidth st (st.tiles picnum) ≤ 0 ∨ GetTexelHeight st (st.tiles picnum) ≤ 0) :
    tileSetHightileReplacement MAXPALOOKUPS TexMan st picnum palnum filename alphacut xscale
        yscale specpower specfactor flags = (-1, st) ∧
    tileSetSkybox MAXPALOOKUPS TexMan st picnum palnum facenames skyflags = (-1, st) ∧
    (∀ slot : Int,
      ((tileSetHightileReplacement MAXPALOOKUPS TexMan st picnum palnum filename alphacut
          xscale yscale specpower specfactor flags).2.tiledata slot).Hightiles
        = (st.tiledata slot).Hightiles ∧
      ((tileSetSkybox MAXPALOOKUPS TexMan st picnum palnum facenames skyflags).2.tiledata
          slot).Hightiles = (st.tiledata slot).Hightiles) := by
  have hT : (0 : Int) ≤ MAXTILES ∧ MAXTILES < 2147483648 := by
    unfold MAXTILES
    omega
  have h1 := unsigned_range_check picnum MAXTILES hpic hT
  have h2 := unsigned_range_check palnum MAXPALOOKUPS hpal hM
  have ha : tileSetHightileReplacement MAXPALOOKUPS TexMan st picnum palnum filename alphacut
      xscale yscale specpower specfactor flags = (-1, st) := by
    unfold tileSetHightileReplacement
    by_cases c1 : toUInt32 picnum ≥ toUInt32 MAXTILES
    · rw [if_pos c1]
    · rw [if_neg c1]
      by_cases c2 : toUInt32 palnum ≥ toUInt32 MAXPALOOKUPS
      · rw [if_pos c2]
      · rw [if_neg c2]
        have c3 : GetTexelWidth st (st.tiles picnum) ≤ 0
            ∨ GetTexelHeight st (st.tiles picnum) ≤ 0 := by
          rcases h with h | h | h | h
          · exact absurd (h1.mpr h) c1
          · exact absurd (h2.mpr h) c2
          · exact Or.inl h
          · exact Or.inr h
        simp only []
        rw [if_pos c3]
  have hb : tileSetSkybox MAXPALOOKUPS TexMan st picnum palnum facenames skyflags
      = (-1, st) := by
    unfold tileSetSkybox
    by_cases c1 : toUInt32 picnum ≥ toUInt32 MAXTILES
    · rw [if_pos c1]
    · rw [if_neg c1]
      by_cases c2 : toUInt32 palnum ≥ toUInt32 MAXPALOOKUPS
      · rw [if_pos c2]
      · rw [if_neg c2]
        have c3 : GetTexelWidth st (st.tiles picnum) ≤ 0
            ∨ GetTexelHeight st (st.tiles picnum) ≤ 0 := by
          rcases h with h | h | h | h
          · exact absurd (h1.mpr h) c1
          · exact absurd (h2.mpr h) c2
          · exact Or.inl h
          · exact Or.inr h
        simp only []
        rw [if_pos c3]
  rw [ha, hb]
  exact ⟨rfl, rfl, fun _ => ⟨rfl, rfl⟩⟩

/-- C16, evaluated with `MAXPALOOKUPS = 256` on `paletteRegistry`: slot 11 holds the
zero-size placeholder, so neither call attaches a replacement to it. -/
theorem tileSet_rejects_witness :
    (GetTexelWidth paletteRegistry (paletteRegistry.tiles 11) ≤ 0) ∧
    tileSetHightileReplacement 256 exampleTexMan paletteRegistry 11 3 "sky_ft" 1 1 1 1 1 0
      = (-1, paletteRegistry) ∧
    tileSetSkybox 256 exampleTexMan paletteRegistry 11 3
      ["sky_ft", "sky_rt", "sky_bk", "sky_lf", "sky_up", "sky_dn"] 0 = (-1, paletteRegistry) :=
  ⟨by decide,
   (tileSet_rejects 256 exampleTexMan paletteRegistry 11 3 "sky_ft" 1 1 1 1 1 0
      ["sky_ft", "sky_rt", "sky_bk", "sky_lf", "sky_up", "sky_dn"] 0
      (by decide) (by decide) (by decide) (Or.inr (Or.inr (Or.inl (by decide))))).1,
   (tileSet_rejects 256 exampleTexMan paletteRegistry 11 3 "sky_ft" 1 1 1 1 1 0
      ["sky_ft", "sky_rt", "sky_bk", "sky_lf", "sky_up", "sky_dn"] 0
      (by decide) (by decide) (by decide) (Or.inr (Or.inr (Or.inl (by decide))))).2.1⟩

/-- C17, evaluated with `MAXPALOOKUPS = 256` on slot 12 of `paletteRegistry`: every pass
of the loop of `tileSetSkybox` resolves the first name.  When only the first of the six
names resolves the call succeeds and inserts an entry; when all six resolve, to the
textures 21..26, the six faces of the entry are all texture 21. -/
theorem tileSetSkybox_uses_first_name :
    exampleTexMan "missing" = none ∧
    (tileSetSkybox 256 exampleTexMan paletteRegistry 12 3
      ["sky_ft", "missing", "missing", "missing", "missing", "missing"] 0).1 = 0 ∧
    ((tileSetSkybox 256 exampleTexMan paletteRegistry 12 3
      ["sky_ft", "missing", "missing", "missing", "missing", "missing"] 0).2.tiledata
        12).Hightiles
      = (paletteRegistry.tiledata 12).Hightiles
          ++ [{ faces := [21, 21, 21, 21, 21, 21], palnum := 3 }] ∧
    (["sky_ft", "sky_rt", "sky_bk", "sky_lf", "sky_up", "sky_dn"].map exampleTexMan
      = [some 21, some 22, some 23, some 24, some 25, some 26]) ∧
    ((tileSetSkybox 256 exampleTexMan paletteRegistry 12 3
      ["sky_ft", "sky_rt", "sky_bk", "sky_lf", "sky_up", "sky_dn"] 0).2.tiledata 12).Hightiles
      = (paletteRegistry.tiledata 12).Hightiles
          ++ [{ faces := [21, 21, 21, 21, 21, 21], palnum := 3 }] := by
  decide

/-! ## `tileDelete` -/

/-- On every registry and for every in-range slot, after `tileDelete` the active texture
and the backup texture of the slot are the placeholder and its hightile list is empty;
the function has no statement on the replacement kind of the slot. -/
theorem tileDelete_resets (st : BuildTiles) (tile : Int) (h : 0 ≤ tile ∧ tile < MAXTILES) :
    (tileDelete st tile).tiles tile = st.Placeholder ∧
    (tileDelete st tile).tilesbak tile = st.Placeholder ∧
    ((tileDelete st tile).tiledata tile).Hightiles = [] ∧
    ((tileDelete st tile).tiledata tile).replacement = (st.tiledata tile).replacement ∧
    (tileDelete st tile).Placeholder = st.Placeholder := by
  have hr : ¬ toUInt32 tile ≥ MAXTILES := by
    unfold toUInt32 MAXTILES
    unfold MAXTILES at h
    omega
  unfold tileDelete tileRemoveReplacement
  simp only []
  rw [if_neg hr]
  unfold DeleteReplacements
  simp only [Function.update_same]
  exact ⟨trivial, trivial, trivial, trivial, trivial⟩

/-- `tileDelete` on slot 12 of `paletteRegistry`, which holds an 8x8 tile and two
replacements. -/
theorem tileDelete_resets_witness :
    ((0 : Int) ≤ 12 ∧ (12 : Int) < MAXTILES) ∧
    (tileDelete paletteRegistry 12).tiles 12 = paletteRegistry.Placeholder ∧
    (tileDelete paletteRegistry 12).tilesbak 12 = paletteRegistry.Placeholder ∧
    ((tileDelete paletteRegistry 12).tiledata 12).Hightiles = [] :=
  ⟨by decide,
   (tileDelete_resets paletteRegistry 12 (by decide)).1,
   (tileDelete_resets paletteRegistry 12 (by decide)).2.1,
   (tileDelete_resets paletteRegistry 12 (by decide)).2.2.1⟩

/-! ## Map art -/

/-- C18, evaluated: loading `exampleArt` in map scope into `exampleRegistry` changes the
backup of slot 10 from the placeholder 1 to the new tile 2, and registers the tiles in
`AllTiles`, not in `AllMapTiles`. -/
theorem LoadArtFile_mapart_writes_backup :
    exampleRegistry.tilesbak 10 = 1 ∧
    (LoadArtFile (fun _ => some exampleArt) exampleRegistry "e1l1_00.art" true (-1)).1 = 0 ∧
    (LoadArtFile (fun _ => some exampleArt) exampleRegistry "e1l1_00.art" true (-1)).2.tilesbak
      10 = 2 ∧
    (LoadArtFile (fun _ => some exampleArt) exampleRegistry "e1l1_00.art" true (-1)).2.tiles
      10 = 2 ∧
    (LoadArtFile (fun _ => some exampleArt) exampleRegistry "e1l1_00.art" true
      (-1)).2.AllMapTiles = [] ∧
    (LoadArtFile (fun _ => some exampleArt) exampleRegistry "e1l1_00.art" true
      (-1)).2.AllTiles = [2, 3] ∧
    (LoadArtFile (fun _ => some exampleArt) exampleRegistry "e1l1_00.art" true
      (-1)).2.PerMapArtFiles = [0] := by
  decide

/-- C19: after `artClearMapArt` the active texture of every slot in `[0, MAXTILES)` is
its backup, the backup table is the one before the call, and the lists of per-map art
files and per-map tiles are empty. -/
theorem artClearMapArt_restores (st : BuildTiles) :
    (∀ i : Int, 0 ≤ i → i < MAXTILES →
      (artClearMapArt st).tiles i = (artClearMapArt st).tilesbak i) ∧
    (artClearMapArt st).tilesbak = st.tilesbak ∧
    (artClearMapArt st).PerMapArtFiles = [] ∧
    (artClearMapArt st).AllMapTiles = [] := by
  refine ⟨?_, rfl, rfl, rfl⟩
  intro i h0 h1
  show (if 0 ≤ i ∧ i < MAXTILES then st.tilesbak i else st.tiles i) = st.tilesbak i
  rw [if_pos ⟨h0, h1⟩]

/-- C19, evaluated: slot 5 of a registry whose active texture 7 overrides the backup 1
and whose per-map lists are not empty. -/
theorem artClearMapArt_restores_witness :
    ((0 : Int) ≤ 5 ∧ (5 : Int) < MAXTILES) ∧
    (Function.update exampleRegistry.tiles 5 7) 5 = 7 ∧
    (artClearMapArt { exampleRegistry with
        tiles := Function.update exampleRegistry.tiles 5 7
        AllMapTiles := [7], PerMapArtFiles := [0] }).tiles 5 = 1 :=
  ⟨by decide, by decide,
   ((artClearMapArt_restores { exampleRegistry with
        tiles := Function.update exampleRegistry.tiles 5 7
        AllMapTiles := [7], PerMapArtFiles := [0] }).1 5 (by decide) (by decide)).trans
     (by decide)⟩

/-- C20, evaluated: after `exampleArt` was loaded in map scope, slot 10 carries the
descriptor of the archive while its descriptor backup is the zero descriptor;
`artClearMapArt` changes neither, so they still differ after it. -/
theorem artClearMapArt_keeps_picanm :
    ((artClearMapArt
        (LoadArtFile (fun _ => some exampleArt) exampleRegistry "e1l1_00.art" true
          (-1)).2).tiledata 10).picanm
      = { num := 5, xofs := 1, yofs := 2, sf := 3, extra := 0 } ∧
    ((artClearMapArt
        (LoadArtFile (fun _ => some exampleArt) exampleRegistry "e1l1_00.art" true
          (-1)).2).tiledata 10).picanmbackup = {} ∧
    ((artClearMapArt
        (LoadArtFile (fun _ => some exampleArt) exampleRegistry "e1l1_00.art" true
          (-1)).2).tiledata 10).picanm
      ≠ ((artClearMapArt
        (LoadArtFile (fun _ => some exampleArt) exampleRegistry "e1l1_00.art" true
          (-1)).2).tiledata 10).picanmbackup ∧
    (∀ st : BuildTiles, (artClearMapArt st).tiledata = st.tiledata) := by
  refine ⟨by decide, by decide, by decide, fun _ => rfl⟩


/-! ## `artSetupMapArt` -/

theorem artSetupMapArt_of_ne (fileSystem : String → Option (List Byte)) (g : Globals)
    (filename : String) (h : CompareNoCase g.currentMapArt filename ≠ 0) :
    artSetupMapArt fileSystem g filename = g := by
  unfold artSetupMapArt
  rw [if_pos h]

set_option maxRecDepth 100000 in
/-- C21, evaluated: `artSetupMapArt` called with the name of the overlay that is open is
not a no-op.  With the overlay `e1l1` open (its archive 0 loaded in map scope, slot 10
holding tile 2) the call with `e1l1` closes the overlay and loads it again: the per-map
archive list becomes `[1]` and slot 10 holds the new tile 4; the call with `E1L1`
records the new spelling and leaves the per-map archive list empty.  The same happens
from the start state (recorded name empty) with the empty name called twice. -/
theorem artSetupMapArt_same_name_reloads :
    CompareNoCase "e1l1" "e1l1" = 0 ∧ CompareNoCase "e1l1" "E1L1" = 0 ∧
    openRegistry.PerMapArtFiles = [0] ∧ openRegistry.tiles 10 = 2 ∧
    (artSetupMapArt exampleFileSystem ⟨openRegistry, "e1l1"⟩ "e1l1").TileFiles.PerMapArtFiles
      = [1] ∧
    (artSetupMapArt exampleFileSystem ⟨openRegistry, "e1l1"⟩ "e1l1").TileFiles.tiles 10 = 4 ∧
    (artSetupMapArt exampleFileSystem ⟨openRegistry, "e1l1"⟩ "E1L1").currentMapArt = "E1L1" ∧
    (artSetupMapArt exampleFileSystem ⟨openRegistry, "e1l1"⟩ "E1L1").TileFiles.PerMapArtFiles
      = [] ∧
    (artSetupMapArt exampleFileSystem ⟨exampleRegistry, ""⟩ "").TileFiles.PerMapArtFiles
      = [0] ∧
    (artSetupMapArt exampleFileSystem
      (artSetupMapArt exampleFileSystem ⟨exampleRegistry, ""⟩ "") "").TileFiles.PerMapArtFiles
      = [1] ∧
    ¬ (∀ (fileSystem : String → Option (List Byte)) (g : Globals) (name : String),
        CompareNoCase g.currentMapArt name = 0 → artSetupMapArt fileSystem g name = g) := by
  refine ⟨by decide, by decide, by decide, by decide, by decide, by decide, by decide,
    by decide, by decide, by decide, ?_⟩
  intro hall
  have h := hall exampleFileSystem ⟨openRegistry, "e1l1"⟩ "e1l1" (by decide)
  have h2 := congrArg (fun g => g.TileFiles.PerMapArtFiles) h
  revert h2
  decide

/-- C22: `artSetupMapArt` called with a name that differs (ignoring case) from the
recorded one returns at its first statement and leaves the globals as they are.  From
the start state, with `e1l1_00.art` present, the call with `e1l1` records no name and
loads nothing; with an overlay open (slot 5 overridden by tile 7, backup 1) the call
with `e2l1` does not close it. -/
theorem artSetupMapArt_other_name_returns :
    CompareNoCase "" "e1l1" ≠ 0 ∧ exampleFileSystem "e1l1_00.art" = some exampleArt ∧
    (artSetupMapArt exampleFileSystem ⟨exampleRegistry, ""⟩ "e1l1").currentMapArt = "" ∧
    (artSetupMapArt exampleFileSystem ⟨exampleRegistry, ""⟩ "e1l1").TileFiles.PerMapArtFiles
      = [] ∧
    (artSetupMapArt exampleFileSystem ⟨exampleRegistry, ""⟩ "e1l1").TileFiles.tiles 10 = 1 ∧
    CompareNoCase "e1l1" "e2l1" ≠ 0 ∧
    (artSetupMapArt exampleFileSystem
      ⟨{ exampleRegistry with
          tiles := Function.update exampleRegistry.tiles 5 7
          AllMapTiles := [7], PerMapArtFiles := [0] }, "e1l1"⟩ "e2l1").TileFiles.tiles 5 = 7 ∧
    (artSetupMapArt exampleFileSystem
      ⟨{ exampleRegistry with
          tiles := Function.update exampleRegistry.tiles 5 7
          AllMapTiles := [7], PerMapArtFiles := [0] }, "e1l1"⟩ "e2l1").TileFiles.tilesbak 5
      = 1 ∧
    (artSetupMapArt exampleFileSystem
      ⟨{ exampleRegistry with
          tiles := Function.update exampleRegistry.tiles 5 7
          AllMapTiles := [7], PerMapArtFiles := [0] }, "e1l1"⟩ "e2l1").currentMapArt
      = "e1l1" ∧
    (∀ (fileSystem : String → Option (List Byte)) (g : Globals) (other : String),
      CompareNoCase g.currentMapArt other ≠ 0 → artSetupMapArt fileSystem g other = g) := by
  refine ⟨by decide, by decide, by decide, by decide, by decide, by decide, by decide,
    by decide, by decide, ?_⟩
  intro fileSystem g other h
  exact artSetupMapArt_of_ne fileSystem g other h

theorem setFileBuffer_files (st : BuildTiles) (file : Nat) (buf : List Byte) :
    (setFileBuffer st file buf).ArtFiles = st.ArtFiles ∧
    (setFileBuffer st file buf).PerMapArtFiles = st.PerMapArtFiles ∧
    (setFileBuffer st file buf).fileHeap.map BuildArtFile.filename
      = st.fileHeap.map BuildArtFile.filename := by
  unfold setFileBuffer
  split
  · rename_i f hf
    refine ⟨rfl, rfl, ?_⟩
    show (st.fileHeap.set file { f with RawData := buf }).map BuildArtFile.filename = _
    apply List.ext_getElem?
    intro n
    rw [List.getElem?_map, List.getElem?_map, List.getElem?_set]
    by_cases hn : file = n
    · subst hn
      rw [if_pos rfl, hf]
      have hlt : file < st.fileHeap.length := by
        by_contra hge
        rw [List.getElem?_eq_none (by omega)] at hf
        exact Option.noConfusion hf
      rw [if_pos hlt]
      rfl
    · rw [if_neg hn]
  · exact ⟨rfl, rfl, rfl⟩

theorem AddTile_files (st : BuildTiles) (tilenum : Int) (tex : TexPtr) (permap : Bool) :
    (AddTile st tilenum tex permap).ArtFiles = st.ArtFiles ∧
    (AddTile st tilenum tex permap).PerMapArtFiles = st.PerMapArtFiles := by
  cases permap <;> exact ⟨rfl, rfl⟩

theorem AddTilesInstall_files (st : BuildTiles) (RawData : Nat) (i tiledata : Int)
    (width height anm : Int) :
    (AddTilesInstall st RawData i tiledata width height anm).ArtFiles = st.ArtFiles ∧
    (AddTilesInstall st RawData i tiledata width height anm).PerMapArtFiles
      = st.PerMapArtFiles ∧
    (AddTilesInstall st RawData i tiledata width height anm).fileHeap.map BuildArtFile.filename
      = st.fileHeap.map BuildArtFile.filename := by
  have hS := setFileBuffer_files
    (newTexture st (FTexture.FArtTile RawData (toUInt32 tiledata).toNat width height)).2 RawData
    (swapLoop (fileBuffer
      (newTexture st (FTexture.FArtTile RawData (toUInt32 tiledata).toNat width height)).2
      RawData) (toUInt32 tiledata).toNat (width * height).toNat)
  have hA := AddTile_files (GetTileTexture st "" RawData (toUInt32 tiledata).toNat width height).2
    i (GetTileTexture st "" RawData (toUInt32 tiledata).toNat width height).1 false
  have hF := AddTile_fileHeap
    (GetTileTexture st "" RawData (toUInt32 tiledata).toNat width height).2
    i (GetTileTexture st "" RawData (toUInt32 tiledata).toNat width height).1 false
  refine ⟨?_, ?_, ?_⟩
  · show (AddTile (GetTileTexture st "" RawData (toUInt32 tiledata).toNat width height).2 i
      (GetTileTexture st "" RawData (toUInt32 tiledata).toNat width height).1 false).ArtFiles = _
    rw [hA.1]
    exact hS.1
  · show (AddTile (GetTileTexture st "" RawData (toUInt32 tiledata).toNat width height).2 i
      (GetTileTexture st "" RawData (toUInt32 tiledata).toNat width height).1
      false).PerMapArtFiles = _
    rw [hA.2]
    exact hS.2.1
  · show (AddTile (GetTileTexture st "" RawData (toUInt32 tiledata).toNat width height).2 i
      (GetTileTexture st "" RawData (toUInt32 tiledata).toNat width height).1
      false).fileHeap.map BuildArtFile.filename = _
    rw [hF]
    exact hS.2.2

theorem AddTilesLoop_files (RawData : Nat) (tilestart tilesizx tilesizy picanm : Int) :
    ∀ (n : Nat) (i tiledata : Int) (st : BuildTiles),
      (AddTilesLoop RawData tilestart tilesizx tilesizy picanm n i tiledata st).ArtFiles
        = st.ArtFiles ∧
      (AddTilesLoop RawData tilestart tilesizx tilesizy picanm n i tiledata st).PerMapArtFiles
        = st.PerMapArtFiles ∧
      (AddTilesLoop RawData tilestart tilesizx tilesizy picanm n i tiledata
          st).fileHeap.map BuildArtFile.filename
        = st.fileHeap.map BuildArtFile.filename := by
  intro n
  induction n with
  | zero => intro i tiledata st; exact ⟨rfl, rfl, rfl⟩
  | succ n ih =>
    intro i tiledata st
    by_cases h : readLE16 (fileBuffer st RawData) (tilesizx + 2 * (i - tilestart)) ≤ 0
        ∨ readLE16 (fileBuffer st RawData) (tilesizy + 2 * (i - tilestart)) ≤ 0
    · rw [AddTilesLoop_skip _ _ _ _ _ _ _ _ _ h]
      exact ih _ _ _
    · rw [AddTilesLoop_install _ _ _ _ _ _ _ _ _ h]
      have h1 := ih (i + 1)
        (tiledata + readLE16 (fileBuffer st RawData) (tilesizx + 2 * (i - tilestart))
          * readLE16 (fileBuffer st RawData) (tilesizy + 2 * (i - tilestart)))
        (AddTilesInstall st RawData i tiledata
          (readLE16 (fileBuffer st RawData) (tilesizx + 2 * (i - tilestart)))
          (readLE16 (fileBuffer st RawData) (tilesizy + 2 * (i - tilestart)))
          (readLE32 (fileBuffer st RawData) (picanm + 4 * (i - tilestart))))
      have h2 := AddTilesInstall_files st RawData i tiledata
        (readLE16 (fileBuffer st RawData) (tilesizx + 2 * (i - tilestart)))
        (readLE16 (fileBuffer st RawData) (tilesizy + 2 * (i - tilestart)))
        (readLE32 (fileBuffer st RawData) (picanm + 4 * (i - tilestart)))
      exact ⟨h1.1.trans h2.1, h1.2.1.trans h2.2.1, h1.2.2.trans h2.2.2⟩

theorem AddTiles_files (st : BuildTiles) (firsttile : Int) (RawData : Nat) (permap : Bool) :
    (AddTiles st firsttile RawData permap).ArtFiles = st.ArtFiles ∧
    (AddTiles st firsttile RawData permap).PerMapArtFiles = st.PerMapArtFiles ∧
    (AddTiles st firsttile RawData permap).fileHeap.map BuildArtFile.filename
      = st.fileHeap.map BuildArtFile.filename := by
  unfold AddTiles
  exact AddTilesLoop_files _ _ _ _ _ _ _ _ _

theorem CompareNoCase_self (a : String) : CompareNoCase a a = 0 := by
  unfold CompareNoCase
  rw [if_pos rfl]

theorem FindFile_lt (st : BuildTiles) (filename name : String) (file : Nat)
    (hmem : file ∈ st.ArtFiles)
    (hf : (st.fileHeap.map BuildArtFile.filename)[file]? = some name)
    (hname : CompareNoCase filename name = 0) :
    FindFile st filename < st.ArtFiles.length := by
  unfold FindFile
  apply List.findIdx_lt_length_of_exists
  refine ⟨file, hmem, ?_⟩
  rw [List.getElem?_map] at hf
  cases hx : st.fileHeap[file]? with
  | none => rw [hx] at hf; exact Option.noConfusion hf
  | some f =>
    rw [hx] at hf
    have hn : f.filename = name := Option.some.inj hf
    simp only [hn, hname]
    rfl

/-- The three ways `LoadArtFile` ends: nothing done and 0 returned, the file not opened
and -1 returned, or the archive retained and cut into tiles. -/
theorem LoadArtFile_cases (fileSystem : String → Option (List Byte)) (st : BuildTiles)
    (fn : String) (mapart : Bool) (firsttile : Int) :
    LoadArtFile fileSystem st fn mapart firsttile = (0, st) ∨
    LoadArtFile fileSystem st fn mapart firsttile = (-1, st) ∨
    (∃ artdata : List Byte,
      LoadArtFile fileSystem st fn mapart firsttile
        = (0, AddTiles
            (if mapart then
              { st with fileHeap := st.fileHeap ++ [BuildArtFile.mk fn artdata]
                        PerMapArtFiles := st.PerMapArtFiles ++ [st.fileHeap.length] }
            else
              { st with fileHeap := st.fileHeap ++ [BuildArtFile.mk fn artdata]
                        ArtFiles := st.ArtFiles ++ [st.fileHeap.length] })
            firsttile st.fileHeap.length mapart)) := by
  unfold LoadArtFile
  by_cases hold : FindFile st fn ≥ st.ArtFiles.length
  · simp only [if_pos hold]
    cases hfs : fileSystem fn with
    | none => exact Or.inr (Or.inl rfl)
    | some artdata =>
      simp only []
      by_cases hlen : artdata.length > 16
      · rw [if_pos hlen]
        by_cases hcount : CountTiles fn (stripBUILDART artdata) > 0
        · rw [if_pos hcount]
          refine Or.inr (Or.inr ⟨stripBUILDART artdata, ?_⟩)
          cases mapart <;> rfl
        · rw [if_neg hcount]
          exact Or.inl rfl
      · rw [if_neg hlen]
        exact Or.inl rfl
  · rw [if_neg hold]
    exact Or.inl rfl

theorem LoadArtFile_found (fileSystem : String → Option (List Byte)) (st : BuildTiles)
    (fn : String) (mapart : Bool) (firsttile : Int)
    (h : FindFile st fn < st.ArtFiles.length) :
    LoadArtFile fileSystem st fn mapart firsttile = (0, st) := by
  unfold LoadArtFile
  simp only [if_neg (Nat.not_le.mpr h)]

/-- After a base-scope load retained the archive `fn`, every name equal to `fn` ignoring
case is found among the loaded archives. -/
theorem FindFile_after_load (st : BuildTiles) (fn name : String) (artdata : List Byte)
    (firsttile : Int) (hname : CompareNoCase name fn = 0) :
    FindFile (AddTiles
        { st with fileHeap := st.fileHeap ++ [BuildArtFile.mk fn artdata]
                  ArtFiles := st.ArtFiles ++ [st.fileHeap.length] }
        firsttile st.fileHeap.length false) name
      < (AddTiles
        { st with fileHeap := st.fileHeap ++ [BuildArtFile.mk fn artdata]
                  ArtFiles := st.ArtFiles ++ [st.fileHeap.length] }
        firsttile st.fileHeap.length false).ArtFiles.length := by
  have hF := AddTiles_files
    { st with fileHeap := st.fileHeap ++ [BuildArtFile.mk fn artdata]
              ArtFiles := st.ArtFiles ++ [st.fileHeap.length] }
    firsttile st.fileHeap.length false
  apply FindFile_lt _ name fn st.fileHeap.length
  · rw [hF.1]
    simp
  · rw [hF.2.2]
    simp
  · exact hname

set_option maxRecDepth 100000 in
/-- C24, evaluated: two ways in which a second `LoadArtFile` is not what the first made
of the registry, or does not return 0.  In map scope the archive retained by the first
call is not looked up (`FindFile` searches `ArtFiles`), so the second call retains a
second buffer and installs new tiles; for a file that cannot be opened both calls
return -1. -/
theorem LoadArtFile_mapart_twice_loads_twice :
    (LoadArtFile exampleFileSystem exampleRegistry "e1l1_00.art" true (-1)).2.PerMapArtFiles
      = [0] ∧
    (LoadArtFile exampleFileSystem exampleRegistry "e1l1_00.art" true (-1)).2.tiles 10 = 2 ∧
    (LoadArtFile exampleFileSystem
      (LoadArtFile exampleFileSystem exampleRegistry "e1l1_00.art" true (-1)).2
      "e1l1_00.art" true (-1)).1 = 0 ∧
    (LoadArtFile exampleFileSystem
      (LoadArtFile exampleFileSystem exampleRegistry "e1l1_00.art" true (-1)).2
      "e1l1_00.art" true (-1)).2.PerMapArtFiles = [0, 1] ∧
    (LoadArtFile exampleFileSystem
      (LoadArtFile exampleFileSystem exampleRegistry "e1l1_00.art" true (-1)).2
      "e1l1_00.art" true (-1)).2.fileHeap.length = 2 ∧
    (LoadArtFile exampleFileSystem
      (LoadArtFile exampleFileSystem exampleRegistry "e1l1_00.art" true (-1)).2
      "e1l1_00.art" true (-1)).2.tiles 10 = 4 ∧
    exampleFileSystem "missing.art" = none ∧
    (LoadArtFile exampleFileSystem exampleRegistry "missing.art" false (-1)).1 = -1 ∧
    (LoadArtFile exampleFileSystem
      (LoadArtFile exampleFileSystem exampleRegistry "missing.art" false (-1)).2
      "missing.art" false (-1)).1 = -1 := by
  decide

/-- C24, amended: in base scope (`mapart = false`) a second `LoadArtFile` with the same
arguments returns what the first returned and leaves the whole registry as the first
left it; the first returns 0, or -1 with the registry unchanged; and when the first
retained the archive, a later call in either scope with a name equal to it ignoring
case returns 0 and changes nothing. -/
theorem LoadArtFile_base_twice (fileSystem : String → Option (List Byte)) (st : BuildTiles)
    (fn name : String) (firsttile : Int) (mapart2 : Bool) (firsttile2 : Int)
    (hname : CompareNoCase name fn = 0) :
    LoadArtFile fileSystem (LoadArtFile fileSystem st fn false firsttile).2 fn false firsttile
      = LoadArtFile fileSystem st fn false firsttile ∧
    ((LoadArtFile fileSystem st fn false firsttile).1 = 0 ∨
      ((LoadArtFile fileSystem st fn false firsttile).1 = -1 ∧
        (LoadArtFile fileSystem st fn false firsttile).2 = st)) ∧
    ((LoadArtFile fileSystem st fn false firsttile).2.ArtFiles ≠ st.ArtFiles →
      LoadArtFile fileSystem (LoadArtFile fileSystem st fn false firsttile).2 name mapart2
          firsttile2
        = (0, (LoadArtFile fileSystem st fn false firsttile).2)) := by
  rcases LoadArtFile_cases fileSystem st fn false firsttile with h | h | ⟨artdata, h⟩
  · refine ⟨?_, Or.inl ?_, ?_⟩
    · rw [h]
      exact h
    · rw [h]
    · rw [h]
      intro hne
      exact absurd rfl hne
  · refine ⟨?_, Or.inr ⟨?_, ?_⟩, ?_⟩
    · rw [h]
      exact h
    · rw [h]
    · rw [h]
    · rw [h]
      intro hne
      exact absurd rfl hne
  · rw [h]
    simp only [Bool.false_eq_true, if_false]
    refine ⟨?_, Or.inl trivial, ?_⟩
    · exact LoadArtFile_found fileSystem _ fn false firsttile
        (FindFile_after_load st fn fn artdata firsttile (CompareNoCase_self fn))
    · intro _
      exact LoadArtFile_found fileSystem _ name mapart2 firsttile2
        (FindFile_after_load st fn name artdata firsttile hname)

set_option maxRecDepth 100000 in
/-- C24, evaluated: `exampleArt` loaded in base scope as `tiles000.art`, then asked for
again as `TILES000.ART` in map scope. -/
theorem LoadArtFile_base_twice_witness :
    CompareNoCase "TILES000.ART" "tiles000.art" = 0 ∧
    (LoadArtFile (fun _ => some exampleArt) exampleRegistry "tiles000.art" false (-1)).2.ArtFiles
      = [0] ∧
    LoadArtFile (fun _ => some exampleArt)
        (LoadArtFile (fun _ => some exampleArt) exampleRegistry "tiles000.art" false (-1)).2
        "TILES000.ART" true 40
      = (0, (LoadArtFile (fun _ => some exampleArt) exampleRegistry "tiles000.art" false
          (-1)).2) :=
  ⟨by decide, by decide,
   (LoadArtFile_base_twice (fun _ => some exampleArt) exampleRegistry "tiles000.art"
     "TILES000.ART" (-1) true 40 (by decide)).2.2 (by decide)⟩

/-! ## The decode cache -/

theorem Get8BitPixels_length (st : BuildTiles) (t : FTexture) :
    (Get8BitPixels st t).length = (t.GetTexelWidth * t.GetTexelHeight).toNat := by
  unfold Get8BitPixels
  cases GetRawData st t <;> simp

theorem tilePtr_cached (I_nsTime : Nat) (st : BuildTiles) (num : Int)
    (h : (st.tiledata num).rawCache.data ≠ []) :
    tilePtr I_nsTime st num
      = (some (st.tiledata num).rawCache.data,
         { st with
           tiledata := Function.update st.tiledata num
             { st.tiledata num with
               rawCache := { (st.tiledata num).rawCache with lastUseTime := I_nsTime } } }) := by
  have hlen : ¬ (st.tiledata num).rawCache.data.length = 0 := by
    intro h0
    exact h (List.length_eq_zero.mp h0)
  unfold tilePtr
  simp only [if_neg hlen, Function.update_same]

theorem tilePtr_empty_tile (I_nsTime : Nat) (st : BuildTiles) (num : Int)
    (h : (st.tiledata num).rawCache.data = [])
    (hempty : st.tiles num = nullptr ∨ GetTexelWidth st (st.tiles num) ≤ 0
      ∨ GetTexelHeight st (st.tiles num) ≤ 0) :
    tilePtr I_nsTime st num = (none, st) := by
  have hlen : (st.tiledata num).rawCache.data.length = 0 := by rw [h]; rfl
  unfold tilePtr tilePtrDecode
  simp only [if_pos hlen, if_pos hempty]

theorem tilePtr_decode (I_nsTime : Nat) (st : BuildTiles) (num : Int) (t : FTexture)
    (h : (st.tiledata num).rawCache.data = [])
    (ht : deref st (st.tiles num) = some t)
    (hw : 0 < t.GetTexelWidth) (hh : 0 < t.GetTexelHeight) :
    tilePtr I_nsTime st num
      = (some (Get8BitPixels st t),
         { st with
           tiledata := Function.update st.tiledata num
             { st.tiledata num with
               rawCache := { data := Get8BitPixels st t, lastUseTime := I_nsTime } } }) := by
  have hlen : (st.tiledata num).rawCache.data.length = 0 := by rw [h]; rfl
  have hnn : st.tiles num ≠ nullptr := by
    intro h0
    rw [h0] at ht
    exact Option.noConfusion ht
  have hW : GetTexelWidth st (st.tiles num) = t.GetTexelWidth := by
    unfold GetTexelWidth; rw [ht]
  have hH : GetTexelHeight st (st.tiles num) = t.GetTexelHeight := by
    unfold GetTexelHeight; rw [ht]
  have hne : ¬ (st.tiles num = nullptr ∨ GetTexelWidth st (st.tiles num) ≤ 0
      ∨ GetTexelHeight st (st.tiles num) ≤ 0) := by
    rw [hW, hH]
    intro hor
    rcases hor with h1 | h1 | h1
    · exact hnn h1
    · omega
    · omega
  unfold tilePtr tilePtrDecode
  simp only [if_pos hlen, if_neg hne, ht, Function.update_same, Function.update_idem]

/-- C25: `tilePtr` on a slot with an empty cache and an active texture of positive width
and height stores the `Width * Height` bytes of `Get8BitPixels` in the cache and returns
them; on a slot with a non-empty cache it returns the cached bytes and changes nothing
but the last-use time; a second call right after the first returns what the first
returned; on an empty tile (null, or width or height not positive) with an empty cache
it returns null and leaves the registry as it is. -/
theorem tilePtr_spec (I_nsTime : Nat) (st : BuildTiles) (num : Int) :
    ((st.tiledata num).rawCache.data = [] →
      ∀ t : FTexture, deref st (st.tiles num) = some t →
        0 < t.GetTexelWidth → 0 < t.GetTexelHeight →
        (tilePtr I_nsTime st num).1 = some (Get8BitPixels st t) ∧
        (Get8BitPixels st t).length = (t.GetTexelWidth * t.GetTexelHeight).toNat ∧
        ((tilePtr I_nsTime st num).2.tiledata num).rawCache
          = { data := Get8BitPixels st t, lastUseTime := I_nsTime } ∧
        (∀ i : Int, i ≠ num →
          (tilePtr I_nsTime st num).2.tiledata i = st.tiledata i)) ∧
    ((st.tiledata num).rawCache.data ≠ [] →
      (tilePtr I_nsTime st num).1 = some (st.tiledata num).rawCache.data ∧
      (tilePtr I_nsTime st num).2
        = { st with
            tiledata := Function.update st.tiledata num
              { st.tiledata num with
                rawCache :=
                  { (st.tiledata num).rawCache with lastUseTime := I_nsTime } } }) ∧
    (∀ later : Nat,
      (tilePtr later (tilePtr I_nsTime st num).2 num).1 = (tilePtr I_nsTime st num).1) ∧
    ((st.tiledata num).rawCache.data = [] →
      (st.tiles num = nullptr ∨ GetTexelWidth st (st.tiles num) ≤ 0
        ∨ GetTexelHeight st (st.tiles num) ≤ 0) →
      tilePtr I_nsTime st num = (none, st)) := by
  refine ⟨?_, ?_, ?_, ?_⟩
  · intro h t ht hw hh
    rw [tilePtr_decode I_nsTime st num t h ht hw hh]
    refine ⟨rfl, Get8BitPixels_length st t, ?_, ?_⟩
    · show ((Function.update st.tiledata num _) num).rawCache = _
      rw [Function.update_same]
    · intro i hi
      show (Function.update st.tiledata num _) i = _
      rw [Function.update_noteq hi]
  · intro h
    rw [tilePtr_cached I_nsTime st num h]
    exact ⟨rfl, rfl⟩
  · intro later
    by_cases h : (st.tiledata num).rawCache.data = []
    · by_cases hempty : st.tiles num = nullptr ∨ GetTexelWidth st (st.tiles num) ≤ 0
          ∨ GetTexelHeight st (st.tiles num) ≤ 0
      · rw [tilePtr_empty_tile I_nsTime st num h hempty]
        exact congrArg Prod.fst (tilePtr_empty_tile later st num h hempty)
      · cases ht : deref st (st.tiles num) with
        | none =>
          exfalso
          apply hempty
          right; left
          unfold GetTexelWidth
          rw [ht]
        | some t =>
          have hW : GetTexelWidth st (st.tiles num) = t.GetTexelWidth := by
            unfold GetTexelWidth; rw [ht]
          have hH : GetTexelHeight st (st.tiles num) = t.GetTexelHeight := by
            unfold GetTexelHeight; rw [ht]
          have hw : 0 < t.GetTexelWidth := by
            by_contra hc
            exact hempty (Or.inr (Or.inl (by rw [hW]; omega)))
          have hh : 0 < t.GetTexelHeight := by
            by_contra hc
            exact hempty (Or.inr (Or.inr (by rw [hH]; omega)))
          rw [tilePtr_decode I_nsTime st num t h ht hw hh]
          have hne : (Get8BitPixels st t) ≠ [] := by
            intro h0
            have hl := Get8BitPixels_length st t
            rw [h0] at hl
            have hpos : 0 < t.GetTexelWidth * t.GetTexelHeight := Int.mul_pos hw hh
            have hl2 : (t.GetTexelWidth * t.GetTexelHeight).toNat = 0 := hl.symm
            generalize t.GetTexelWidth * t.GetTexelHeight = p at hpos hl2
            omega
          rw [tilePtr_cached later _ num (by
            show ((Function.update st.tiledata num _) num).rawCache.data ≠ []
            rw [Function.update_same]
            exact hne)]
          show some ((Function.update st.tiledata num _) num).rawCache.data = _
          rw [Function.update_same]
    · rw [tilePtr_cached I_nsTime st num h]
      rw [tilePtr_cached later _ num (by
        show ((Function.update st.tiledata num _) num).rawCache.data ≠ []
        rw [Function.update_same]
        exact h)]
      show some ((Function.update st.tiledata num _) num).rawCache.data = _
      rw [Function.update_same]
  · intro h hempty
    exact tilePtr_empty_tile I_nsTime st num h hempty

/-- C25, evaluated: slot 10 of `pixelRegistry` (a 2x2 tile with the pixels 1, 2, 3, 4,
cache empty) and slot 3 (the zero-size placeholder). -/
theorem tilePtr_spec_witness :
    (pixelRegistry.tiledata 10).rawCache.data = [] ∧
    (tilePtr 77 pixelRegistry 10).1 = some [1, 2, 3, 4] ∧
    (tilePtr 78 (tilePtr 77 pixelRegistry 10).2 10).1 = (tilePtr 77 pixelRegistry 10).1 ∧
    tilePtr 77 pixelRegistry 3 = (none, pixelRegistry) :=
  ⟨by decide,
   ((tilePtr_spec 77 pixelRegistry 10).1 (by decide) (FTexture.FLooseTile [1, 2, 3, 4] 2 2)
     (by decide) (by decide) (by decide)).1.trans (by decide),
   (tilePtr_spec 77 pixelRegistry 10).2.2.1 78,
   (tilePtr_spec 77 pixelRegistry 3).2.2.2 (by decide) (by decide)⟩

theorem tileDelete_rawCache (st : BuildTiles) (tile i : Int) :
    ((tileDelete st tile).tiledata i).rawCache = (st.tiledata i).rawCache := by
  unfold tileDelete tileRemoveReplacement DeleteReplacements
  simp only []
  split_ifs with h
  · rfl
  · show ((Function.update st.tiledata tile _) i).rawCache = _
    by_cases hi : i = tile
    · subst hi
      rw [Function.update_same]
    · rw [Function.update_noteq hi]

theorem InvalidateTile_clears (st : BuildTiles) (num : Int) (h0 : 0 ≤ num)
    (h1 : num < MAXTILES) :
    ((InvalidateTile st num).tiledata num).rawCache.data = [] := by
  have hu : toUInt32 num < MAXTILES := by
    unfold toUInt32 MAXTILES at *
    omega
  unfold InvalidateTile
  rw [if_pos hu]
  show ((Function.update st.tiledata num _) num).rawCache.data = []
  rw [Function.update_same]

set_option maxRecDepth 100000 in
/-- C26, evaluated: `AddTile`, `tileDelete` and a map-scope `LoadArtFile` leave the decode
cache of the slot as it is.  After `tilePtr` cached the pixels 1, 2, 3, 4 of slot 10,
`AddTile` installs there the tile with the pixels 9, 9, 9, 9, and the next `tilePtr`
still returns 1, 2, 3, 4; the same after `tileDelete` (the slot then holds the zero-size
placeholder) and after the archive `exampleArt` was loaded over the slot.
`InvalidateTile` on an in-range slot does clear the cache. -/
theorem AddTile_keeps_decode_cache :
    (tilePtr 77 pixelRegistry 10).1 = some [1, 2, 3, 4] ∧
    deref (AddTile (tilePtr 77 pixelRegistry 10).2 10 3 false)
        ((AddTile (tilePtr 77 pixelRegistry 10).2 10 3 false).tiles 10)
      = some (FTexture.FLooseTile [9, 9, 9, 9] 2 2) ∧
    ((AddTile (tilePtr 77 pixelRegistry 10).2 10 3 false).tiledata 10).rawCache.data
      = [1, 2, 3, 4] ∧
    (tilePtr 78 (AddTile (tilePtr 77 pixelRegistry 10).2 10 3 false) 10).1
      = some [1, 2, 3, 4] ∧
    (tileDelete (tilePtr 77 pixelRegistry 10).2 10).tiles 10 = 1 ∧
    (tilePtr 78 (tileDelete (tilePtr 77 pixelRegistry 10).2 10) 10).1 = some [1, 2, 3, 4] ∧
    (LoadArtFile exampleFileSystem (tilePtr 77 pixelRegistry 10).2 "e1l1_00.art" true
      (-1)).2.tiles 10 = 5 ∧
    (tilePtr 78 (LoadArtFile exampleFileSystem (tilePtr 77 pixelRegistry 10).2 "e1l1_00.art"
      true (-1)).2 10).1 = some [1, 2, 3, 4] ∧
    (∀ (st : BuildTiles) (tilenum : Int) (tex : TexPtr) (permap : Bool),
      (AddTile st tilenum tex permap).tiledata = st.tiledata) ∧
    (∀ (st : BuildTiles) (tile i : Int),
      ((tileDelete st tile).tiledata i).rawCache = (st.tiledata i).rawCache) ∧
    (∀ (st : BuildTiles) (num : Int), 0 ≤ num → num < MAXTILES →
      ((InvalidateTile st num).tiledata num).rawCache.data = []) := by
  refine ⟨by decide, by decide, by decide, by decide, by decide, by decide, by decide,
    by decide, ?_, ?_, ?_⟩
  · intro st tilenum tex permap
    exact AddTile_tiledata st tilenum tex permap
  · intro st tile i
    exact tileDelete_rawCache st tile i
  · intro st num h0 h1
    exact InvalidateTile_clears st num h0 h1

/-! ## `tileSetHightileReplacement` on success -/

/-- C30, evaluated: on slot 12 of `paletteRegistry` (an 8x8 tile), palette 3, the image
`sky_ft` (texture 21), requested alpha cut 1, scale (2, 2) and flags 0, the call
succeeds and appends an entry with face 0 = 21, scale (2, 2), palette 3 and flags 0,
whose alpha cut is 0 and not `min 1 1 = 1`.  In general a successful call with a
non-null image adds the entry with alpha cut 0: the assignment of `alphacut` is the
statement governed by `if (replace.faces[0] == nullptr)`. -/
theorem tileSetHightileReplacement_drops_alphacut :
    (tileSetHightileReplacement 256 exampleTexMan paletteRegistry 12 3 "sky_ft" 1 2 2 1 1 0).1
      = 0 ∧
    ((tileSetHightileReplacement 256 exampleTexMan paletteRegistry 12 3 "sky_ft" 1 2 2 1 1
        0).2.tiledata 12).Hightiles
      = [{ faces := [5, 0, 0, 0, 0, 0], palnum := 0 },
         { faces := [6, 6, 6, 6, 6, 6], palnum := 0 },
         { faces := [21, 0, 0, 0, 0, 0], scale := (2, 2), alphacut := 0, specpower := 1,
           specfactor := 1, palnum := 3, flags := 0 }] ∧
    min (1 : Rat) 1 = 1 ∧
    (∀ (MAXPALOOKUPS : Int) (TexMan : String → Option TexPtr) (st : BuildTiles)
      (picnum palnum : Int) (filename : String)
      (alphacut xscale yscale specpower specfactor : Rat) (flags : Int) (face : TexPtr),
      TexMan filename = some face → face ≠ nullptr →
      (tileSetHightileReplacement MAXPALOOKUPS TexMan st picnum palnum filename alphacut
        xscale yscale specpower specfactor flags).1 = 0 →
      (tileSetHightileReplacement MAXPALOOKUPS TexMan st picnum palnum filename alphacut
        xscale yscale specpower specfactor flags).2
        = AddReplacement st picnum
            { faces := [face, 0, 0, 0, 0, 0], scale := (xscale, yscale), alphacut := 0,
              specpower := specpower, specfactor := specfactor,
              palnum := toUInt16 palnum, flags := toUInt8 flags }) := by
  refine ⟨by decide, by decide, by decide, ?_⟩
  intro MAXPALOOKUPS TexMan st picnum palnum filename alphacut xscale yscale specpower
    specfactor flags face hface hnn hsucc
  unfold tileSetHightileReplacement at hsucc ⊢
  by_cases h1 : toUInt32 picnum ≥ toUInt32 MAXTILES
  · rw [if_pos h1] at hsucc
    exact absurd hsucc (by simp)
  · rw [if_neg h1] at hsucc ⊢
    by_cases h2 : toUInt32 palnum ≥ toUInt32 MAXPALOOKUPS
    · rw [if_pos h2] at hsucc
      exact absurd hsucc (by simp)
    · rw [if_neg h2] at hsucc ⊢
      by_cases h3 : GetTexelWidth st (st.tiles picnum) ≤ 0
          ∨ GetTexelHeight st (st.tiles picnum) ≤ 0
      · simp only [if_pos h3] at hsucc
        exact absurd hsucc (by simp)
      · simp only [if_neg h3, hface]
        simp only [List.set_cons_zero, List.getD_cons_zero]
        rw [if_neg hnn]

/-! ## `tileCreateRotated`: the pixels -/

/-- The assignments of the rotation loop for natural `w` and `h`: the pair of loop
variables `(x, y)` writes `dst[y * w + (w - 1 - x)]` from `src[x * h + y]`. -/
theorem tileCreateRotatedWrites_eq (w h : Nat) :
    tileCreateRotatedWrites (w : Int) (h : Int)
      = (List.range w ×ˢ List.range h).map
          fun p => (p.2 * w + (w - 1 - p.1), p.1 * h + p.2) := by
  show _ = (List.product (List.range w) (List.range h)).map _
  unfold tileCreateRotatedWrites
  rw [List.product.eq_1, List.map_flatMap, Int.toNat_ofNat, Int.toNat_ofNat,
    List.flatMap_def, List.flatMap_def]
  congr 1
  apply List.map_congr_left
  intro x hx
  rw [List.map_map]
  apply List.map_congr_left
  intro y _
  have hxw : x < w := List.mem_range.mp hx
  have e1 : ((y : Int) * (w : Int)) = ((y * w : Nat) : Int) := by push_cast; rfl
  have e2 : ((h : Int) * (x : Int)) = ((x * h : Nat) : Int) := by push_cast; ring
  show ((((y : Int) * (w : Int) + ((w : Int) - (x : Int) - 1)).toNat,
      ((y : Int) + (h : Int) * (x : Int)).toNat) : Nat × Nat)
    = (y * w + (w - 1 - x), x * h + y)
  rw [e1, e2]
  generalize y * w = P
  generalize x * h = Q
  apply Prod.ext
  · show ((P : Int) + ((w : Int) - (x : Int) - 1)).toNat = P + (w - 1 - x)
    omega
  · show ((y : Int) + (Q : Int)).toNat = Q + y
    omega

theorem cell_index_unique (a b c d w : Nat) (hb : b < w) (hd : d < w)
    (h : a * w + b = c * w + d) : a = c ∧ b = d := by
  have hw : 0 < w := by omega
  have h1 := (Nat.div_mod_unique hw (a := a * w + b) (d := a) (c := b)).mpr
    ⟨by rw [Nat.mul_comm w a]; omega, hb⟩
  have h2 := (Nat.div_mod_unique hw (a := a * w + b) (d := c) (c := d)).mpr
    ⟨by rw [Nat.mul_comm w c]; omega, hd⟩
  exact ⟨h1.1.symm.trans h2.1, h1.2.symm.trans h2.2⟩

theorem cell_index_lt (a b w h : Nat) (ha : a < h) (hb : b < w) : a * w + b < w * h := by
  have h1 : (a + 1) * w ≤ h * w := Nat.mul_le_mul_right w ha
  rw [Nat.succ_mul] at h1
  rw [Nat.mul_comm w h]
  omega

theorem tileCreateRotatedWrites_mem (w h : Nat) (p : Nat × Nat) :
    p ∈ tileCreateRotatedWrites (w : Int) (h : Int)
      ↔ ∃ x y : Nat, x < w ∧ y < h ∧ p = (y * w + (w - 1 - x), x * h + y) := by
  rw [tileCreateRotatedWrites_eq, List.mem_map]
  constructor
  · rintro ⟨⟨x, y⟩, hmem, rfl⟩
    rw [List.mem_product, List.mem_range, List.mem_range] at hmem
    exact ⟨x, y, hmem.1, hmem.2, rfl⟩
  · rintro ⟨x, y, hx, hy, rfl⟩
    refine ⟨(x, y), ?_, rfl⟩
    rw [List.mem_product, List.mem_range, List.mem_range]
    exact ⟨hx, hy⟩

theorem tileCreateRotatedWrites_length (w h : Nat) :
    (tileCreateRotatedWrites (w : Int) (h : Int)).length = w * h := by
  rw [tileCreateRotatedWrites_eq, List.length_map, List.length_product, List.length_range,
    List.length_range]

theorem tileCreateRotatedWrites_nodup_fst (w h : Nat) :
    ((tileCreateRotatedWrites (w : Int) (h : Int)).map Prod.fst).Nodup := by
  rw [tileCreateRotatedWrites_eq, List.map_map]
  apply List.Nodup.map_on
  · rintro ⟨x, y⟩ hxy ⟨x2, y2⟩ hxy2 heq
    rw [List.mem_product, List.mem_range, List.mem_range] at hxy hxy2
    have hu := cell_index_unique y (w - 1 - x) y2 (w - 1 - x2) w (by omega) (by omega) heq
    have hx : x = x2 := by omega
    rw [hu.1, hx]
  · exact List.Nodup.product (List.nodup_range w) (List.nodup_range h)

theorem tileCreateRotatedWrites_nodup_snd (w h : Nat) :
    ((tileCreateRotatedWrites (w : Int) (h : Int)).map Prod.snd).Nodup := by
  rw [tileCreateRotatedWrites_eq, List.map_map]
  apply List.Nodup.map_on
  · rintro ⟨x, y⟩ hxy ⟨x2, y2⟩ hxy2 heq
    rw [List.mem_product, List.mem_range, List.mem_range] at hxy hxy2
    have hu := cell_index_unique x y x2 y2 h hxy.2 hxy2.2 heq
    rw [hu.1, hu.2]
  · exact List.Nodup.product (List.nodup_range w) (List.nodup_range h)

theorem tileCreateRotatedWrites_perm_fst (w h : Nat) :
    ((tileCreateRotatedWrites (w : Int) (h : Int)).map Prod.fst).Perm (List.range (w * h)) := by
  apply List.Subperm.perm_of_length_le
  · apply List.subperm_of_subset (tileCreateRotatedWrites_nodup_fst w h)
    intro k hk
    rw [List.mem_map] at hk
    obtain ⟨p, hp, rfl⟩ := hk
    obtain ⟨x, y, hx, hy, rfl⟩ := (tileCreateRotatedWrites_mem w h p).mp hp
    rw [List.mem_range]
    exact cell_index_lt y (w - 1 - x) w h hy (by omega)
  · rw [List.length_map, tileCreateRotatedWrites_length, List.length_range]

theorem tileCreateRotatedWrites_perm_snd (w h : Nat) :
    ((tileCreateRotatedWrites (w : Int) (h : Int)).map Prod.snd).Perm (List.range (w * h)) := by
  apply List.Subperm.perm_of_length_le
  · apply List.subperm_of_subset (tileCreateRotatedWrites_nodup_snd w h)
    intro k hk
    rw [List.mem_map] at hk
    obtain ⟨p, hp, rfl⟩ := hk
    obtain ⟨x, y, hx, hy, rfl⟩ := (tileCreateRotatedWrites_mem w h p).mp hp
    rw [List.mem_range, Nat.mul_comm w h]
    exact cell_index_lt x y h w hx hy
  · rw [List.length_map, tileCreateRotatedWrites_length, List.length_range]

/-! A loop of assignments `dst[p.1] = src[p.2]` over a list of index pairs. -/

theorem foldl_set_length (src : List Byte) (l : List (Nat × Nat)) :
    ∀ d : List Byte, (l.foldl (fun d p => d.set p.1 (src.getD p.2 0)) d).length = d.length := by
  induction l with
  | nil => intro d; rfl
  | cons q rest ih =>
    intro d
    rw [List.foldl_cons, ih, List.length_set]

theorem foldl_set_of_not_mem (src : List Byte) (l : List (Nat × Nat)) (k : Nat) :
    ∀ d : List Byte, k ∉ l.map Prod.fst →
      (l.foldl (fun d p => d.set p.1 (src.getD p.2 0)) d)[k]? = d[k]? := by
  induction l with
  | nil => intro d _; rfl
  | cons q rest ih =>
    intro d hk
    rw [List.map_cons, List.mem_cons, not_or] at hk
    rw [List.foldl_cons, ih _ hk.2, List.getElem?_set, if_neg (fun e => hk.1 e.symm)]

theorem foldl_set_of_mem (src : List Byte) (l : List (Nat × Nat)) :
    ∀ d : List Byte, (l.map Prod.fst).Nodup → ∀ p ∈ l, p.1 < d.length →
      (l.foldl (fun d p => d.set p.1 (src.getD p.2 0)) d)[p.1]? = some (src.getD p.2 0) := by
  induction l with
  | nil => intro d _ p hp; exact absurd hp (List.not_mem_nil p)
  | cons q rest ih =>
    intro d hnd p hp hlt
    rw [List.map_cons, List.nodup_cons] at hnd
    rw [List.foldl_cons]
    rcases List.mem_cons.mp hp with hpq | hpr
    · subst hpq
      rw [foldl_set_of_not_mem src rest p.1 _ hnd.1, List.getElem?_set, if_pos rfl, if_pos hlt]
    · exact ih _ hnd.2 p hpr (by rw [List.length_set]; exact hlt)

theorem map_getD_range (l : List Byte) :
    (List.range l.length).map (fun k => l.getD k 0) = l := by
  apply List.ext_getElem?
  intro n
  rw [List.getElem?_map]
  by_cases hn : n < l.length
  · rw [List.getElem?_range hn, List.getElem?_eq_getElem hn]
    show some (l.getD n 0) = _
    rw [List.getD_eq_getElem?_getD, List.getElem?_eq_getElem hn]
    rfl
  · rw [List.getElem?_eq_none (by rw [List.length_range]; omega),
      List.getElem?_eq_none (by omega)]
    rfl

/-- The rotation loop on a source of `w * h` bytes and a destination of `w * h` bytes:
where each source pixel lands, and the destination as a permutation of the source. -/
theorem tileCreateRotatedLoop_spec (src dst0 : List Byte) (w h : Nat)
    (hsrc : src.length = w * h) (hdst : dst0.length = w * h) :
    (tileCreateRotatedLoop src (w : Int) (h : Int) dst0).length = w * h ∧
    (∀ x y : Nat, x < w → y < h →
      (tileCreateRotatedLoop src (w : Int) (h : Int) dst0)[y * w + (w - 1 - x)]?
        = src[x * h + y]?) ∧
    (tileCreateRotatedLoop src (w : Int) (h : Int) dst0).Perm src := by
  have hlen : (tileCreateRotatedLoop src (w : Int) (h : Int) dst0).length = w * h := by
    unfold tileCreateRotatedLoop
    rw [foldl_set_length, hdst]
  have hcell : ∀ p ∈ tileCreateRotatedWrites (w : Int) (h : Int),
      (tileCreateRotatedLoop src (w : Int) (h : Int) dst0)[p.1]? = some (src.getD p.2 0) := by
    intro p hp
    unfold tileCreateRotatedLoop
    apply foldl_set_of_mem src _ dst0 (tileCreateRotatedWrites_nodup_fst w h) p hp
    obtain ⟨x, y, hx, hy, rfl⟩ := (tileCreateRotatedWrites_mem w h p).mp hp
    rw [hdst]
    exact cell_index_lt y (w - 1 - x) w h hy (by omega)
  refine ⟨hlen, ?_, ?_⟩
  · intro x y hx hy
    have hp := hcell (y * w + (w - 1 - x), x * h + y)
      ((tileCreateRotatedWrites_mem w h _).mpr ⟨x, y, hx, hy, rfl⟩)
    have hlt : x * h + y < src.length := by
      rw [hsrc, Nat.mul_comm w h]
      exact cell_index_lt x y h w hx hy
    rw [hp, List.getD_eq_getElem?_getD, List.getElem?_eq_getElem hlt]
    rfl
  · have h1 : ((tileCreateRotatedWrites (w : Int) (h : Int)).map Prod.fst).map
        (fun k => (tileCreateRotatedLoop src (w : Int) (h : Int) dst0).getD k 0)
        = ((tileCreateRotatedWrites (w : Int) (h : Int)).map Prod.snd).map
            (fun k => src.getD k 0) := by
      rw [List.map_map, List.map_map]
      apply List.map_congr_left
      intro p hp
      show (tileCreateRotatedLoop src (w : Int) (h : Int) dst0).getD p.1 0 = src.getD p.2 0
      rw [List.getD_eq_getElem?_getD, hcell p hp]
      rfl
    have h2 := (tileCreateRotatedWrites_perm_fst w h).map
      (fun k => (tileCreateRotatedLoop src (w : Int) (h : Int) dst0).getD k 0)
    have h3 := (tileCreateRotatedWrites_perm_snd w h).map (fun k => src.getD k 0)
    rw [h1] at h2
    have h4 := map_getD_range (tileCreateRotatedLoop src (w : Int) (h : Int) dst0)
    have h5 := map_getD_range src
    rw [hlen] at h4
    rw [hsrc] at h5
    rw [h4] at h2
    rw [h5] at h3
    exact h2.symm.trans h3

/-! ## `tileCreateRotated`: the tile built and the slot used -/

theorem in_range_unsigned (x : Int) (h : 0 ≤ x ∧ x < MAXTILES) : ¬ toUInt32 x ≥ MAXTILES := by
  unfold toUInt32 MAXTILES at *
  omega

/-- What `tileCreateRotated` does on an in-range slot that holds a tile of positive width
and height. -/
theorem tileCreateRotated_eq (st : BuildTiles) (lastUnusedTile tileNum : Int) (t : FTexture)
    (hrange : 0 ≤ tileNum ∧ tileNum < MAXTILES)
    (ht : deref st (st.tiles tileNum) = some t)
    (hw : 0 < t.GetTexelWidth) (hh : 0 < t.GetTexelHeight) :
    tileCreateRotated st lastUnusedTile tileNum
      = ((findUnusedTile (newTexture st (FTexture.FLooseTile
            (tileCreateRotatedLoop (Get8BitPixels st t) t.GetTexelWidth t.GetTexelHeight
              (List.replicate (t.GetTexelWidth * t.GetTexelHeight).toNat 0))
            t.GetTexelHeight t.GetTexelWidth)).2 lastUnusedTile).1,
         AddTile (newTexture st (FTexture.FLooseTile
            (tileCreateRotatedLoop (Get8BitPixels st t) t.GetTexelWidth t.GetTexelHeight
              (List.replicate (t.GetTexelWidth * t.GetTexelHeight).toNat 0))
            t.GetTexelHeight t.GetTexelWidth)).2
          (findUnusedTile (newTexture st (FTexture.FLooseTile
            (tileCreateRotatedLoop (Get8BitPixels st t) t.GetTexelWidth t.GetTexelHeight
              (List.replicate (t.GetTexelWidth * t.GetTexelHeight).toNat 0))
            t.GetTexelHeight t.GetTexelWidth)).2 lastUnusedTile).1
          (st.texHeap.length + 1)
          (decide (st.tiles tileNum ≠ st.tilesbak tileNum)),
         (findUnusedTile (newTexture st (FTexture.FLooseTile
            (tileCreateRotatedLoop (Get8BitPixels st t) t.GetTexelWidth t.GetTexelHeight
              (List.replicate (t.GetTexelWidth * t.GetTexelHeight).toNat 0))
            t.GetTexelHeight t.GetTexelWidth)).2 lastUnusedTile).2) := by
  have hnn : st.tiles tileNum ≠ nullptr := by
    intro h0
    rw [h0] at ht
    exact Option.noConfusion ht
  have hW : GetTexelWidth st (st.tiles tileNum) = t.GetTexelWidth := by
    unfold GetTexelWidth; rw [ht]
  have hH : GetTexelHeight st (st.tiles tileNum) = t.GetTexelHeight := by
    unfold GetTexelHeight; rw [ht]
  have hne : ¬ (st.tiles tileNum = nullptr ∨ GetTexelWidth st (st.tiles tileNum) ≤ 0
      ∨ GetTexelHeight st (st.tiles tileNum) ≤ 0) := by
    rw [hW, hH]
    intro hor
    rcases hor with h1 | h1 | h1
    · exact hnn h1
    · omega
    · omega
  have hne2 : ¬ (st.tiles tileNum = nullptr ∨ t.GetTexelWidth ≤ 0 ∨ t.GetTexelHeight ≤ 0) := by
    rw [hW, hH] at hne
    exact hne
  unfold tileCreateRotated
  rw [if_neg (in_range_unsigned tileNum hrange)]
  simp only [hW, hH, ht, if_neg hne2]
  rfl

/-- C27: for an in-range slot that holds a tile of width `w > 0` and height `h > 0` with
the pixels `src` (`Get8BitPixels`, `w * h` bytes, column-major), `tileCreateRotated`
creates an `FLooseTile` of width `h` and height `w` (the new heap object, installed in
the slot it returns) whose buffer `dst` has `w * h` bytes with
`dst[y * w + (w - 1 - x)] = src[x * h + y]` for all `x < w`, `y < h`; the loop assigns
every index below `w * h` exactly once, and `dst` is a permutation of `src`. -/
theorem tileCreateRotated_pixels (st : BuildTiles) (lastUnusedTile tileNum : Int)
    (t : FTexture) (w h : Nat)
    (hrange : 0 ≤ tileNum ∧ tileNum < MAXTILES)
    (ht : deref st (st.tiles tileNum) = some t)
    (hw : t.GetTexelWidth = (w : Int)) (hh : t.GetTexelHeight = (h : Int))
    (hpos : 0 < w ∧ 0 < h) :
    ∃ dst : List Byte,
      dst = tileCreateRotatedLoop (Get8BitPixels st t) (w : Int) (h : Int)
        (List.replicate (w * h) 0) ∧
      deref (tileCreateRotated st lastUnusedTile tileNum).2.1 (st.texHeap.length + 1)
        = some (FTexture.FLooseTile dst (h : Int) (w : Int)) ∧
      (tileCreateRotated st lastUnusedTile tileNum).2.1.tiles
          (tileCreateRotated st lastUnusedTile tileNum).1
        = st.texHeap.length + 1 ∧
      (Get8BitPixels st t).length = w * h ∧
      dst.length = w * h ∧
      (∀ x y : Nat, x < w → y < h →
        dst[y * w + (w - 1 - x)]? = (Get8BitPixels st t)[x * h + y]?) ∧
      (∀ k : Nat, k < w * h →
        ((tileCreateRotatedWrites (w : Int) (h : Int)).map Prod.fst).count k = 1) ∧
      dst.Perm (Get8BitPixels st t) := by
  have hwp : 0 < t.GetTexelWidth := by rw [hw]; omega
  have hhp : 0 < t.GetTexelHeight := by rw [hh]; omega
  have hsrc : (Get8BitPixels st t).length = w * h := by
    rw [Get8BitPixels_length, hw, hh]
    have e : ((w : Int) * (h : Int)) = ((w * h : Nat) : Int) := by push_cast; rfl
    rw [e, Int.toNat_ofNat]
  have hrep : (t.GetTexelWidth * t.GetTexelHeight).toNat = w * h := by
    rw [hw, hh]
    have e : ((w : Int) * (h : Int)) = ((w * h : Nat) : Int) := by push_cast; rfl
    rw [e, Int.toNat_ofNat]
  have key := tileCreateRotatedLoop_spec (Get8BitPixels st t) (List.replicate (w * h) 0) w h
    hsrc (List.length_replicate _ _)
  refine ⟨_, rfl, ?_, ?_, hsrc, key.1, key.2.1, ?_, key.2.2⟩
  · rw [tileCreateRotated_eq st lastUnusedTile tileNum t hrange ht hwp hhp]
    show deref (AddTile _ _ _ _) (st.texHeap.length + 1) = _
    rw [deref_congr _ _ (AddTile_texHeap _ _ _ _)]
    rw [hrep, hw, hh]
    exact (deref_append st _ _ rfl).2
  · rw [tileCreateRotated_eq st lastUnusedTile tileNum t hrange ht hwp hhp]
    show (AddTile _ _ _ _).tiles _ = _
    rw [AddTile_tiles, Function.update_same]
  · intro k hk
    rw [(tileCreateRotatedWrites_perm_fst w h).count_eq k]
    exact List.count_eq_one_of_mem (List.nodup_range _) (List.mem_range.mpr hk)

/-- C27, evaluated: slot 10 of `pixelRegistry`, a 2x2 tile with the pixels 1, 2, 3, 4;
the rotated tile has the pixels 3, 1, 4, 2. -/
theorem tileCreateRotated_pixels_witness :
    ((0 : Int) ≤ 10 ∧ (10 : Int) < MAXTILES) ∧
    deref pixelRegistry (pixelRegistry.tiles 10) = some (FTexture.FLooseTile [1, 2, 3, 4] 2 2) ∧
    tileCreateRotatedLoop [1, 2, 3, 4] 2 2 [0, 0, 0, 0] = [3, 1, 4, 2] ∧
    (∃ dst : List Byte,
      dst = tileCreateRotatedLoop
        (Get8BitPixels pixelRegistry (FTexture.FLooseTile [1, 2, 3, 4] 2 2)) ((2 : Nat) : Int)
        ((2 : Nat) : Int) (List.replicate (2 * 2) 0) ∧
      deref (tileCreateRotated pixelRegistry 5 10).2.1 (pixelRegistry.texHeap.length + 1)
        = some (FTexture.FLooseTile dst ((2 : Nat) : Int) ((2 : Nat) : Int)) ∧
      (tileCreateRotated pixelRegistry 5 10).2.1.tiles (tileCreateRotated pixelRegistry 5 10).1
        = pixelRegistry.texHeap.length + 1 ∧
      (Get8BitPixels pixelRegistry (FTexture.FLooseTile [1, 2, 3, 4] 2 2)).length = 2 * 2 ∧
      dst.length = 2 * 2 ∧
      (∀ x y : Nat, x < 2 → y < 2 →
        dst[y * 2 + (2 - 1 - x)]?
          = (Get8BitPixels pixelRegistry (FTexture.FLooseTile [1, 2, 3, 4] 2 2))[x * 2 + y]?) ∧
      (∀ k : Nat, k < 2 * 2 →
        ((tileCreateRotatedWrites ((2 : Nat) : Int) ((2 : Nat) : Int)).map Prod.fst).count k
          = 1) ∧
      dst.Perm (Get8BitPixels pixelRegistry (FTexture.FLooseTile [1, 2, 3, 4] 2 2))) :=
  ⟨by decide, by decide, by decide,
   tileCreateRotated_pixels pixelRegistry 5 10 (FTexture.FLooseTile [1, 2, 3, 4] 2 2) 2 2
     (by decide) (by decide) rfl rfl (by decide)⟩

theorem findUnusedTileLoop_exhausted (st : BuildTiles) :
    ∀ (n : Nat) (lastUnusedTile : Int), (n : Int) = lastUnusedTile + 1 →
      (∀ i : Int, 0 ≤ i → i ≤ lastUnusedTile →
        ¬ (st.tiles i = nullptr ∨ GetTexelWidth st (st.tiles i) ≤ 0
          ∨ GetTexelHeight st (st.tiles i) ≤ 0)) →
      findUnusedTileLoop st n lastUnusedTile = (-1, -1) := by
  intro n
  induction n with
  | zero =>
    intro last hn _
    have hl : last = -1 := by omega
    rw [hl]
    rfl
  | succ n ih =>
    intro last hn hfull
    rw [findUnusedTileLoop]
    simp only [if_neg (hfull last (by omega) (le_refl last))]
    exact ih (last - 1) (by omega) (fun i h0 h1 => hfull i h0 (by omega))

/-- With no empty slot at or below the cursor `findUnusedTile` returns -1, and
`tileCreateRotated` hands that index to `AddTile`. -/
theorem tileCreateRotated_exhausted (st : BuildTiles) (lastUnusedTile tileNum : Int)
    (t : FTexture) (hrange : 0 ≤ tileNum ∧ tileNum < MAXTILES)
    (ht : deref st (st.tiles tileNum) = some t)
    (hw : 0 < t.GetTexelWidth) (hh : 0 < t.GetTexelHeight)
    (hlast : -1 ≤ lastUnusedTile)
    (hfull : ∀ i : Int, 0 ≤ i → i ≤ lastUnusedTile →
      ∃ u : FTexture, deref st (st.tiles i) = some u ∧ 0 < u.GetTexelWidth
        ∧ 0 < u.GetTexelHeight) :
    (tileCreateRotated st lastUnusedTile tileNum).1 = -1 ∧
    (tileCreateRotated st lastUnusedTile tileNum).2.1.tiles (-1) = st.texHeap.length + 1 := by
  have hfind : findUnusedTile (newTexture st (FTexture.FLooseTile
        (tileCreateRotatedLoop (Get8BitPixels st t) t.GetTexelWidth t.GetTexelHeight
          (List.replicate (t.GetTexelWidth * t.GetTexelHeight).toNat 0))
        t.GetTexelHeight t.GetTexelWidth)).2 lastUnusedTile = (-1, -1) := by
    unfold findUnusedTile
    apply findUnusedTileLoop_exhausted
    · omega
    · intro i h0 h1
      obtain ⟨u, hu, huw, huh⟩ := hfull i h0 h1
      have hd := (deref_append st (newTexture st (FTexture.FLooseTile
        (tileCreateRotatedLoop (Get8BitPixels st t) t.GetTexelWidth t.GetTexelHeight
          (List.replicate (t.GetTexelWidth * t.GetTexelHeight).toNat 0))
        t.GetTexelHeight t.GetTexelWidth)).2 _ rfl).1 (st.tiles i) u hu
      have hnn : st.tiles i ≠ nullptr := by
        intro h0
        rw [h0] at hu
        exact Option.noConfusion hu
      have hW : GetTexelWidth (newTexture st (FTexture.FLooseTile
          (tileCreateRotatedLoop (Get8BitPixels st t) t.GetTexelWidth t.GetTexelHeight
            (List.replicate (t.GetTexelWidth * t.GetTexelHeight).toNat 0))
          t.GetTexelHeight t.GetTexelWidth)).2 (st.tiles i) = u.GetTexelWidth := by
        unfold GetTexelWidth; rw [hd]
      have hH : GetTexelHeight (newTexture st (FTexture.FLooseTile
          (tileCreateRotatedLoop (Get8BitPixels st t) t.GetTexelWidth t.GetTexelHeight
            (List.replicate (t.GetTexelWidth * t.GetTexelHeight).toNat 0))
          t.GetTexelHeight t.GetTexelWidth)).2 (st.tiles i) = u.GetTexelHeight := by
        unfold GetTexelHeight; rw [hd]
      show ¬ (st.tiles i = nullptr ∨ GetTexelWidth _ (st.tiles i) ≤ 0
        ∨ GetTexelHeight _ (st.tiles i) ≤ 0)
      rw [hW, hH]
      intro hor
      rcases hor with h1 | h1 | h1
      · exact hnn h1
      · omega
      · omega
  rw [tileCreateRotated_eq st lastUnusedTile tileNum t hrange ht hw hh, hfind]
  refine ⟨rfl, ?_⟩
  show (AddTile _ (-1) _ _).tiles (-1) = _
  rw [AddTile_tiles, Function.update_same]

/-- C28, evaluated: in `fullRegistry` every slot holds a 3x2 tile, so no slot at or below
the start value `MAXUSERTILES - 1` of the cursor is empty.  `tileCreateRotated(5)` then
returns -1, which is not an index in `[0, MAXUSERTILES)`, and `AddTile(-1, ...)` stores
the new tile 3 in `tiles[-1]`, outside the table. -/
theorem tileCreateRotated_no_unused_tile :
    (∀ i : Int, fullRegistry.tiles i = 2) ∧
    deref fullRegistry 2 = some (FTexture.FLooseTile [1, 2, 3, 4, 5, 6] 3 2) ∧
    (tileCreateRotated fullRegistry (MAXUSERTILES - 1) 5).1 = -1 ∧
    ¬ (0 ≤ (tileCreateRotated fullRegistry (MAXUSERTILES - 1) 5).1
        ∧ (tileCreateRotated fullRegistry (MAXUSERTILES - 1) 5).1 < MAXUSERTILES) ∧
    fullRegistry.tiles (-1) = 2 ∧
    (tileCreateRotated fullRegistry (MAXUSERTILES - 1) 5).2.1.tiles (-1) = 3 := by
  have key := tileCreateRotated_exhausted fullRegistry (MAXUSERTILES - 1) 5
    (FTexture.FLooseTile [1, 2, 3, 4, 5, 6] 3 2) (by decide) (by decide) (by decide)
    (by decide) (by decide)
    (fun _ _ _ => ⟨FTexture.FLooseTile [1, 2, 3, 4, 5, 6] 3 2,
      (by decide : deref fullRegistry 2 = some (FTexture.FLooseTile [1, 2, 3, 4, 5, 6] 3 2)),
      by decide, by decide⟩)
  refine ⟨fun _ => rfl, by decide, key.1, ?_, rfl, key.2⟩
  rw [key.1]
  decide

/-! ## `tileCopySection` -/

theorem cell_bounds (X Y xs ys : Int) (hX : 0 ≤ X ∧ X < xs) (hY : 0 ≤ Y ∧ Y < ys) :
    0 ≤ X * ys + Y ∧ X * ys + Y < xs * ys := by
  have h1 : 0 ≤ X * ys := Int.mul_nonneg hX.1 (by omega)
  have h2 : (X + 1) * ys ≤ xs * ys := Int.mul_le_mul_of_nonneg_right (by omega) (by omega)
  have h3 : (X + 1) * ys = X * ys + ys := by ring
  rw [h3] at h2
  generalize X * ys = P at *
  generalize xs * ys = Q at *
  omega

theorem cell_inj (X Y x y ys : Int) (hY : 0 ≤ Y ∧ Y < ys) (hy : 0 ≤ y ∧ y < ys)
    (h : X * ys + Y = x * ys + y) : X = x ∧ Y = y := by
  have hX : X = x := by
    rcases lt_trichotomy X x with hlt | heq | hgt
    · exfalso
      have h2 : (X + 1) * ys ≤ x * ys := Int.mul_le_mul_of_nonneg_right (by omega) (by omega)
      have h3 : (X + 1) * ys = X * ys + ys := by ring
      rw [h3] at h2
      generalize X * ys = P at *
      generalize x * ys = Q at *
      omega
    · exact heq
    · exfalso
      have h2 : (x + 1) * ys ≤ X * ys := Int.mul_le_mul_of_nonneg_right (by omega) (by omega)
      have h3 : (x + 1) * ys = x * ys + ys := by ring
      rw [h3] at h2
      generalize X * ys = P at *
      generalize x * ys = Q at *
      omega
  subst hX
  exact ⟨rfl, by omega⟩

theorem loadByte_set (p : List Byte) (k i : Int) (v : Byte)
    (hk : 0 ≤ k ∧ k < (p.length : Int)) :
    loadByte (p.set k.toNat v) i = if i = k then some v else loadByte p i := by
  unfold loadByte
  rw [List.length_set]
  by_cases hi : 0 ≤ i ∧ i < (p.length : Int)
  · rw [if_pos hi, if_pos hi, List.getElem?_set]
    by_cases hik : i = k
    · subst hik
      rw [if_pos rfl, if_pos rfl, if_pos (by omega)]
    · rw [if_neg hik, if_neg (by omega)]
  · rw [if_neg hi, if_neg hi]
    by_cases hik : i = k
    · subst hik
      exact absurd hk hi
    · rw [if_neg hik]

theorem loadByte_some (p : List Byte) (i : Int) (h : 0 ≤ i ∧ i < (p.length : Int)) :
    ∃ v : Byte, loadByte p i = some v := by
  unfold loadByte
  rw [if_pos h]
  cases hx : p[i.toNat]? with
  | none =>
    rw [List.getElem?_eq_none_iff] at hx
    omega
  | some v => exact ⟨v, rfl⟩

/-- The wrapped counter `if (y1 >= ysiz1) y1 = 0` after `y1++` is the next residue. -/
theorem wrap_step (y1 d ys : Int) (h0 : 0 ≤ y1) (h1 : y1 < ys) :
    ((if y1 + 1 ≥ ys then 0 else y1 + 1) + (d - 1)) % ys = (y1 + d) % ys := by
  by_cases h : y1 + 1 ≥ ys
  · rw [if_pos h]
    have e : y1 + d = (0 + (d - 1)) + ys := by omega
    rw [e, Int.add_emod_self]
  · rw [if_neg h]
    have e : y1 + 1 + (d - 1) = y1 + d := by omega
    rw [e]

theorem wrap_range (y1 ys : Int) (h0 : 0 ≤ y1) (h1 : y1 < ys) :
    0 ≤ (if y1 + 1 ≥ ys then 0 else y1 + 1) ∧ (if y1 + 1 ≥ ys then 0 else y1 + 1) < ys := by
  by_cases h : y1 + 1 ≥ ys
  · rw [if_pos h]; omega
  · rw [if_neg h]; omega

/-- The inner loop of `tileCopySection` on column `x2` of the destination, read from
column `x1` of the source: it ends inside both buffers, and a destination pixel
`(X, Y)` is the source pixel at row `(y1 + (Y - y2)) mod ysiz1` when `X = x2`, `Y` is one
of the `n` rows from `y2` on and that source pixel is not transparent; it is unchanged
otherwise. -/
theorem tileCopySectionColumn_spec (T : Byte) (p1 : List Byte)
    (xsiz1 ysiz1 xsiz2 ysiz2 x1 x2 : Int)
    (hp1 : (p1.length : Int) = xsiz1 * ysiz1) (hx1 : 0 ≤ x1 ∧ x1 < xsiz1)
    (hys1 : 0 < ysiz1) (hys2 : 0 < ysiz2) :
    ∀ (n : Nat) (y1 y2 : Int) (p2 : List Byte), 0 ≤ y1 → y1 < ysiz1 →
      (p2.length : Int) = xsiz2 * ysiz2 →
      ∃ r : List Byte,
        tileCopySectionColumn T p1 ysiz1 xsiz2 ysiz2 x1 x2 n y1 y2 p2 = some r ∧
        r.length = p2.length ∧
        ∀ X Y : Int, 0 ≤ X → X < xsiz2 → 0 ≤ Y → Y < ysiz2 →
          loadByte r (X * ysiz2 + Y)
            = if (X = x2 ∧ y2 ≤ Y ∧ Y < y2 + (n : Int))
                ∧ loadByte p1 (x1 * ysiz1 + (y1 + (Y - y2)) % ysiz1) ≠ some T
              then loadByte p1 (x1 * ysiz1 + (y1 + (Y - y2)) % ysiz1)
              else loadByte p2 (X * ysiz2 + Y) := by
  intro n
  induction n with
  | zero =>
    intro y1 y2 p2 _ _ _
    refine ⟨p2, rfl, rfl, ?_⟩
    intro X Y _ _ _ _
    rw [if_neg]
    intro hc
    have := hc.1
    omega
  | succ n ih =>
    intro y1 y2 p2 hy0 hy1 hp2
    have hw := wrap_range y1 ysiz1 hy0 hy1
    have hsrcIdx := cell_bounds x1 y1 xsiz1 ysiz1 hx1 ⟨hy0, hy1⟩
    rw [← hp1] at hsrcIdx
    obtain ⟨src, hsrc⟩ := loadByte_some p1 (x1 * ysiz1 + y1) hsrcIdx
    have hmod0 : (y1 + (y2 - y2)) % ysiz1 = y1 := by
      have e : y1 + (y2 - y2) = y1 := by omega
      rw [e]
      exact Int.emod_eq_of_lt hy0 hy1
    rw [tileCopySectionColumn]
    by_cases hin : x2 ≥ 0 ∧ y2 ≥ 0 ∧ x2 < xsiz2 ∧ y2 < ysiz2
    · have hdstIdx := cell_bounds x2 y2 xsiz2 ysiz2 ⟨hin.1, hin.2.2.1⟩ ⟨hin.2.1, hin.2.2.2⟩
      rw [← hp2] at hdstIdx
      by_cases htr : src ≠ T
      · -- the pixel is copied
        have hwritten : storeByte p2 (x2 * ysiz2 + y2) src
            = some (p2.set (x2 * ysiz2 + y2).toNat src) := by
          unfold storeByte
          rw [if_pos hdstIdx]
        simp only [if_pos hin, hsrc, if_pos htr, hwritten]
        obtain ⟨r, hr, hrlen, hrspec⟩ := ih (if y1 + 1 ≥ ysiz1 then 0 else y1 + 1) (y2 + 1)
          (p2.set (x2 * ysiz2 + y2).toNat src) hw.1 hw.2 (by rw [List.length_set]; exact hp2)
        refine ⟨r, hr, by rw [hrlen, List.length_set], ?_⟩
        intro X Y hX0 hX1 hY0 hY1
        rw [hrspec X Y hX0 hX1 hY0 hY1, loadByte_set p2 _ _ src hdstIdx]
        have hstep : ((if y1 + 1 ≥ ysiz1 then 0 else y1 + 1) + (Y - (y2 + 1))) % ysiz1
            = (y1 + (Y - y2)) % ysiz1 := by
          have e : Y - (y2 + 1) = (Y - y2) - 1 := by omega
          rw [e]
          exact wrap_step y1 (Y - y2) ysiz1 hy0 hy1
        rw [hstep]
        by_cases hcell : X = x2 ∧ Y = y2
        · obtain ⟨hXe, hYe⟩ := hcell
          subst hXe
          subst hYe
          rw [if_neg (by intro hc; have := hc.1; omega), if_pos rfl, hmod0, hsrc]
          rw [if_pos ⟨⟨rfl, le_refl _, by omega⟩, by
            intro hc
            exact htr (Option.some.inj hc)⟩]
        · have hne : ¬ X * ysiz2 + Y = x2 * ysiz2 + y2 := by
            intro hc
            exact hcell (cell_inj X Y x2 y2 ysiz2 ⟨hY0, hY1⟩ ⟨hin.2.1, hin.2.2.2⟩ hc)
          rw [if_neg hne]
          by_cases hc : (X = x2 ∧ y2 ≤ Y ∧ Y < y2 + ((n + 1 : Nat) : Int))
              ∧ loadByte p1 (x1 * ysiz1 + (y1 + (Y - y2)) % ysiz1) ≠ some T
          · rw [if_pos hc, if_pos]
            refine ⟨⟨hc.1.1, ?_, ?_⟩, hc.2⟩
            · have := hc.1.2.1
              have hYne : Y ≠ y2 := fun e => hcell ⟨hc.1.1, e⟩
              omega
            · have := hc.1.2.2
              push_cast at this
              omega
          · rw [if_neg hc, if_neg]
            intro hc2
            apply hc
            refine ⟨⟨hc2.1.1, ?_, ?_⟩, hc2.2⟩
            · have := hc2.1.2.1
              omega
            · have := hc2.1.2.2
              push_cast
              omega
      · -- the pixel is transparent
        have htr2 : src = T := not_not.mp htr
        simp only [if_pos hin, hsrc, if_neg htr]
        obtain ⟨r, hr, hrlen, hrspec⟩ := ih (if y1 + 1 ≥ ysiz1 then 0 else y1 + 1) (y2 + 1)
          p2 hw.1 hw.2 hp2
        refine ⟨r, hr, hrlen, ?_⟩
        intro X Y hX0 hX1 hY0 hY1
        rw [hrspec X Y hX0 hX1 hY0 hY1]
        have hstep : ((if y1 + 1 ≥ ysiz1 then 0 else y1 + 1) + (Y - (y2 + 1))) % ysiz1
            = (y1 + (Y - y2)) % ysiz1 := by
          have e : Y - (y2 + 1) = (Y - y2) - 1 := by omega
          rw [e]
          exact wrap_step y1 (Y - y2) ysiz1 hy0 hy1
        rw [hstep]
        by_cases hYe : Y = y2
        · subst hYe
          rw [if_neg (by intro hc; have := hc.1; omega), if_neg]
          intro hc
          apply hc.2
          rw [hmod0, hsrc, htr2]
        · by_cases hc : (X = x2 ∧ y2 ≤ Y ∧ Y < y2 + ((n + 1 : Nat) : Int))
              ∧ loadByte p1 (x1 * ysiz1 + (y1 + (Y - y2)) % ysiz1) ≠ some T
          · rw [if_pos hc, if_pos]
            refine ⟨⟨hc.1.1, ?_, ?_⟩, hc.2⟩
            · have := hc.1.2.1
              omega
            · have := hc.1.2.2
              push_cast at this
              omega
          · rw [if_neg hc, if_neg]
            intro hc2
            apply hc
            refine ⟨⟨hc2.1.1, ?_, ?_⟩, hc2.2⟩
            · have := hc2.1.2.1
              omega
            · have := hc2.1.2.2
              push_cast
              omega
    · -- the destination pixel lies outside the tile
      simp only [if_neg hin]
      obtain ⟨r, hr, hrlen, hrspec⟩ := ih (if y1 + 1 ≥ ysiz1 then 0 else y1 + 1) (y2 + 1)
        p2 hw.1 hw.2 hp2
      refine ⟨r, hr, hrlen, ?_⟩
      intro X Y hX0 hX1 hY0 hY1
      rw [hrspec X Y hX0 hX1 hY0 hY1]
      have hstep : ((if y1 + 1 ≥ ysiz1 then 0 else y1 + 1) + (Y - (y2 + 1))) % ysiz1
          = (y1 + (Y - y2)) % ysiz1 := by
        have e : Y - (y2 + 1) = (Y - y2) - 1 := by omega
        rw [e]
        exact wrap_step y1 (Y - y2) ysiz1 hy0 hy1
      rw [hstep]
      have hcell : ¬ (X = x2 ∧ Y = y2) := by
        intro hc
        apply hin
        rw [← hc.1, ← hc.2]
        exact ⟨hX0, hY0, hX1, hY1⟩
      by_cases hc : (X = x2 ∧ y2 ≤ Y ∧ Y < y2 + ((n + 1 : Nat) : Int))
          ∧ loadByte p1 (x1 * ysiz1 + (y1 + (Y - y2)) % ysiz1) ≠ some T
      · rw [if_pos hc, if_pos]
        refine ⟨⟨hc.1.1, ?_, ?_⟩, hc.2⟩
        · have := hc.1.2.1
          have hYne : Y ≠ y2 := fun e => hcell ⟨hc.1.1, e⟩
          omega
        · have := hc.1.2.2
          push_cast at this
          omega
      · rw [if_neg hc, if_neg]
        intro hc2
        apply hc
        refine ⟨⟨hc2.1.1, ?_, ?_⟩, hc2.2⟩
        · have := hc2.1.2.1
          omega
        · have := hc2.1.2.2
          push_cast
          omega

/-- The outer loop of `tileCopySection`: `n` columns from `x2` on, read from the source
columns `(x1 + (X - x2)) mod xsiz1`, each over `ysiz` rows from `sy2` on. -/
theorem tileCopySectionLoop_spec (T : Byte) (p1 : List Byte)
    (xsiz1 ysiz1 xsiz2 ysiz2 sy1 ysiz sy2 : Int)
    (hp1 : (p1.length : Int) = xsiz1 * ysiz1) (hys1 : 0 < ysiz1) (hys2 : 0 < ysiz2)
    (hsy1 : 0 ≤ sy1 ∧ sy1 < ysiz1) :
    ∀ (n : Nat) (x1 x2 : Int) (p2 : List Byte), 0 ≤ x1 → x1 < xsiz1 →
      (p2.length : Int) = xsiz2 * ysiz2 →
      ∃ r : List Byte,
        tileCopySectionLoop T p1 xsiz1 ysiz1 xsiz2 ysiz2 sy1 ysiz sy2 n x1 x2 p2 = some r ∧
        r.length = p2.length ∧
        ∀ X Y : Int, 0 ≤ X → X < xsiz2 → 0 ≤ Y → Y < ysiz2 →
          loadByte r (X * ysiz2 + Y)
            = if (x2 ≤ X ∧ X < x2 + (n : Int) ∧ sy2 ≤ Y ∧ Y < sy2 + ysiz)
                ∧ loadByte p1 (((x1 + (X - x2)) % xsiz1) * ysiz1 + (sy1 + (Y - sy2)) % ysiz1)
                  ≠ some T
              then loadByte p1 (((x1 + (X - x2)) % xsiz1) * ysiz1 + (sy1 + (Y - sy2)) % ysiz1)
              else loadByte p2 (X * ysiz2 + Y) := by
  intro n
  induction n with
  | zero =>
    intro x1 x2 p2 _ _ _
    refine ⟨p2, rfl, rfl, ?_⟩
    intro X Y _ _ _ _
    rw [if_neg]
    intro hc
    have := hc.1
    omega
  | succ n ih =>
    intro x1 x2 p2 hx0 hx1 hp2
    have hw := wrap_range x1 xsiz1 hx0 hx1
    obtain ⟨c, hc, hclen, hcspec⟩ := tileCopySectionColumn_spec T p1 xsiz1 ysiz1 xsiz2 ysiz2
      x1 x2 hp1 ⟨hx0, hx1⟩ hys1 hys2 ysiz.toNat sy1 sy2 p2 hsy1.1 hsy1.2 hp2
    obtain ⟨r, hr, hrlen, hrspec⟩ := ih (if x1 + 1 ≥ xsiz1 then 0 else x1 + 1) (x2 + 1) c
      hw.1 hw.2 (by rw [hclen]; exact hp2)
    rw [tileCopySectionLoop]
    simp only [hc]
    refine ⟨r, hr, by rw [hrlen, hclen], ?_⟩
    intro X Y hX0 hX1 hY0 hY1
    have hR := hrspec X Y hX0 hX1 hY0 hY1
    have hC := hcspec X Y hX0 hX1 hY0 hY1
    have hstep : ((if x1 + 1 ≥ xsiz1 then 0 else x1 + 1) + (X - (x2 + 1))) % xsiz1
        = (x1 + (X - x2)) % xsiz1 := by
      have e : X - (x2 + 1) = (X - x2) - 1 := by omega
      rw [e]
      exact wrap_step x1 (X - x2) xsiz1 hx0 hx1
    rw [hstep] at hR
    by_cases hXe : X = x2
    · have hmod0 : (x1 + (X - x2)) % xsiz1 = x1 := by
        have e : x1 + (X - x2) = x1 := by omega
        rw [e]
        exact Int.emod_eq_of_lt hx0 hx1
      rw [if_neg (by intro h; have := h.1.1; omega)] at hR
      rw [hR, hC, hmod0]
      apply if_congr _ rfl rfl
      constructor
      · intro h
        refine ⟨?_, h.2⟩
        have := h.1
        push_cast
        omega
      · intro h
        refine ⟨?_, h.2⟩
        have := h.1
        push_cast at this
        omega
    · rw [if_neg (fun h => hXe h.1.1)] at hC
      rw [hR, hC]
      apply if_congr _ rfl rfl
      constructor
      · intro h
        refine ⟨?_, h.2⟩
        have := h.1
        push_cast
        omega
      · intro h
        refine ⟨?_, h.2⟩
        have := h.1
        push_cast at this
        omega

theorem tilePtr_frame (I_nsTime : Nat) (st : BuildTiles) (num : Int) :
    (tilePtr I_nsTime st num).2.tiles = st.tiles ∧
    (tilePtr I_nsTime st num).2.texHeap = st.texHeap := by
  unfold tilePtr
  by_cases h : (st.tiledata num).rawCache.data.length = 0
  · simp only [if_pos h]
    unfold tilePtrDecode
    by_cases hE : st.tiles num = nullptr ∨ GetTexelWidth st (st.tiles num) ≤ 0
        ∨ GetTexelHeight st (st.tiles num) ≤ 0
    · simp only [if_pos hE]
      refine ⟨?_, ?_⟩ <;> first | rfl | trivial
    · simp only [if_neg hE]
      refine ⟨?_, ?_⟩ <;> first | rfl | trivial
  · simp only [if_neg h]
    refine ⟨?_, ?_⟩ <;> first | rfl | trivial

theorem tileData_congr (st1 st2 : BuildTiles) (h1 : st1.tiles = st2.tiles)
    (h2 : st1.texHeap = st2.texHeap) (num : Int) : tileData st1 num = tileData st2 num := by
  unfold tileData
  rw [h1, deref_congr st1 st2 h2]

theorem InvalidateTile_frame (st : BuildTiles) (num : Int) :
    (InvalidateTile st num).tiles = st.tiles ∧ (InvalidateTile st num).texHeap = st.texHeap := by
  unfold InvalidateTile
  split_ifs <;> exact ⟨rfl, rfl⟩

theorem deref_set (st : BuildTiles) (q : Nat) (t new : FTexture) (hd : deref st q = some t) :
    deref { st with texHeap := st.texHeap.set (q - 1) new } q = some new := by
  unfold deref at hd ⊢
  by_cases h0 : q = 0
  · rw [if_pos h0] at hd
    exact Option.noConfusion hd
  · rw [if_neg h0] at hd
    rw [if_neg h0]
    have hlt : q - 1 < st.texHeap.length := by
      by_contra hge
      rw [List.getElem?_eq_none (by omega)] at hd
      exact Option.noConfusion hd
    show (st.texHeap.set (q - 1) new)[q - 1]? = some new
    rw [List.getElem?_set, if_pos rfl, if_pos hlt]

theorem tileData_setTileData (st : BuildTiles) (num : Int) (p buf : List Byte)
    (h : tileData st num = some p) : tileData (setTileData st num buf) num = some buf := by
  unfold tileData at h
  cases hd : deref st (st.tiles num) with
  | none => rw [hd] at h; exact Option.noConfusion h
  | some t =>
    rw [hd] at h
    cases t with
    | FWritableTile b w hh =>
      have key := deref_set st (st.tiles num) _ (FTexture.FWritableTile buf w hh) hd
      unfold setTileData tileData
      simp only [hd]
      rw [key]
    | FRestorableTile base b w hh =>
      have key := deref_set st (st.tiles num) _ (FTexture.FRestorableTile base buf w hh) hd
      unfold setTileData tileData
      simp only [hd]
      rw [key]
    | FArtTile a b c d => exact Option.noConfusion h
    | FLooseTile a b c => exact Option.noConfusion h
    | FDummyTile a b => exact Option.noConfusion h
    | FCanvasTexture a b => exact Option.noConfusion h

theorem setTileData_tiles (st : BuildTiles) (num : Int) (buf : List Byte) :
    (setTileData st num buf).tiles = st.tiles := by
  unfold setTileData
  split <;> rfl

/-- What `tileCopySection` does when the bytes `p1` that `tilePtr` returns for the source
are `xsiz1 * ysiz1` many, as they are when the decode cache of the source is empty or
holds the pixels of the tile the slot holds now.  With a source of size `xsiz1` by
`ysiz1`, a writable destination of size `xsiz2` by `ysiz2` with the bytes `p2`, and a
start inside the source, the call ends with every read and every write inside its
buffer; afterwards the destination pixel `(X, Y)` is the byte of `p1` at
`((sx1 + (X - sx2)) mod xsiz1, (sy1 + (Y - sy2)) mod ysiz1)` when `(X, Y)` lies in the
block of `xsiz` by `ysiz` pixels at `(sx2, sy2)` and that byte is not the transparent
index, and is the pixel of `p2` otherwise.  With an empty decode cache `p1` is
`Get8BitPixels` of the source tile. -/
theorem tileCopySection_spec (T : Byte) (I_nsTime : Nat) (st : BuildTiles)
    (tilenum1 sx1 sy1 xsiz ysiz tilenum2 sx2 sy2 xsiz1 ysiz1 xsiz2 ysiz2 : Int)
    (p1 p2 : List Byte)
    (hsiz1 : tilesiz st tilenum1 = (xsiz1, ysiz1))
    (hsiz2 : tilesiz st tilenum2 = (xsiz2, ysiz2))
    (hpos : 0 < xsiz1 ∧ 0 < ysiz1 ∧ 0 < xsiz2 ∧ 0 < ysiz2)
    (hsrc : (tilePtr I_nsTime st tilenum1).1 = some p1)
    (hlen1 : (p1.length : Int) = xsiz1 * ysiz1)
    (hdst : tileData st tilenum2 = some p2)
    (hlen2 : (p2.length : Int) = xsiz2 * ysiz2)
    (hstart : 0 ≤ sx1 ∧ sx1 < xsiz1 ∧ 0 ≤ sy1 ∧ sy1 < ysiz1) :
    ∃ (st2 : BuildTiles) (q2 : List Byte),
      tileCopySection T I_nsTime st tilenum1 sx1 sy1 xsiz ysiz tilenum2 sx2 sy2 = some st2 ∧
      tileData st2 tilenum2 = some q2 ∧
      q2.length = p2.length ∧
      (∀ X Y : Int, 0 ≤ X → X < xsiz2 → 0 ≤ Y → Y < ysiz2 →
        loadByte q2 (X * ysiz2 + Y)
          = if (sx2 ≤ X ∧ X < sx2 + xsiz ∧ sy2 ≤ Y ∧ Y < sy2 + ysiz)
              ∧ loadByte p1 (((sx1 + (X - sx2)) % xsiz1) * ysiz1 + (sy1 + (Y - sy2)) % ysiz1)
                ≠ some T
            then loadByte p1 (((sx1 + (X - sx2)) % xsiz1) * ysiz1 + (sy1 + (Y - sy2)) % ysiz1)
            else loadByte p2 (X * ysiz2 + Y)) ∧
      ((st.tiledata tilenum1).rawCache.data = [] →
        ∀ t : FTexture, deref st (st.tiles tilenum1) = some t → p1 = Get8BitPixels st t) := by
  have hfr := tilePtr_frame I_nsTime st tilenum1
  have hdst2 : tileData (tilePtr I_nsTime st tilenum1).2 tilenum2 = some p2 := by
    rw [tileData_congr _ st hfr.1 hfr.2]
    exact hdst
  obtain ⟨r, hr, hrlen, hrspec⟩ := tileCopySectionLoop_spec T p1 xsiz1 ysiz1 xsiz2 ysiz2
    sy1 ysiz sy2 hlen1 hpos.2.1 hpos.2.2.2 ⟨hstart.2.2.1, hstart.2.2.2⟩ xsiz.toNat sx1 sx2 p2
    hstart.1 hstart.2.1 hlen2
  have hpos2 : xsiz1 > 0 ∧ ysiz1 > 0 ∧ xsiz2 > 0 ∧ ysiz2 > 0 := hpos
  have hcall : tileCopySection T I_nsTime st tilenum1 sx1 sy1 xsiz ysiz tilenum2 sx2 sy2
      = some (InvalidateTile (setTileData (tilePtr I_nsTime st tilenum1).2 tilenum2 r)
          tilenum2) := by
    unfold tileCopySection
    simp only [hsiz1, hsiz2, if_pos hpos2, hdst2, hsrc, Option.getD_some, hr]
  refine ⟨_, r, hcall, ?_, hrlen, ?_, ?_⟩
  · have hI := InvalidateTile_frame
      (setTileData (tilePtr I_nsTime st tilenum1).2 tilenum2 r) tilenum2
    rw [tileData_congr _ _ hI.1 hI.2]
    exact tileData_setTileData _ tilenum2 p2 r hdst2
  · intro X Y hX0 hX1 hY0 hY1
    rw [hrspec X Y hX0 hX1 hY0 hY1]
    apply if_congr _ rfl rfl
    constructor
    · intro h
      refine ⟨?_, h.2⟩
      have := h.1
      omega
    · intro h
      refine ⟨?_, h.2⟩
      have := h.1
      omega
  · intro hcache t ht
    by_cases hE : st.tiles tilenum1 = nullptr ∨ GetTexelWidth st (st.tiles tilenum1) ≤ 0
        ∨ GetTexelHeight st (st.tiles tilenum1) ≤ 0
    · rw [tilePtr_empty_tile I_nsTime st tilenum1 hcache hE] at hsrc
      exact Option.noConfusion hsrc
    · have hW : GetTexelWidth st (st.tiles tilenum1) = t.GetTexelWidth := by
        unfold GetTexelWidth; rw [ht]
      have hH : GetTexelHeight st (st.tiles tilenum1) = t.GetTexelHeight := by
        unfold GetTexelHeight; rw [ht]
      have hw : 0 < t.GetTexelWidth := by
        by_contra hc
        exact hE (Or.inr (Or.inl (by rw [hW]; omega)))
      have hh : 0 < t.GetTexelHeight := by
        by_contra hc
        exact hE (Or.inr (Or.inr (by rw [hH]; omega)))
      rw [tilePtr_decode I_nsTime st tilenum1 t hcache ht hw hh] at hsrc
      exact (Option.some.inj hsrc).symm

/-- The 2x2 tile of slot 10 of `pixelRegistry` (pixels 1, 2, 3, 4, decode cache empty)
copied as a block of 2 by 2 to column 1, row 0 of the writable 3x2 tile of slot 11
(pixels 50 .. 55), transparent index 0: the destination becomes 50, 51, 1, 2, 3, 4. -/
theorem tileCopySection_spec_witness :
    tilesiz pixelRegistry 10 = (2, 2) ∧ tilesiz pixelRegistry 11 = (3, 2) ∧
    (tilePtr 7 pixelRegistry 10).1 = some [1, 2, 3, 4] ∧
    tileData pixelRegistry 11 = some [50, 51, 52, 53, 54, 55] ∧
    (tileCopySection 0 7 pixelRegistry 10 0 0 2 2 11 1 0).map (fun s => tileData s 11)
      = some (some [50, 51, 1, 2, 3, 4]) ∧
    (∃ (st2 : BuildTiles) (q2 : List Byte),
      tileCopySection 0 7 pixelRegistry 10 0 0 2 2 11 1 0 = some st2 ∧
      tileData st2 11 = some q2 ∧
      q2.length = ([50, 51, 52, 53, 54, 55] : List Byte).length ∧
      (∀ X Y : Int, 0 ≤ X → X < 3 → 0 ≤ Y → Y < 2 →
        loadByte q2 (X * 2 + Y)
          = if (1 ≤ X ∧ X < 1 + 2 ∧ 0 ≤ Y ∧ Y < 0 + 2)
              ∧ loadByte [1, 2, 3, 4] (((0 + (X - 1)) % 2) * 2 + (0 + (Y - 0)) % 2) ≠ some 0
            then loadByte [1, 2, 3, 4] (((0 + (X - 1)) % 2) * 2 + (0 + (Y - 0)) % 2)
            else loadByte [50, 51, 52, 53, 54, 55] (X * 2 + Y)) ∧
      ((pixelRegistry.tiledata 10).rawCache.data = [] →
        ∀ t : FTexture, deref pixelRegistry (pixelRegistry.tiles 10) = some t →
          [1, 2, 3, 4] = Get8BitPixels pixelRegistry t)) :=
  ⟨by decide, by decide, by decide, by decide, by decide,
   tileCopySection_spec 0 7 pixelRegistry 10 0 0 2 2 11 1 0 2 2 3 2 [1, 2, 3, 4]
     [50, 51, 52, 53, 54, 55] (by decide) (by decide) (by decide) (by decide) (by decide)
     (by decide) (by decide) (by decide)⟩

/-! ## `AddTiles` with a first-tile override that leaves the table -/

/-- C3, evaluated: `exampleArt` has a valid header and holds the tiles 10..12 (N = 3), the
last of them 1x1, and `firsttile = 30719` is non-negative, so the claim has slot
`30719 + 2 = 30721` receive the 1x1 tile.  The tables end at `MAXTILES - 1 = 30719`.
`AddTiles` tests neither `firsttile` nor the slot: `AddTile(30721, tex)` stores the new
tile through `tiles[30721]` and `tilesbak[30721]`, and the descriptor is stored through
`tiledata[30721]`, all three outside the arrays.  `LoadArtFile` with that override does
the same. -/
theorem AddTiles_override_leaves_table :
    CountTiles "" (fileBuffer loadedRegistry 0) = 3 ∧
    (0 < specTileWidth (fileBuffer loadedRegistry 0) 2 ∧
      0 < specTileHeight (fileBuffer loadedRegistry 0) 3 2) ∧
    (0 : Int) ≤ 30719 ∧
    ¬ ((30719 : Int) + 2 < MAXTILES) ∧
    loadedRegistry.tiles (30719 + 2) = 1 ∧
    (AddTiles loadedRegistry 30719 0 false).tiles (30719 + 2) = 3 ∧
    (AddTiles loadedRegistry 30719 0 false).tilesbak (30719 + 2) = 3 ∧
    deref (AddTiles loadedRegistry 30719 0 false) 3 = some (FTexture.FArtTile 0 44 1 1) ∧
    ((AddTiles loadedRegistry 30719 0 false).tiledata (30719 + 2)).picanm
      = tileConvertAnimFormat 268500805 ∧
    (LoadArtFile (fun _ => some exampleArt) exampleRegistry "tiles000.art" false
      30719).2.tiles (30719 + 2) = 3 ∧
    (LoadArtFile (fun _ => some exampleArt) exampleRegistry "tiles000.art" false
      30719).2.tilesbak (30719 + 2) = 3 := by
  decide

/-! ## The replacement kind and the overlay name on the states the program can reach -/

set_option maxRecDepth 100000 in
/-- C29, evaluated: `staleRegistry` is reached from `pixelRegistry` by `tilePtr(10)`, the
creation of a 3x3 tile and `AddTile(10, tex)`.  Its source slot 10 holds the 3x3 tile
with the pixels 11 .. 19 and its destination slot 11 a writable 3x2 tile, so every
condition of the claim holds for a copy from (0, 0).  `tilePtr(10)` returns the four
bytes that were cached for the 2x2 tile the slot held before.  The copy of a 3x3 section
reads the source at offsets up to 8, outside these four bytes (the model stops at the
first such read); the copy of a 1x3 section stays inside them and writes the pixels 1, 2
of the old tile where the claim has 11, 12. -/
theorem tileCopySection_reads_stale_cache :
    Reachable ⟨staleRegistry, ""⟩ ∧
    tilesiz staleRegistry 10 = (3, 3) ∧
    tilesiz staleRegistry 11 = (3, 2) ∧
    deref staleRegistry (staleRegistry.tiles 10)
      = some (FTexture.FLooseTile [11, 12, 13, 14, 15, 16, 17, 18, 19] 3 3) ∧
    tileData staleRegistry 11 = some [50, 51, 52, 53, 54, 55] ∧
    (tilePtr 78 staleRegistry 10).1 = some [1, 2, 3, 4] ∧
    (tileCopySection 255 78 staleRegistry 10 0 0 3 3 11 0 0).isNone = true ∧
    (tileCopySection 255 78 staleRegistry 10 0 0 1 3 11 0 0).map (fun s => tileData s 11)
      = some (some [1, 2, 52, 53, 54, 55]) := by
  refine ⟨?_, by decide⟩
  exact ⟨⟨pixelRegistry, ""⟩, ⟨rfl, fun _ => rfl⟩,
    Relation.ReflTransGen.tail
      (Relation.ReflTransGen.tail
        (Relation.ReflTransGen.single
          (GlobalsStep.registry ⟨pixelRegistry, ""⟩ _
            (RegistryStep.getPixels 77 pixelRegistry 10)))
        (GlobalsStep.registry ⟨(tilePtr 77 pixelRegistry 10).2, ""⟩ _
          (RegistryStep.allocate (tilePtr 77 pixelRegistry 10).2
            (FTexture.FLooseTile [11, 12, 13, 14, 15, 16, 17, 18, 19] 3 3))))
      (GlobalsStep.registry
        ⟨(newTexture (tilePtr 77 pixelRegistry 10).2
          (FTexture.FLooseTile [11, 12, 13, 14, 15, 16, 17, 18, 19] 3 3)).2, ""⟩ _
        (RegistryStep.addTile _ 10 5 false))⟩
end BuildTilesModel
